import Mathlib

/-!
# Library-management backend: analytics reports, access guards, borrow lifecycle, users

A shallow embedding of the analytics code of the repository
(`src/controllers/analyticsController.js`, the REST handlers, and
`src/graphql/resolvers/analyticsResolvers.js`, the GraphQL resolvers), of the
access guards (`src/middleware`, `src/routes/analyticsRoutes.js`), of the
borrow and book operations (`src/graphql/resolvers/borrowResolvers.js`,
`src/graphql/resolvers/bookResolvers.js`) and of the user operations
(`src/models/User.js`, `src/graphql/resolvers/userResolvers.js`,
`src/controllers/userController.js`, `src/routes/userRoutes.js`,
`src/middleware/validateUser.js`).

The reports are MongoDB aggregation pipelines.  Every pipeline stage is
embedded as a list function and every aggregation operator as a function on
values, so that a pipeline is the composition of its stages in source order.

Conventions of the embedding:

* a collection is a `List` of documents, an `ObjectId` is a `Nat`;
* a JavaScript / BSON number is an exact rational (`ℚ`), a count or a copy
  number an integer; binary floating point rounding is not modelled;
* a `Date` is its millisecond timestamp (`Int`);
* an operation that can throw returns `Except String _`;
* `$group` emits its groups in order of first appearance of the key and
  `$sort` is a stable sort: MongoDB leaves both orders open, and no theorem
  below depends on the choice among equal keys, except that the agreement of
  the two transports takes both to make the same choice;
* what lies outside the repository is a parameter: the regular-expression
  engine, `jwt`, `bcrypt`, the cast of a string to a date and the engine's
  `toLowerCase`.
-/

namespace Huemn

/-! ## Data model -/

/-- The `status` enum of `models/BorrowRecord.js`. -/
inductive Status where
  | active
  | returned
  | overdue
  deriving DecidableEq, Repr

/-- An optional `Date` field of a stored document: the field can be absent,
hold an explicit `null`, or hold a date (milliseconds since the epoch). -/
inductive DateField where
  | missing
  | null
  | date (ms : Int)
  deriving DecidableEq, Repr

/-- A document of the `borrowrecords` collection (`models/BorrowRecord.js`). -/
structure BorrowRecord where
  _id : Nat
  user : Nat
  book : Nat
  borrowDate : Int
  dueDate : Int
  returnDate : DateField
  status : Status
  fine : ℚ
  renewalCount : Int
  /-- Set by `timestamps: true` when the document is created. -/
  createdAt : Int := 0
  deriving DecidableEq, Repr

/-- Modelled from the spec: `models/Book.js` is not part of the sources; the
fields are those the spec lists for a Book ("title, author, isbn unique, genre,
publisher, totalCopies, availableCopies, isActive, timestamps"), the
timestamps being the `createdAt` and `updatedAt` that the GraphQL type `Book`
declares and that Mongoose keeps: `createdAt` is set when the document is
inserted, `updatedAt` at every write that modifies it. -/
structure Book where
  _id : Nat
  title : String
  author : String
  isbn : String
  genre : String
  publisher : String
  totalCopies : Int
  availableCopies : Int
  isActive : Bool
  createdAt : Int := 0
  updatedAt : Int := 0
  deriving DecidableEq, Repr

/-- A document of the `users` collection (`models/User.js`). -/
structure User where
  _id : Nat
  name : String
  email : String
  password : String
  role : String
  isActive : Bool
  membershipDate : Int
  /-- Set by `timestamps: true` when the document is created. -/
  createdAt : Int := 0
  /-- The version key Mongoose keeps on every document. -/
  __v : Nat := 0
  deriving DecidableEq, Repr

/-- The document store: the three collections. -/
structure Store where
  users : List User
  books : List Book
  borrowRecords : List BorrowRecord
  deriving DecidableEq, Repr

/-- The JSON body `{ success, count, data }` both transports answer with. -/
structure Response (α : Type) where
  success : Bool
  count : Nat
  data : List α
  deriving DecidableEq, Repr

deriving instance DecidableEq for Except

/-! ## Aggregation operators and stages -/

/-- The group keys of `$group`, each once, in order of first appearance. -/
def groupIds {κ : Type} [DecidableEq κ] : List κ → List κ
  | [] => []
  | k :: ks => k :: (groupIds ks).filter (fun j => j ≠ k)

/-- The `$divide` operator on numbers: the store rejects a zero divisor, and
the error fails the whole aggregation. -/
def divide (a b : ℚ) : Except String ℚ :=
  if b = 0 then .error "can\x27t $divide by zero" else .ok (a / b)

/-- The largest value a `$limit` stage accepts: the largest 64-bit integer. -/
def maxLimit : Int := 2 ^ 63 - 1

/-- The `$limit` stage: the limit has to be a positive 64-bit integer, `none`
stands for a JavaScript `null`. -/
def limitStage {α : Type} (limit : Option Int) (docs : List α) : Except String (List α) :=
  match limit with
  | none => .error "the limit must be specified as a number"
  | some n =>
    if 0 < n ∧ n ≤ maxLimit then .ok (docs.take n.toNat)
    else .error "the limit must be positive"

/-- Whether `c` is skipped by `parseInt` as leading white space. -/
def isStrWhiteSpace (c : Char) : Bool :=
  c.val ∈ [0x09, 0x0A, 0x0B, 0x0C, 0x0D, 0x20, 0xA0, 0x1680, 0x2028, 0x2029,
    0x202F, 0x205F, 0x3000, 0xFEFF] || (0x2000 ≤ c.val && c.val ≤ 0x200A)

/-- The value of a string of decimal digits read left to right. -/
def digitsValue (ds : List Char) : Nat :=
  ds.foldl (fun acc c => 10 * acc + (c.toNat - '0'.toNat)) 0

/-- JavaScript `parseInt(s, 10)`: skip leading white space, read an optional
sign, then the longest run of decimal digits; `none` is `NaN`.  The value is
the exact integer; JavaScript rounds it to a double beyond 2^53. -/
def parseInt (s : String) : Option Int :=
  let cs := s.toList.dropWhile isStrWhiteSpace
  let (neg, rest) :=
    match cs with
    | '-' :: t => (true, t)
    | '+' :: t => (false, t)
    | t => (false, t)
  let ds := rest.takeWhile Char.isDigit
  if ds = [] then none
  else if neg then some (-(digitsValue ds : Int)) else some (digitsValue ds)

/-- The expression `parseInt(req.query.limit, 10) || 10` of the REST handlers:
an absent parameter, `NaN` and `0` are falsy and give 10. -/
def queryLimit (q : Option String) : Int :=
  match q.bind parseInt with
  | none => 10
  | some n => if n = 0 then 10 else n

/-- A GraphQL argument as the resolver receives it: not supplied, an explicit
`null`, or a value. -/
inductive Arg (α : Type) where
  | absent
  | null
  | value (a : α)
  deriving DecidableEq, Repr

/-- The destructuring default `{ limit = 10 }`: only an absent argument takes
the default; `none` is a JavaScript `null`. -/
def Arg.orDefault {α : Type} (d : α) : Arg α → Option α
  | .absent => some d
  | .null => none
  | .value a => some a

/-- The guard `requireAuth` of the resolver files. -/
def requireAuth (user : Option User) : Except String Unit :=
  match user with
  | none => .error "Authentication required"
  | some _ => .ok ()

/-- The guard `requireAdmin` of the resolver files. -/
def requireAdmin (user : Option User) : Except String Unit := do
  requireAuth user
  match user with
  | some u => if u.role ≠ "Admin" then .error "Admin access required" else .ok ()
  | none => .ok ()

/-- The `catch (error)` of a resolver: rethrow with a prefixed message. -/
def rethrow {α : Type} (pre : String) (r : Except String α) : Except String α :=
  match r with
  | .ok a => .ok a
  | .error msg => .error (pre ++ msg)

/-! ## mostBorrowedBooks -/

/-- Output document of the `$group` stage keyed by `$book`. -/
structure BookGroup where
  _id : Nat
  borrowCount : Int
  activeBorrows : Int
  totalFines : ℚ
  deriving DecidableEq, Repr

/-- The stage `$group: { _id: '$book', ... }` over the borrow records. -/
def groupByBook (rs : List BorrowRecord) : List BookGroup :=
  (groupIds (rs.map fun r => r.book)).map fun k =>
    let g := rs.filter fun r => r.book = k
    { _id := k
      borrowCount := (g.map fun _ => (1 : Int)).sum
      activeBorrows := (g.map fun r => if r.status = Status.active then (1 : Int) else 0).sum
      totalFines := (g.map fun r => r.fine).sum }

/-- The stages `$lookup` from `books` on `_id` and `$unwind`: one document per
group and matching book. -/
def lookupBookDetails (books : List Book) (gs : List BookGroup) : List (BookGroup × Book) :=
  gs.flatMap fun g => (books.filter fun b => b._id = g._id).map fun b => (g, b)

/-- An entry of the report; `β` is the shape of the projected `book`. -/
structure BookPopularity (β : Type) where
  book : β
  borrowCount : Int
  activeBorrows : Int
  totalFines : ℚ
  popularityScore : ℚ
  deriving DecidableEq, Repr

/-- The `$project` stage; `proj` is the projection of `bookDetails`. -/
def projectPopularity {β : Type} (proj : Book → β) (d : BookGroup × Book) : BookPopularity β :=
  { book := proj d.2
    borrowCount := d.1.borrowCount
    activeBorrows := d.1.activeBorrows
    totalFines := d.1.totalFines
    popularityScore := (d.1.borrowCount : ℚ) * 0.7 + (d.1.activeBorrows : ℚ) * 0.3 }

/-- The order of `$sort: { borrowCount: -1, popularityScore: -1 }`. -/
def popularityOrder {β : Type} (e1 e2 : BookPopularity β) : Prop :=
  e2.borrowCount < e1.borrowCount ∨
    (e1.borrowCount = e2.borrowCount ∧ e2.popularityScore ≤ e1.popularityScore)

instance {β : Type} : DecidableRel (popularityOrder (β := β)) := fun _ _ =>
  inferInstanceAs (Decidable (_ ∨ _))

/-- The aggregation pipeline shared by the REST handler and the resolver. -/
def mostBorrowedPipeline {β : Type} (proj : Book → β) (limit : Option Int) (s : Store) :
    Except String (List (BookPopularity β)) :=
  let grouped := groupByBook s.borrowRecords
  let joined := lookupBookDetails s.books grouped
  let matched := joined.filter fun d => d.2.isActive = true
  let projected := matched.map (projectPopularity proj)
  let sorted := projected.insertionSort popularityOrder
  limitStage limit sorted

/-- The `book` sub-document the REST handler projects. -/
structure BookRef where
  id : Nat
  title : String
  author : String
  isbn : String
  genre : String
  deriving DecidableEq, Repr

/-- The projection `{ id, title, author, isbn, genre }` of the REST handler. -/
def bookRef (b : Book) : BookRef :=
  { id := b._id, title := b.title, author := b.author, isbn := b.isbn, genre := b.genre }

/-- REST handler `getMostBorrowedBooks`; `q` is `req.query.limit`. -/
def getMostBorrowedBooks (q : Option String) (s : Store) :
    Except String (Response (BookPopularity BookRef)) := do
  let limit := queryLimit q
  let results ← mostBorrowedPipeline bookRef (some limit) s
  pure { success := true, count := results.length, data := results }

/-- GraphQL resolver `mostBorrowedBooks`. -/
def mostBorrowedBooks (limit : Arg Int) (user : Option User) (s : Store) :
    Except String (Response (BookPopularity Book)) :=
  rethrow "Failed to fetch most borrowed books: " do
    requireAdmin user
    let results ← mostBorrowedPipeline id (limit.orDefault 10) s
    pure { success := true, count := results.length, data := results }

/-! ## mostActiveMembers -/

/-- The operator `$ne: [x, null]` on a date field: in an aggregation
expression an absent field is not equal to `null`. -/
def neNull : DateField → Bool
  | .null => false
  | _ => true

/-- The operator `$subtract: [x, d]` of a date field and a date: the
millisecond difference, `none` (null) when `x` is absent or null. -/
def subtractDates (x : DateField) (d : Int) : Option ℚ :=
  match x with
  | .date ms => some ((ms - d : Int) : ℚ)
  | _ => none

/-- The operator `$divide` by the non-zero literal `1000 * 60 * 60 * 24`; a
null dividend gives null.  The divisor is a constant, so the zero-divisor
error of `$divide` cannot arise here. -/
def divideByDayMs (x : Option ℚ) : Option ℚ :=
  x.map fun v => v / (1000 * 60 * 60 * 24)

/-- The accumulator `$avg`: the mean of the numeric values, non-numeric
(null) values are ignored, and null when there is no numeric value. -/
def avg (vs : List (Option ℚ)) : Option ℚ :=
  let nums := vs.reduceOption
  if nums = [] then none else some (nums.sum / (nums.length : ℚ))

/-- Rounding to the nearest integer, a tie going to the even neighbour. -/
def roundHalfEven (x : ℚ) : Int :=
  let f := Rat.floor x
  let d := x - (f : ℚ)
  if d < 1 / 2 then f
  else if 1 / 2 < d then f + 1
  else if f % 2 = 0 then f else f + 1

/-- The operator `$round: [x, 1]`: null stays null, a number is rounded to one
decimal place. -/
def round1 (x : Option ℚ) : Option ℚ :=
  x.map fun v => (roundHalfEven (v * 10) : ℚ) / 10

/-- Output document of the `$group` stage keyed by `$user`. -/
structure UserGroup where
  _id : Nat
  totalBorrows : Int
  activeBorrows : Int
  returnedBooks : Int
  overdueBooks : Int
  totalFines : ℚ
  totalRenewals : Int
  avgBorrowDuration : Option ℚ
  deriving DecidableEq, Repr

/-- The stage `$group: { _id: '$user', ... }`; `now` is the `new Date()` taken
when the pipeline is built. -/
def groupByUser (now : Int) (rs : List BorrowRecord) : List UserGroup :=
  (groupIds (rs.map fun r => r.user)).map fun k =>
    let g := rs.filter fun r => r.user = k
    { _id := k
      totalBorrows := (g.map fun _ => (1 : Int)).sum
      activeBorrows := (g.map fun r => if r.status = Status.active then (1 : Int) else 0).sum
      returnedBooks := (g.map fun r => if r.status = Status.returned then (1 : Int) else 0).sum
      overdueBooks :=
        (g.map fun r =>
          if r.status = Status.active ∧ r.dueDate < now then (1 : Int) else 0).sum
      totalFines := (g.map fun r => r.fine).sum
      totalRenewals := (g.map fun r => r.renewalCount).sum
      avgBorrowDuration :=
        avg (g.map fun r =>
          if neNull r.returnDate then divideByDayMs (subtractDates r.returnDate r.borrowDate)
          else none) }

/-- The stages `$lookup` from `users` on `_id` and `$unwind`. -/
def lookupUserDetails (users : List User) (gs : List UserGroup) : List (UserGroup × User) :=
  gs.flatMap fun g => (users.filter fun u => u._id = g._id).map fun u => (g, u)

/-- An entry of the report; `β` is the shape of the projected `user`. -/
structure MemberActivity (β : Type) where
  user : β
  totalBorrows : Int
  activeBorrows : Int
  returnedBooks : Int
  overdueBooks : Int
  totalFines : ℚ
  totalRenewals : Int
  avgBorrowDuration : Option ℚ
  activityScore : ℚ
  deriving DecidableEq, Repr

/-- The `$project` stage; `proj` is the projection of `userDetails`. -/
def projectActivity {β : Type} (proj : User → β) (d : UserGroup × User) : MemberActivity β :=
  { user := proj d.2
    totalBorrows := d.1.totalBorrows
    activeBorrows := d.1.activeBorrows
    returnedBooks := d.1.returnedBooks
    overdueBooks := d.1.overdueBooks
    totalFines := d.1.totalFines
    totalRenewals := d.1.totalRenewals
    avgBorrowDuration := round1 d.1.avgBorrowDuration
    activityScore :=
      (d.1.totalBorrows : ℚ) * 0.4 + (d.1.returnedBooks : ℚ) * 0.3
        + (d.1.totalRenewals : ℚ) * 0.2 + (0 - (d.1.overdueBooks : ℚ) * 0.1) }

/-- The order of `$sort: { totalBorrows: -1, activityScore: -1 }`. -/
def activityOrder {β : Type} (e1 e2 : MemberActivity β) : Prop :=
  e2.totalBorrows < e1.totalBorrows ∨
    (e1.totalBorrows = e2.totalBorrows ∧ e2.activityScore ≤ e1.activityScore)

instance {β : Type} : DecidableRel (activityOrder (β := β)) := fun _ _ =>
  inferInstanceAs (Decidable (_ ∨ _))

/-- The aggregation pipeline shared by the REST handler and the resolver. -/
def mostActivePipeline {β : Type} (proj : User → β) (now : Int) (limit : Option Int)
    (s : Store) : Except String (List (MemberActivity β)) :=
  let grouped := groupByUser now s.borrowRecords
  let joined := lookupUserDetails s.users grouped
  let matched := joined.filter fun d => d.2.isActive = true
  let projected := matched.map (projectActivity proj)
  let sorted := projected.insertionSort activityOrder
  limitStage limit sorted

/-- The `user` sub-document the REST handler projects. -/
structure UserRef where
  id : Nat
  name : String
  email : String
  role : String
  membershipDate : Int
  deriving DecidableEq, Repr

/-- The projection `{ id, name, email, role, membershipDate }` of the REST
handler. -/
def userRef (u : User) : UserRef :=
  { id := u._id, name := u.name, email := u.email, role := u.role,
    membershipDate := u.membershipDate }

/-- REST handler `getMostActiveMembers`; `q` is `req.query.limit`. -/
def getMostActiveMembers (now : Int) (q : Option String) (s : Store) :
    Except String (Response (MemberActivity UserRef)) := do
  let limit := queryLimit q
  let results ← mostActivePipeline userRef now (some limit) s
  pure { success := true, count := results.length, data := results }

/-- GraphQL resolver `mostActiveMembers`. -/
def mostActiveMembers (now : Int) (limit : Arg Int) (user : Option User) (s : Store) :
    Except String (Response (MemberActivity User)) :=
  rethrow "Failed to fetch most active members: " do
    requireAdmin user
    let results ← mostActivePipeline id now (limit.orDefault 10) s
    pure { success := true, count := results.length, data := results }

/-! ## bookAvailabilityReport -/

/-- The store's regular-expression engine behind `{ $regex: p, $options: 'i' }`,
a collaborator outside the repository: a pattern is either rejected with an
error or denotes a predicate on strings. -/
abbrev RegexEngine := String → Except String (String → Bool)

/-- The optional parameters `genre`, `author`, `search` of the report. -/
structure AvailabilityFilter where
  genre : Option String
  author : Option String
  search : Option String
  deriving DecidableEq, Repr

/-- JavaScript truthiness of an optional string, as tested by `if (genre)`:
the value when it is present and not the empty string. -/
def truthy : Option String → Option String
  | some s => if s = "" then none else some s
  | none => none

/-- The condition `{ $regex: p, $options: 'i' }` a truthy parameter adds to
`matchStage`; a falsy parameter adds no condition. -/
def regexCondition (rx : RegexEngine) (p : Option String) : Except String (String → Bool) :=
  match truthy p with
  | some pat => rx pat
  | none => .ok fun _ => true

/-- The `matchStage` object built by the handler, as a predicate on books:
`isActive: true`, and for each truthy parameter the matching condition. -/
def matchStage (rx : RegexEngine) (f : AvailabilityFilter) : Except String (Book → Bool) :=
  match regexCondition rx f.author, regexCondition rx f.search with
  | .error e, _ => .error e
  | .ok _, .error e => .error e
  | .ok authorRe, .ok searchRe =>
    .ok fun b =>
      b.isActive
        && (match truthy f.genre with
            | some g => decide (b.genre = g)
            | none => true)
        && authorRe b.author
        && (searchRe b.title || searchRe b.author || searchRe b.isbn)

/-- Output document of the inner `$group: { _id: null, ... }` of the second
`$lookup`. -/
structure BorrowStats where
  totalBorrows : Int
  totalFines : ℚ
  deriving DecidableEq, Repr

/-- A stage `$group: { _id: null, ... }`: no document for an empty input,
one document otherwise. -/
def groupAll {α β : Type} (acc : List α → β) (docs : List α) : List β :=
  match docs with
  | [] => []
  | _ :: _ => [acc docs]

/-- A book after the two `$lookup` stages. -/
structure BookWithBorrows where
  book : Book
  activeBorrows : List BorrowRecord
  borrowStats : List BorrowStats

/-- The two `$lookup` stages from `borrowrecords`. -/
def lookupBorrows (rs : List BorrowRecord) (b : Book) : BookWithBorrows :=
  { book := b
    activeBorrows := rs.filter fun r => r.book = b._id ∧ r.status = Status.active
    borrowStats :=
      groupAll
        (fun g =>
          { totalBorrows := (g.map fun _ => (1 : Int)).sum
            totalFines := (g.map fun r => r.fine).sum })
        (rs.filter fun r => r.book = b._id) }

/-- The stock label computed by the nested `$cond` of the `$project` stage. -/
def stockStatus (availableCopies totalCopies : Int) : String :=
  if availableCopies = 0 then "Out of Stock"
  else if (availableCopies : ℚ) < (totalCopies : ℚ) * 0.2 then "Low Stock"
  else "Available"

/-- An entry of the report; `β` is the shape of the projected book fields. -/
structure BookAvailabilityItem (β : Type) where
  book : β
  borrowedCopies : Int
  totalBorrows : Int
  totalFinesGenerated : ℚ
  availabilityPercentage : ℚ
  status : String
  deriving DecidableEq, Repr

/-- The `$project` stage of the report on one document; it fails when
`$divide` does. -/
def projectAvailability {β : Type} (proj : Book → β) (d : BookWithBorrows) :
    Except String (BookAvailabilityItem β) := do
  let ratio ← divide d.book.availableCopies d.book.totalCopies
  pure
    { book := proj d.book
      borrowedCopies := d.activeBorrows.length
      totalBorrows := ((d.borrowStats.map fun st => st.totalBorrows).head?).getD 0
      totalFinesGenerated := ((d.borrowStats.map fun st => st.totalFines).head?).getD 0
      availabilityPercentage := ratio * 100
      status := stockStatus d.book.availableCopies d.book.totalCopies }

/-- A `$project` stage with a fallible expression over all documents: the
aggregation fails as soon as one document does. -/
def projectStage {α β : Type} (f : α → Except String β) : List α → Except String (List β)
  | [] => .ok []
  | a :: as => do
    let b ← f a
    let bs ← projectStage f as
    pure (b :: bs)

/-- The order of `$sort: { availabilityPercentage: 1, totalBorrows: -1 }`. -/
def availabilityOrder {β : Type} (e1 e2 : BookAvailabilityItem β) : Prop :=
  e1.availabilityPercentage < e2.availabilityPercentage ∨
    (e1.availabilityPercentage = e2.availabilityPercentage ∧ e2.totalBorrows ≤ e1.totalBorrows)

instance {β : Type} : DecidableRel (availabilityOrder (β := β)) := fun _ _ =>
  inferInstanceAs (Decidable (_ ∨ _))

/-- The per-book aggregation `pipeline` of the report, after `$match`. -/
def availabilityPipeline {β : Type} (proj : Book → β) (matched : List Book)
    (rs : List BorrowRecord) : Except String (List (BookAvailabilityItem β)) := do
  let looked := matched.map (lookupBorrows rs)
  let projected ← projectStage (projectAvailability proj) looked
  pure (projected.insertionSort availabilityOrder)

/-- Output document of the `$group: { _id: null, ... }` of `summaryPipeline`. -/
structure SummaryGroup where
  totalBooks : Int
  totalCopies : Int
  totalAvailable : Int
  outOfStock : Int
  lowStock : Int
  deriving DecidableEq, Repr

/-- The `summary` object of the report. -/
structure AvailabilitySummary where
  totalBooks : Int
  totalCopies : Int
  totalAvailable : Int
  totalBorrowed : Int
  outOfStock : Int
  lowStock : Int
  availableBooks : Int
  overallAvailability : ℚ
  deriving DecidableEq, Repr

/-- The accumulators of the `$group` stage of `summaryPipeline`. -/
def summaryGroup (bs : List Book) : SummaryGroup :=
  { totalBooks := (bs.map fun _ => (1 : Int)).sum
    totalCopies := (bs.map fun b => b.totalCopies).sum
    totalAvailable := (bs.map fun b => b.availableCopies).sum
    outOfStock := (bs.map fun b => if b.availableCopies = 0 then (1 : Int) else 0).sum
    lowStock :=
      (bs.map fun b =>
        if 0 < b.availableCopies ∧ (b.availableCopies : ℚ) < (b.totalCopies : ℚ) * 0.2
        then (1 : Int) else 0).sum }

/-- The `$project` stage of `summaryPipeline`; it fails when `$divide` does. -/
def projectSummary (g : SummaryGroup) : Except String AvailabilitySummary := do
  let ratio ← divide g.totalAvailable g.totalCopies
  pure
    { totalBooks := g.totalBooks
      totalCopies := g.totalCopies
      totalAvailable := g.totalAvailable
      totalBorrowed := g.totalCopies - g.totalAvailable
      outOfStock := g.outOfStock
      lowStock := g.lowStock
      availableBooks := g.totalBooks - g.outOfStock
      overallAvailability := ratio * 100 }

/-- The aggregation `summaryPipeline` of the report, after `$match`. -/
def summaryPipeline (matched : List Book) : Except String (List AvailabilitySummary) :=
  projectStage projectSummary (groupAll summaryGroup matched)

/-- The summary answered when `summaryPipeline` yields no document. -/
def emptySummary : AvailabilitySummary :=
  { totalBooks := 0, totalCopies := 0, totalAvailable := 0, totalBorrowed := 0,
    outOfStock := 0, lowStock := 0, availableBooks := 0, overallAvailability := 0 }

/-- The JSON body `{ success, summary, count, data }` of the report. -/
structure AvailabilityResponse (β : Type) where
  success : Bool
  summary : AvailabilitySummary
  count : Nat
  data : List (BookAvailabilityItem β)
  deriving DecidableEq, Repr

/-- The stage `$match: matchStage` that opens both pipelines of the report,
over the `books` collection. -/
def matchBooks (rx : RegexEngine) (f : AvailabilityFilter) (books : List Book) :
    Except String (List Book) := do
  let keep ← matchStage rx f
  pure (books.filter keep)

/-- The body shared by the REST handler and the resolver, from the filter on:
build `matchStage`, run `pipeline`, run `summaryPipeline`, answer. -/
def availabilityReport {β : Type} (proj : Book → β) (rx : RegexEngine)
    (f : AvailabilityFilter) (s : Store) : Except String (AvailabilityResponse β) := do
  let matched ← matchBooks rx f s.books
  let books ← availabilityPipeline proj matched s.borrowRecords
  let summaries ← summaryPipeline matched
  pure
    { success := true
      summary := (summaries.head?).getD emptySummary
      count := books.length
      data := books }

/-- The book fields the REST handler projects into each entry. -/
structure BookInfo where
  _id : Nat
  title : String
  author : String
  isbn : String
  genre : String
  publisher : String
  totalCopies : Int
  availableCopies : Int
  deriving DecidableEq, Repr

/-- The fields `_id, title, author, isbn, genre, publisher, totalCopies,
availableCopies` kept by the REST `$project`, which puts them beside the
computed fields of the entry; they are grouped under `book` here. -/
def bookInfo (b : Book) : BookInfo :=
  { _id := b._id, title := b.title, author := b.author, isbn := b.isbn, genre := b.genre,
    publisher := b.publisher, totalCopies := b.totalCopies,
    availableCopies := b.availableCopies }

/-- REST handler `getBookAvailabilityReport`; `f` is `req.query`. -/
def getBookAvailabilityReport (rx : RegexEngine) (f : AvailabilityFilter) (s : Store) :
    Except String (AvailabilityResponse BookInfo) :=
  availabilityReport bookInfo rx f s

/-- The default `{}` of the resolver argument `filter`: no parameter set. -/
def emptyFilter : AvailabilityFilter := { genre := none, author := none, search := none }

/-- GraphQL resolver `bookAvailabilityReport`: the argument `filter` defaults
to `{}` when absent, and destructuring an explicit `null` throws.  Its
`$project` sets `book: '$$ROOT'`, the matched book document, of which the
schema type `Book` exposes the book fields. -/
def bookAvailabilityReport (rx : RegexEngine) (filter : Arg AvailabilityFilter)
    (user : Option User) (s : Store) : Except String (AvailabilityResponse Book) :=
  rethrow "Failed to fetch book availability report: " do
    requireAdmin user
    match filter.orDefault emptyFilter with
    | none => .error "Cannot destructure property \x27genre\x27 of \x27filter\x27 as it is null."
    | some f => availabilityReport id rx f s

/-! ## genreStats -/

/-- The stage `$lookup` from `borrowrecords` on `book`: the book with the
array `borrows` of the records referencing it. -/
def lookupGenreBorrows (rs : List BorrowRecord) (b : Book) : Book × List BorrowRecord :=
  (b, rs.filter fun r => r.book = b._id)

/-- Output document of the `$group` stage keyed by `$genre`. -/
structure GenreGroup where
  _id : String
  totalBooks : Int
  totalCopies : Int
  availableCopies : Int
  totalBorrows : Int
  activeBorrows : Int
  totalFines : ℚ
  deriving DecidableEq, Repr

/-- The stage `$group: { _id: '$genre', ... }` over the looked-up books. -/
def groupByGenre (docs : List (Book × List BorrowRecord)) : List GenreGroup :=
  (groupIds (docs.map fun d => d.1.genre)).map fun k =>
    let g := docs.filter fun d => d.1.genre = k
    { _id := k
      totalBooks := (g.map fun _ => (1 : Int)).sum
      totalCopies := (g.map fun d => d.1.totalCopies).sum
      availableCopies := (g.map fun d => d.1.availableCopies).sum
      totalBorrows := (g.map fun d => (d.2.length : Int)).sum
      activeBorrows :=
        (g.map fun d => ((d.2.filter fun r => r.status = Status.active).length : Int)).sum
      totalFines := (g.map fun d => d.2.foldl (fun value this => value + this.fine) 0).sum }

/-- An entry of the report. -/
structure GenreStats where
  genre : String
  totalBooks : Int
  totalCopies : Int
  availableCopies : Int
  borrowedCopies : Int
  totalBorrows : Int
  activeBorrows : Int
  totalFines : ℚ
  availabilityRate : ℚ
  popularityScore : ℚ
  deriving DecidableEq, Repr

/-- The `$project` stage on one group; `availabilityRate` divides without a
guard, `popularityScore` divides under `$cond: [{ $eq: ['$totalBooks', 0] }, 0, _]`. -/
def projectGenre (g : GenreGroup) : Except String GenreStats := do
  let ratio ← divide g.availableCopies g.totalCopies
  let popularity ← if g.totalBooks = 0 then pure 0 else divide g.totalBorrows g.totalBooks
  pure
    { genre := g._id
      totalBooks := g.totalBooks
      totalCopies := g.totalCopies
      availableCopies := g.availableCopies
      borrowedCopies := g.totalCopies - g.availableCopies
      totalBorrows := g.totalBorrows
      activeBorrows := g.activeBorrows
      totalFines := g.totalFines
      availabilityRate := ratio * 100
      popularityScore := popularity }

/-- The order of `$sort: { totalBorrows: -1, popularityScore: -1 }`. -/
def genreOrder (e1 e2 : GenreStats) : Prop :=
  e2.totalBorrows < e1.totalBorrows ∨
    (e1.totalBorrows = e2.totalBorrows ∧ e2.popularityScore ≤ e1.popularityScore)

instance : DecidableRel genreOrder := fun _ _ =>
  inferInstanceAs (Decidable (_ ∨ _))

/-- The aggregation pipeline of the report, the same in both transports. -/
def genreStatsPipeline (s : Store) : Except String (List GenreStats) := do
  let matched := s.books.filter fun b => b.isActive = true
  let looked := matched.map (lookupGenreBorrows s.borrowRecords)
  let grouped := groupByGenre looked
  let projected ← projectStage projectGenre grouped
  pure (projected.insertionSort genreOrder)

/-- REST handler `getGenreStats`. -/
def getGenreStats (s : Store) : Except String (Response GenreStats) := do
  let results ← genreStatsPipeline s
  pure { success := true, count := results.length, data := results }

/-- GraphQL resolver `genreStats`. -/
def genreStats (user : Option User) (s : Store) : Except String (Response GenreStats) :=
  rethrow "Failed to fetch genre statistics: " do
    requireAdmin user
    let results ← genreStatsPipeline s
    pure { success := true, count := results.length, data := results }

/-! ## Statements of the report contracts -/

/-- The metrics the report owes to book `b` of store `s`: the number of borrow
records referencing `b`, the number of those with status active, the sum of
their fines, and the weighted score. -/
def IsPopularityOf {β : Type} (s : Store) (b : Book) (e : BookPopularity β) : Prop :=
  e.borrowCount = ((s.borrowRecords.filter fun r => r.book = b._id).length : Int) ∧
  e.activeBorrows
    = ((s.borrowRecords.filter
        fun r => r.book = b._id ∧ r.status = Status.active).length : Int) ∧
  e.totalFines = ((s.borrowRecords.filter fun r => r.book = b._id).map fun r => r.fine).sum ∧
  e.popularityScore = 0.7 * (e.borrowCount : ℚ) + 0.3 * (e.activeBorrows : ℚ)

/-- Strict order by (borrowCount descending, popularityScore descending). -/
def StrictlyMoreBorrowed {β : Type} (e1 e2 : BookPopularity β) : Prop :=
  e1.borrowCount > e2.borrowCount ∨
    (e1.borrowCount = e2.borrowCount ∧ e1.popularityScore > e2.popularityScore)

instance {β : Type} : DecidableRel (StrictlyMoreBorrowed (β := β)) := fun _ _ =>
  inferInstanceAs (Decidable (_ ∨ _))

/-- The metrics the report owes to user `u` of store `s` at time `now`. -/
def IsActivityOf {β : Type} (now : Int) (s : Store) (u : User) (e : MemberActivity β) : Prop :=
  e.totalBorrows = ((s.borrowRecords.filter fun r => r.user = u._id).length : Int) ∧
  e.activeBorrows
    = ((s.borrowRecords.filter
        fun r => r.user = u._id ∧ r.status = Status.active).length : Int) ∧
  e.returnedBooks
    = ((s.borrowRecords.filter
        fun r => r.user = u._id ∧ r.status = Status.returned).length : Int) ∧
  e.overdueBooks
    = ((s.borrowRecords.filter
        fun r => r.user = u._id ∧ r.status = Status.active ∧ r.dueDate < now).length : Int) ∧
  e.totalRenewals
    = ((s.borrowRecords.filter fun r => r.user = u._id).map fun r => r.renewalCount).sum ∧
  e.activityScore
    = 0.4 * (e.totalBorrows : ℚ) + 0.3 * (e.returnedBooks : ℚ)
      + 0.2 * (e.totalRenewals : ℚ) - 0.1 * (e.overdueBooks : ℚ)

/-- The borrow durations in days, returnDate - borrowDate, of the records of
user `uid` whose returnDate is set. -/
def returnedDurations (s : Store) (uid : Nat) : List ℚ :=
  (s.borrowRecords.filter fun r => r.user = uid).filterMap fun r =>
    match r.returnDate with
    | .date ms => some (((ms - r.borrowDate : Int) : ℚ) / 86400000)
    | _ => none

/-- The value `v` is `x` rounded to one decimal place: a multiple of 1/10 at
distance at most 1/20 from `x`. -/
def IsRoundedToTenth (x v : ℚ) : Prop :=
  (∃ k : Int, v = (k : ℚ) / 10) ∧ |v - x| ≤ 1 / 20

/-- The avgBorrowDuration the report owes to the user with id `uid`: absent
(null) when the user has no record with a returnDate, otherwise the mean of
the durations of exactly those records, rounded to one decimal place. -/
def IsAvgDurationOf (s : Store) (uid : Nat) (a : Option ℚ) : Prop :=
  (returnedDurations s uid = [] → a = none) ∧
  (returnedDurations s uid ≠ [] →
    ∃ v, a = some v ∧
      IsRoundedToTenth
        ((returnedDurations s uid).sum / ((returnedDurations s uid).length : ℚ)) v)

/-- The label the report owes to a book with `a` available of `t` total copies. -/
def IsStockLabel (a t : Int) (label : String) : Prop :=
  (a = 0 → label = "Out of Stock") ∧
  (a ≠ 0 → (a : ℚ) < 0.2 * (t : ℚ) → label = "Low Stock") ∧
  (a ≠ 0 → ¬ (a : ℚ) < 0.2 * (t : ℚ) → label = "Available")

/-- The summary the report owes to a non-empty filtered set `bs` of books. -/
def IsSummaryOf (bs : List Book) (sm : AvailabilitySummary) : Prop :=
  sm.totalBooks = (bs.length : Int) ∧
  sm.totalCopies = (bs.map fun b => b.totalCopies).sum ∧
  sm.totalAvailable = (bs.map fun b => b.availableCopies).sum ∧
  sm.totalBorrowed = sm.totalCopies - sm.totalAvailable ∧
  sm.outOfStock = ((bs.filter fun b => b.availableCopies = 0).length : Int) ∧
  sm.availableBooks = sm.totalBooks - sm.outOfStock ∧
  sm.totalCopies ≠ 0 ∧
  sm.overallAvailability = 100 * (sm.totalAvailable : ℚ) / (sm.totalCopies : ℚ)

/-- The statistics the report owes to the genre of entry `e`: the aggregate of
the books with isActive = true of that genre and of the borrow records
referencing any of them. -/
def IsGenreStatsOf (s : Store) (e : GenreStats) : Prop :=
  let bs := s.books.filter fun b => b.isActive = true ∧ b.genre = e.genre
  let rs := s.borrowRecords.filter fun r => r.book ∈ bs.map fun b => b._id
  bs ≠ [] ∧
  e.totalBooks = (bs.length : Int) ∧
  e.totalCopies = (bs.map fun b => b.totalCopies).sum ∧
  e.availableCopies = (bs.map fun b => b.availableCopies).sum ∧
  e.totalBorrows = (rs.length : Int) ∧
  e.activeBorrows = ((rs.filter fun r => r.status = Status.active).length : Int) ∧
  e.totalFines = (rs.map fun r => r.fine).sum ∧
  e.borrowedCopies = e.totalCopies - e.availableCopies

/-! ## Sample data -/

/-- A sample active book. -/
def sampleBook (i : Nat) (genre : String) (total available : Int) : Book :=
  { _id := i, title := "Dune", author := "Frank Herbert", isbn := "9780441172719",
    genre := genre, publisher := "Ace", totalCopies := total, availableCopies := available,
    isActive := true }

/-- A sample borrow record, borrowed at time 0 and due after 14 days. -/
def sampleRecord (i user book : Nat) (status : Status) (returnDate : DateField) :
    BorrowRecord :=
  { _id := i, user := user, book := book, borrowDate := 0, dueDate := 1209600000,
    returnDate := returnDate, status := status, fine := 0, renewalCount := 0 }

/-- A sample active user. -/
def sampleUser (i : Nat) (role : String) : User :=
  { _id := i, name := "Asha", email := "asha@example.com", password := "$2a$12$hash",
    role := role, isActive := true, membershipDate := 0 }

/-- Two books, each borrowed once and not yet returned. -/
def tieStore : Store :=
  { users := [sampleUser 1 "Admin"]
    books := [sampleBook 1 "Fiction" 2 1, sampleBook 2 "Fiction" 2 1]
    borrowRecords :=
      [sampleRecord 1 1 1 Status.active DateField.missing,
       sampleRecord 2 1 2 Status.active DateField.missing] }

/-- The REST report on `tieStore`. -/
def tieReport : Response (BookPopularity BookRef) :=
  { success := true
    count := 2
    data :=
      [{ book := bookRef (sampleBook 1 "Fiction" 2 1), borrowCount := 1, activeBorrows := 1,
         totalFines := 0, popularityScore := 1 },
       { book := bookRef (sampleBook 2 "Fiction" 2 1), borrowCount := 1, activeBorrows := 1,
         totalFines := 0, popularityScore := 1 }] }

/-- Two members: the first returned two books after one and two days and holds
a third, the second holds one book and never returned any. -/
def memberStore : Store :=
  { users := [sampleUser 1 "Member", sampleUser 2 "Member"]
    books := [sampleBook 1 "Fiction" 2 1]
    borrowRecords :=
      [sampleRecord 1 1 1 Status.returned (DateField.date 86400000),
       sampleRecord 2 1 1 Status.returned (DateField.date 172800000),
       sampleRecord 3 1 1 Status.active DateField.missing,
       sampleRecord 4 2 1 Status.active DateField.null] }

/-- The REST report on `memberStore` at time 2000000000. -/
def memberReport : Response (MemberActivity UserRef) :=
  { success := true
    count := 2
    data :=
      [{ user := userRef (sampleUser 1 "Member"), totalBorrows := 3, activeBorrows := 1,
         returnedBooks := 2, overdueBooks := 1, totalFines := 0, totalRenewals := 0,
         avgBorrowDuration := some (3 / 2), activityScore := 17 / 10 },
       { user := userRef (sampleUser 2 "Member"), totalBorrows := 1, activeBorrows := 1,
         returnedBooks := 0, overdueBooks := 1, totalFines := 0, totalRenewals := 0,
         avgBorrowDuration := none, activityScore := 3 / 10 }] }

/-- A sample engine: every pattern is accepted and read as a literal, matched
as a case-insensitive substring. -/
def literalEngine : RegexEngine := fun p =>
  .ok fun s => decide (p.toLower.toList <:+: s.toLower.toList)

/-- Three books: one low on stock, one fully available, one out of stock. -/
def stockStore : Store :=
  { users := [sampleUser 1 "Admin"]
    books :=
      [sampleBook 1 "Fiction" 10 1, sampleBook 2 "Fiction" 4 4, sampleBook 3 "Science" 5 0]
    borrowRecords :=
      [sampleRecord 1 1 1 Status.active DateField.missing,
       sampleRecord 2 1 3 Status.returned (DateField.date 86400000)] }

/-- The REST availability report on `stockStore` without filter. -/
def stockReport : AvailabilityResponse BookInfo :=
  { success := true
    summary :=
      { totalBooks := 3, totalCopies := 19, totalAvailable := 5, totalBorrowed := 14,
        outOfStock := 1, lowStock := 1, availableBooks := 2, overallAvailability := 500 / 19 }
    count := 3
    data :=
      [{ book := bookInfo (sampleBook 3 "Science" 5 0), borrowedCopies := 0, totalBorrows := 1,
         totalFinesGenerated := 0, availabilityPercentage := 0, status := "Out of Stock" },
       { book := bookInfo (sampleBook 1 "Fiction" 10 1), borrowedCopies := 1,
         totalBorrows := 1, totalFinesGenerated := 0, availabilityPercentage := 10,
         status := "Low Stock" },
       { book := bookInfo (sampleBook 2 "Fiction" 4 4), borrowedCopies := 0, totalBorrows := 0,
         totalFinesGenerated := 0, availabilityPercentage := 100, status := "Available" }] }

/-- The REST genre report on `stockStore`. -/
def stockGenreReport : Response GenreStats :=
  { success := true
    count := 2
    data :=
      [{ genre := "Science", totalBooks := 1, totalCopies := 5, availableCopies := 0,
         borrowedCopies := 5, totalBorrows := 1, activeBorrows := 0, totalFines := 0,
         availabilityRate := 0, popularityScore := 1 },
       { genre := "Fiction", totalBooks := 2, totalCopies := 14, availableCopies := 5,
         borrowedCopies := 9, totalBorrows := 1, activeBorrows := 1, totalFines := 0,
         availabilityRate := 250 / 7, popularityScore := 1 / 2 }] }

/-- One active book of which the library holds no copy. -/
def zeroCopiesStore : Store :=
  { users := [sampleUser 1 "Admin"]
    books := [sampleBook 1 "Fiction" 0 0]
    borrowRecords := [] }

/-! ## Statements of the per-book availability contract -/

/-- The metrics the availability report owes to book `b` of store `s`: the
number of borrow records referencing `b` with status active, the number of
all borrow records referencing `b`, the sum of their fines, and the
availability percentage. -/
def IsAvailabilityOf {β : Type} (s : Store) (b : Book) (e : BookAvailabilityItem β) : Prop :=
  e.borrowedCopies
    = ((s.borrowRecords.filter
        fun r => r.book = b._id ∧ r.status = Status.active).length : Int) ∧
  e.totalBorrows = ((s.borrowRecords.filter fun r => r.book = b._id).length : Int) ∧
  e.totalFinesGenerated
    = ((s.borrowRecords.filter fun r => r.book = b._id).map fun r => r.fine).sum ∧
  b.totalCopies ≠ 0 ∧
  e.availabilityPercentage = 100 * (b.availableCopies : ℚ) / (b.totalCopies : ℚ)

/-! ## Access control over REST -/

/-- Modelled from the spec: `utils/appError.js` is not part of the sources; an
`AppError` is built from a message and the HTTP status the transport answers
with. -/
structure AppError where
  message : String
  statusCode : Nat
  deriving DecidableEq, Repr

/-- The middleware `requireAdmin` of `middleware/requireAdmin.js`; the
argument is `req.user`, `.ok ()` stands for `next()` and `.error e` for
`next(e)`. -/
def Middleware.requireAdmin (reqUser : Option User) : Except AppError Unit :=
  match reqUser with
  | none => .error { message := "Authentication required", statusCode := 401 }
  | some u =>
    if u.role ≠ "Admin" then .error { message := "Admin access required", statusCode := 403 }
    else .ok ()

/-- The token verifier `jwt.verify(token, secret)`, a collaborator outside the
repository: the `id` claim of a token it accepts, `none` when it throws. -/
abbrev JwtVerify := String → Option Nat

/-- The token read from the `authorization` header: the second of the pieces
between blanks when the header starts with `Bearer`. -/
def bearerToken (authorization : Option String) : Option String :=
  match authorization with
  | some h => if h.startsWith "Bearer" then (h.splitOn " ")[1]? else none
  | none => none

/-- The middleware `authMiddleware` of `middleware/auth.js`: `.ok u` stands for
`req.user = u; next()`. -/
def authMiddleware (verify : JwtVerify) (authorization : Option String) (s : Store) :
    Except AppError User :=
  match truthy (bearerToken authorization) with
  | none => .error { message := "Not authorized to access this route", statusCode := 401 }
  | some token =>
    match verify token with
    | none => .error { message := "Not authorized to access this route", statusCode := 401 }
    | some id =>
      match s.users.find? fun u => u._id = id with
      | none => .error { message := "User no longer exists", statusCode := 401 }
      | some u =>
        if !u.isActive then .error { message := "User no longer exists", statusCode := 401 }
        else .ok u

/-- The helper `getAuthenticatedUser` of `middleware/auth.js` that fills the
GraphQL context: the user, or `none` for `null`. -/
def getAuthenticatedUser (verify : JwtVerify) (authorization : Option String) (s : Store) :
    Option User :=
  match truthy (bearerToken authorization) with
  | none => none
  | some token =>
    match verify token with
    | none => none
    | some id =>
      match s.users.find? fun u => u._id = id with
      | none => none
      | some u => if !u.isActive then none else some u

/-- The four paths of `routes/analyticsRoutes.js`. -/
inductive AnalyticsPath where
  | mostBorrowedBooks
  | mostActiveMembers
  | bookAvailability
  | genreStats
  deriving DecidableEq, Repr

/-- The query parameters the analytics handlers read from `req.query`. -/
structure AnalyticsQuery where
  limit : Option String
  genre : Option String
  author : Option String
  search : Option String
  deriving DecidableEq, Repr

/-- The JSON body answered by one of the four analytics handlers. -/
inductive AnalyticsBody where
  | popularity (r : Response (BookPopularity BookRef))
  | activity (r : Response (MemberActivity UserRef))
  | availability (r : AvailabilityResponse BookInfo)
  | genres (r : Response GenreStats)
  deriving DecidableEq, Repr

/-- The handler a path of `routes/analyticsRoutes.js` is bound to. -/
def analyticsHandler (rx : RegexEngine) (now : Int) (path : AnalyticsPath)
    (query : AnalyticsQuery) (s : Store) : Except String AnalyticsBody :=
  match path with
  | .mostBorrowedBooks => (getMostBorrowedBooks query.limit s).map AnalyticsBody.popularity
  | .mostActiveMembers => (getMostActiveMembers now query.limit s).map AnalyticsBody.activity
  | .bookAvailability =>
    (getBookAvailabilityReport rx
      { genre := query.genre, author := query.author, search := query.search } s).map
      AnalyticsBody.availability
  | .genreStats => (getGenreStats s).map AnalyticsBody.genres

/-- The router of `routes/analyticsRoutes.js`: `authMiddleware`, then
`requireAdmin`, then the handler of the path.  An error of the handler goes to
the error middleware, which is not part of the sources; it is given the
status 500 here. -/
def analyticsRoutes (verify : JwtVerify) (rx : RegexEngine) (now : Int)
    (authorization : Option String) (path : AnalyticsPath) (query : AnalyticsQuery)
    (s : Store) : Except AppError AnalyticsBody :=
  match authMiddleware verify authorization s with
  | .error e => .error e
  | .ok u =>
    match Middleware.requireAdmin (some u) with
    | .error e => .error e
    | .ok _ =>
      match analyticsHandler rx now path query s with
      | .ok body => .ok body
      | .error msg => .error { message := msg, statusCode := 500 }

/-! ## Borrow lifecycle

The resolvers of `graphql/resolvers/borrowResolvers.js`.  An operation that
writes returns its result together with the store it leaves, so that an
operation that fails after a write keeps that write.

`models/BorrowRecord.js` declares the schema only, and `models/Book.js` is not
part of the sources: the model methods the resolvers call (`canUserBorrow`,
`isBookAvailable`, `borrowCopy`, and the `returnBook` and `renewBook` of a
record) and the policy constants are modelled from the spec. -/

/-- Modelled from the spec: the policy constants of the lifecycle are not part
of the sources.  The spec names MAX_ACTIVE_BORROWS, the loan period (a
duration, here in milliseconds) and finePerDay. -/
structure Policy where
  maxActiveBorrows : Nat
  loanPeriod : Int
  finePerDay : ℚ
  deriving DecidableEq, Repr

/-- The number of milliseconds of a day. -/
def dayMs : Int := 1000 * 60 * 60 * 24

/-- The query `findById` on the `borrowrecords` collection. -/
def BorrowRecord.findById (s : Store) (id : Nat) : Option BorrowRecord :=
  s.borrowRecords.find? fun r => r._id = id

/-- The query `findById` on the `books` collection. -/
def Book.findById (s : Store) (id : Nat) : Option Book :=
  s.books.find? fun b => b._id = id

/-- The fields `_id, name, email` a `populate('user', 'name email')` loads. -/
structure UserBrief where
  _id : Nat
  name : String
  email : String
  deriving DecidableEq, Repr

/-- The fields `_id, title, author, isbn` a
`populate('book', 'title author isbn')` loads. -/
structure BookBrief where
  _id : Nat
  title : String
  author : String
  isbn : String
  deriving DecidableEq, Repr

/-- A borrow record with its populated references; a reference to a document
that does not exist is populated with `null` (`none`). -/
structure PopulatedBorrow where
  record : BorrowRecord
  user : Option UserBrief
  book : Option BookBrief
  deriving DecidableEq, Repr

/-- The calls `.populate('user', 'name email').populate('book', 'title author isbn')`. -/
def populate (s : Store) (r : BorrowRecord) : PopulatedBorrow :=
  { record := r
    user :=
      (s.users.find? fun u => u._id = r.user).map fun u =>
        { _id := u._id, name := u.name, email := u.email }
    book :=
      (s.books.find? fun b => b._id = r.book).map fun b =>
        { _id := b._id, title := b.title, author := b.author, isbn := b.isbn } }

/-- The body `{ success, message, data }` of a borrow mutation or query;
`data` is `null` (`none`) when the document looked up is not found. -/
structure BorrowResponse where
  success : Bool
  message : Option String
  data : Option PopulatedBorrow
  deriving DecidableEq, Repr

/-- The ownership test the resolvers `borrow`, `returnBook` and `renewBook`
share: `user.role !== 'Admin' && borrow.user._id.toString() !== user.id`
throws 'Access denied' when true; reading `_id` of a `null` populated user
throws a TypeError. -/
def checkOwnership (caller : User) (borrow : PopulatedBorrow) : Except String Unit :=
  if caller.role ≠ "Admin" then
    match borrow.user with
    | none => .error "Cannot read properties of null (reading \x27_id\x27)"
    | some owner => if owner._id ≠ caller._id then .error "Access denied" else .ok ()
  else .ok ()

/-- GraphQL query `borrow`. -/
def borrow (id : Nat) (user : Option User) (s : Store) : Except String BorrowResponse :=
  rethrow "Failed to fetch borrow: " <|
    match requireAuth user, user with
    | .error e, _ => .error e
    | .ok _, none => .error "Authentication required"
    | .ok _, some caller =>
      match BorrowRecord.findById s id with
      | none => .error "Borrow record not found"
      | some r =>
        match checkOwnership caller (populate s r) with
        | .error e => .error e
        | .ok _ => .ok { success := true, message := none, data := some (populate s r) }

/-- Modelled from the spec: the static `canUserBorrow` of the BorrowRecord
model is called by `borrowBook` and is not part of the sources.  The spec:
"true iff active-record count < MAX_ACTIVE_BORROWS and no active record has
dueDate < now". -/
def BorrowRecord.canUserBorrow (policy : Policy) (now : Int) (s : Store) (userId : Nat) :
    Bool :=
  decide ((s.borrowRecords.filter
      fun r => r.user = userId ∧ r.status = Status.active).length < policy.maxActiveBorrows)
    && (s.borrowRecords.all fun r =>
      !(decide (r.user = userId) && decide (r.status = Status.active)
        && decide (r.dueDate < now)))

/-- Modelled from the spec: the method `isBookAvailable` of a Book is not part
of the sources.  The spec: "book.availableCopies > 0 and book.isActive". -/
def Book.isBookAvailable (b : Book) : Bool :=
  decide (0 < b.availableCopies) && b.isActive

/-- Modelled from the spec: the method `borrowCopy` of a Book is not part of
the sources.  The spec: "decrements book.availableCopies by 1", the decrement
being one that can fail ("if decrement fails, the operation must be treated as
failed overall"), namely a conditional update: "decrement where
availableCopies>0, fail if no row matched".  The write sets `updatedAt`. -/
def Book.borrowCopy (now : Int) (b : Book) (s : Store) : Except String Store :=
  match s.books.find? fun x => x._id = b._id with
  | none => .error "No copies available"
  | some stored =>
    if 0 < stored.availableCopies then
      .ok { s with
            books := s.books.map fun x =>
              if x._id = b._id then
                { x with availableCopies := x.availableCopies - 1, updatedAt := now }
              else x }
    else .error "No copies available"

/-- The object handed to `BorrowRecord.create`: each path of the schema is
given or absent.  A property that is no path of the schema, such as `notes`,
is dropped by the model and is left out here. -/
structure BorrowData where
  user : Option Nat
  book : Option Nat
  borrowDate : Option Int
  dueDate : Option Int
  returnDate : DateField
  status : Option Status
  fine : Option ℚ
  renewalCount : Option Int
  deriving DecidableEq, Repr

/-- The paths marked `required: true` in `borrowRecordSchema` that are still
absent after the defaults are applied (`borrowDate` has a default). -/
def BorrowData.missingPaths (d : BorrowData) : List String :=
  (if d.user.isNone then ["user"] else [])
    ++ (if d.book.isNone then ["book"] else [])
    ++ (if d.dueDate.isNone then ["dueDate"] else [])

/-- The message of the validation error for the absent required paths. -/
def validationMessage (paths : List String) : String :=
  "BorrowRecord validation failed: "
    ++ ", ".intercalate (paths.map fun p => p ++ ": Path `" ++ p ++ "` is required.")

/-- An id not used by any record of the store. -/
def freshRecordId (s : Store) : Nat :=
  (s.borrowRecords.map fun r => r._id).foldr max 0 + 1

/-- The call `BorrowRecord.create(data)` under `borrowRecordSchema`: the
defaults `borrowDate: Date.now`, `status: 'active'`, `fine: 0`,
`renewalCount: 0` are applied, the required paths are validated, and the
document is inserted. -/
def BorrowRecord.create (now : Int) (d : BorrowData) (s : Store) :
    Except String BorrowRecord × Store :=
  match d.user, d.book, d.dueDate with
  | some u, some b, some due =>
    let r : BorrowRecord :=
      { _id := freshRecordId s
        user := u
        book := b
        borrowDate := d.borrowDate.getD now
        dueDate := due
        returnDate := d.returnDate
        status := d.status.getD Status.active
        fine := d.fine.getD 0
        renewalCount := d.renewalCount.getD 0
        createdAt := now }
    (.ok r, { s with borrowRecords := s.borrowRecords ++ [r] })
  | _, _, _ => (.error (validationMessage d.missingPaths), s)

/-- The argument `input` of `borrowBook` (`CreateBorrowInput`). -/
structure CreateBorrowInput where
  userId : Nat
  bookId : Nat
  notes : Option String
  deriving DecidableEq, Repr

/-- GraphQL mutation `borrowBook`.  The record insert comes first and the copy
decrement second; a decrement that fails is answered as the failure of the
call with the inserted record kept, the resolver having no compensation. -/
def borrowBook (policy : Policy) (now : Int) (input : CreateBorrowInput)
    (user : Option User) (s : Store) : Except String BorrowResponse × Store :=
  match requireAuth user, user with
  | .error e, _ => (.error ("Failed to borrow book: " ++ e), s)
  | .ok _, none => (.error "Failed to borrow book: Authentication required", s)
  | .ok _, some caller =>
    let targetUserId := if caller.role = "Admin" then input.userId else caller._id
    if !BorrowRecord.canUserBorrow policy now s targetUserId then
      (.error
        "Failed to borrow book: User has reached maximum borrow limit or has overdue books",
        s)
    else
      match Book.findById s input.bookId with
      | none => (.error "Failed to borrow book: Book is not available for borrowing", s)
      | some book =>
        if !book.isBookAvailable then
          (.error "Failed to borrow book: Book is not available for borrowing", s)
        else
          let borrowData : BorrowData :=
            { user := some targetUserId, book := some input.bookId, borrowDate := none,
              dueDate := none, returnDate := DateField.missing, status := none,
              fine := none, renewalCount := none }
          match BorrowRecord.create now borrowData s with
          | (.error e, s1) => (.error ("Failed to borrow book: " ++ e), s1)
          | (.ok created, s1) =>
            match book.borrowCopy now s1 with
            | .error e => (.error ("Failed to borrow book: " ++ e), s1)
            | .ok s2 =>
              (.ok { success := true, message := some "Book borrowed successfully",
                     data := (BorrowRecord.findById s2 created._id).map (populate s2) }, s2)

/-- Modelled from the spec: the number of days a return at `now` is late.  The
spec: "daysLate = max(0, ceil((now − dueDate) in days))". -/
def daysLate (now dueDate : Int) : Int :=
  max 0 (Int.ceil (((now - dueDate : Int) : ℚ) / (dayMs : ℚ)))

/-- Modelled from the spec: the fine of a return at `now`.  The spec:
"fine = max(0, daysLate × finePerDay)". -/
def fineFor (policy : Policy) (now dueDate : Int) : ℚ :=
  max 0 ((daysLate now dueDate : ℚ) * policy.finePerDay)

/-- The call `save()` of a borrow record: the stored document with the same
`_id` is replaced. -/
def saveRecord (r : BorrowRecord) (s : Store) : Store :=
  { s with borrowRecords := s.borrowRecords.map fun x => if x._id = r._id then r else x }

/-- Modelled from the spec: the method `returnBook` of a borrow record is
called by the resolver and is not part of the sources.  The spec: "valid only
when record.status == active.  Sets returnDate=now, status=returned, computes
fine ...  Increments book.availableCopies by 1.  Fails with AlreadyReturned if
status != active". -/
def BorrowRecord.returnBook (policy : Policy) (now : Int) (r : BorrowRecord) (s : Store) :
    Except String BorrowRecord × Store :=
  if r.status ≠ Status.active then (.error "AlreadyReturned", s)
  else
    let returned : BorrowRecord :=
      { r with
        returnDate := DateField.date now
        status := Status.returned
        fine := fineFor policy now r.dueDate }
    let s1 := saveRecord returned s
    (.ok returned,
      { s1 with
        books := s1.books.map fun b =>
          if b._id = r.book then
            { b with availableCopies := b.availableCopies + 1, updatedAt := now }
          else b })

/-- Modelled from the spec: the method `renewBook` of a borrow record is
called by the resolver and is not part of the sources.  The spec: "valid only
when record.status == active and daysLate == 0.  Extends dueDate by
loanPeriod, increments renewalCount.  Fails with ... CannotRenewOverdue ... or
AlreadyReturned". -/
def BorrowRecord.renewBook (policy : Policy) (now : Int) (r : BorrowRecord) (s : Store) :
    Except String BorrowRecord × Store :=
  if r.status ≠ Status.active then (.error "AlreadyReturned", s)
  else if daysLate now r.dueDate ≠ 0 then (.error "CannotRenewOverdue", s)
  else
    let renewed : BorrowRecord :=
      { r with dueDate := r.dueDate + policy.loanPeriod, renewalCount := r.renewalCount + 1 }
    (.ok renewed, saveRecord renewed s)

/-- The argument `input` of `returnBook` and `updateBorrow`
(`UpdateBorrowInput`). -/
structure UpdateBorrowInput where
  returnDate : Option String
  status : Option String
  fine : Option ℚ
  notes : Option String
  deriving DecidableEq, Repr

/-- GraphQL mutation `returnBook`.  The argument `input` defaults to `{}` when
absent; an explicit `null` makes `input.notes` throw after the return is
done.  `notes` is no path of the schema, so saving it changes no stored
field. -/
def returnBook (policy : Policy) (now : Int) (id : Nat) (input : Arg UpdateBorrowInput)
    (user : Option User) (s : Store) : Except String BorrowResponse × Store :=
  match requireAuth user, user with
  | .error e, _ => (.error ("Failed to return book: " ++ e), s)
  | .ok _, none => (.error "Failed to return book: Authentication required", s)
  | .ok _, some caller =>
    match BorrowRecord.findById s id with
    | none => (.error "Failed to return book: Borrow record not found", s)
    | some r =>
      match checkOwnership caller (populate s r) with
      | .error e => (.error ("Failed to return book: " ++ e), s)
      | .ok _ =>
        if r.status ≠ Status.active then
          (.error "Failed to return book: Book has already been returned", s)
        else
          match BorrowRecord.returnBook policy now r s with
          | (.error e, s1) => (.error ("Failed to return book: " ++ e), s1)
          | (.ok returned, s1) =>
            match input with
            | .null =>
              (.error
                "Failed to return book: Cannot read properties of null (reading \x27notes\x27)",
                s1)
            | _ =>
              (.ok { success := true, message := some "Book returned successfully",
                     data := some (populate s1 returned) }, s1)

/-- GraphQL mutation `renewBook`. -/
def renewBook (policy : Policy) (now : Int) (id : Nat) (user : Option User) (s : Store) :
    Except String BorrowResponse × Store :=
  match requireAuth user, user with
  | .error e, _ => (.error ("Failed to renew book: " ++ e), s)
  | .ok _, none => (.error "Failed to renew book: Authentication required", s)
  | .ok _, some caller =>
    match BorrowRecord.findById s id with
    | none => (.error "Failed to renew book: Borrow record not found", s)
    | some r =>
      match checkOwnership caller (populate s r) with
      | .error e => (.error ("Failed to renew book: " ++ e), s)
      | .ok _ =>
        match BorrowRecord.renewBook policy now r s with
        | (.error e, s1) => (.error ("Failed to renew book: " ++ e), s1)
        | (.ok renewed, s1) =>
          (.ok { success := true, message := some "Book renewed successfully",
                 data := some (populate s1 renewed) }, s1)

/-! ## Book mutations

The resolvers `createBook` and `updateBook` of
`graphql/resolvers/bookResolvers.js`. -/

/-- Modelled from the spec: `models/Book.js` is not part of the sources.  What
`createBook` and `updateBook` need of the schema is taken as given: which
values of `totalCopies` its validators accept, and the `availableCopies` a
book created with a given `totalCopies` starts with. -/
structure BookSchema where
  validTotalCopies : Int → Bool
  initialAvailable : Int → Int

/-- The argument `input` of `createBook` (`CreateBookInput`), for the fields
of `Book` that are modelled. -/
structure CreateBookInput where
  title : String
  author : String
  isbn : String
  genre : String
  totalCopies : Int
  publisher : Option String
  deriving DecidableEq, Repr

/-- The argument `input` of `updateBook` (`UpdateBookInput`), for the fields
of `Book` that are modelled. -/
structure UpdateBookInput where
  title : Option String
  author : Option String
  isbn : Option String
  genre : Option String
  totalCopies : Option Int
  publisher : Option String
  isActive : Option Bool
  deriving DecidableEq, Repr

/-- The body `{ success, message, data }` of a book mutation. -/
structure BookResponse where
  success : Bool
  message : Option String
  data : Option Book
  deriving DecidableEq, Repr

/-- An error thrown by a write to the `books` collection: a validation error,
or the duplicate-key error (code 11000) of the unique index on `isbn`. -/
inductive WriteError where
  | validation (msg : String)
  | duplicateKey (msg : String)
  deriving DecidableEq, Repr

/-- The message of a write error. -/
def WriteError.message : WriteError → String
  | .validation msg => msg
  | .duplicateKey msg => msg

/-- An id not used by any book of the store. -/
def freshBookId (s : Store) : Nat :=
  (s.books.map fun b => b._id).foldr max 0 + 1

/-- The call `Book.create(input)`: the input is validated, the unique index
on `isbn` is checked, and the document is inserted with `isActive: true`. -/
def Book.create (schema : BookSchema) (now : Int) (input : CreateBookInput) (s : Store) :
    Except WriteError Book × Store :=
  if !schema.validTotalCopies input.totalCopies then
    (.error (.validation "Book validation failed: totalCopies"), s)
  else if s.books.any fun b => b.isbn = input.isbn then
    (.error (.duplicateKey "E11000 duplicate key error collection: books index: isbn_1"), s)
  else
    let b : Book :=
      { _id := freshBookId s
        title := input.title
        author := input.author
        isbn := input.isbn
        genre := input.genre
        publisher := input.publisher.getD ""
        totalCopies := input.totalCopies
        availableCopies := schema.initialAvailable input.totalCopies
        isActive := true
        createdAt := now
        updatedAt := now }
    (.ok b, { s with books := s.books ++ [b] })

/-- GraphQL mutation `createBook`. -/
def createBook (schema : BookSchema) (now : Int) (input : CreateBookInput)
    (user : Option User) (s : Store) : Except String BookResponse × Store :=
  match requireAdmin user with
  | .error e => (.error ("Failed to create book: " ++ e), s)
  | .ok _ =>
    match Book.create schema now input s with
    | (.error (.duplicateKey _), s1) => (.error "ISBN already exists", s1)
    | (.error (.validation msg), s1) => (.error ("Failed to create book: " ++ msg), s1)
    | (.ok book, s1) =>
      (.ok { success := true, message := some "Book created successfully",
             data := some book }, s1)

/-- The document `findByIdAndUpdate` stores for book `b` and update `input`:
each field the input gives replaces the stored one, and `updatedAt` is set. -/
def applyBookUpdate (now : Int) (input : UpdateBookInput) (b : Book) : Book :=
  { b with
    title := input.title.getD b.title
    author := input.author.getD b.author
    isbn := input.isbn.getD b.isbn
    genre := input.genre.getD b.genre
    totalCopies := input.totalCopies.getD b.totalCopies
    publisher := input.publisher.getD b.publisher
    isActive := input.isActive.getD b.isActive
    updatedAt := now }

/-- The call `Book.findByIdAndUpdate(id, input, { new: true, runValidators: true })`:
the validators of the updated paths run, then the book with the id is updated
under the unique index on `isbn`; `none` is the `null` answered when no book
has the id. -/
def Book.findByIdAndUpdate (schema : BookSchema) (now : Int) (id : Nat)
    (input : UpdateBookInput) (s : Store) : Except WriteError (Option Book) × Store :=
  match input.totalCopies.map schema.validTotalCopies with
  | some false => (.error (.validation "Validation failed: totalCopies"), s)
  | _ =>
    match Book.findById s id with
    | none => (.ok none, s)
    | some b =>
      if s.books.any fun x => x._id ≠ id ∧ some x.isbn = input.isbn then
        (.error (.duplicateKey "E11000 duplicate key error collection: books index: isbn_1"),
          s)
      else
        (.ok (some (applyBookUpdate now input b)),
          { s with
            books := s.books.map fun x => if x._id = id then applyBookUpdate now input x else x })

/-- GraphQL mutation `updateBook`. -/
def updateBook (schema : BookSchema) (now : Int) (id : Nat) (input : UpdateBookInput)
    (user : Option User) (s : Store) : Except String BookResponse × Store :=
  match requireAdmin user with
  | .error e => (.error ("Failed to update book: " ++ e), s)
  | .ok _ =>
    match Book.findByIdAndUpdate schema now id input s with
    | (.error e, s1) => (.error ("Failed to update book: " ++ e.message), s1)
    | (.ok none, s1) => (.error "Failed to update book: Book not found", s1)
    | (.ok (some book), s1) =>
      (.ok { success := true, message := some "Book updated successfully",
             data := some book }, s1)

/-! ## Statements of the lifecycle contracts -/

/-- The Book invariant of the spec: 0 ≤ availableCopies ≤ totalCopies. -/
def BookInvariant (b : Book) : Prop :=
  0 ≤ b.availableCopies ∧ b.availableCopies ≤ b.totalCopies

instance : DecidablePred BookInvariant := fun _ =>
  inferInstanceAs (Decidable (_ ∧ _))

/-- The Book invariant holds for all books of the store. -/
def StoreInvariant (s : Store) : Prop :=
  ∀ b ∈ s.books, BookInvariant b

instance : DecidablePred StoreInvariant := fun s =>
  inferInstanceAs (Decidable (∀ b ∈ s.books, BookInvariant b))

/-- A call of one of the four mutations the Book invariant is claimed for. -/
inductive Mutation where
  | borrowBook (now : Int) (input : CreateBorrowInput) (user : Option User)
  | returnBook (now : Int) (id : Nat) (input : Arg UpdateBorrowInput) (user : Option User)
  | createBook (now : Int) (input : CreateBookInput) (user : Option User)
  | updateBook (now : Int) (id : Nat) (input : UpdateBookInput) (user : Option User)

/-- The store a mutation leaves, whether it succeeds or fails. -/
def Mutation.apply (policy : Policy) (schema : BookSchema) (m : Mutation) (s : Store) :
    Store :=
  match m with
  | .borrowBook now input user => (Huemn.borrowBook policy now input user s).2
  | .returnBook now id input user => (Huemn.returnBook policy now id input user s).2
  | .createBook now input user => (Huemn.createBook schema now input user s).2
  | .updateBook now id input user => (Huemn.updateBook schema now id input user s).2

/-- The condition under which a mutation keeps the Book invariant: a
returnBook acts on a record whose book has a copy out (availableCopies <
totalCopies), and an updateBook leaves the book with a totalCopies of at least
its availableCopies. -/
def Mutation.Keeps (m : Mutation) (s : Store) : Prop :=
  match m with
  | .borrowBook _ _ _ => True
  | .returnBook _ id _ _ =>
    ∀ b ∈ s.books, (BorrowRecord.findById s id).map (fun r => r.book) = some b._id →
      b.availableCopies < b.totalCopies
  | .createBook _ _ _ => True
  | .updateBook _ id input _ =>
    ∀ b ∈ s.books, b._id = id → b.availableCopies ≤ input.totalCopies.getD b.totalCopies

instance : (m : Mutation) → (s : Store) → Decidable (m.Keeps s)
  | .borrowBook _ _ _, _ => isTrue trivial
  | .returnBook _ id _ _, s =>
    inferInstanceAs (Decidable (∀ b ∈ s.books,
      (BorrowRecord.findById s id).map (fun r => r.book) = some b._id →
        b.availableCopies < b.totalCopies))
  | .createBook _ _ _, _ => isTrue trivial
  | .updateBook _ id input _, s =>
    inferInstanceAs (Decidable (∀ b ∈ s.books, b._id = id →
      b.availableCopies ≤ input.totalCopies.getD b.totalCopies))

/-- The store a sequence of mutations leaves. -/
def applyAll (policy : Policy) (schema : BookSchema) : List Mutation → Store → Store
  | [], s => s
  | m :: ms, s => applyAll policy schema ms (m.apply policy schema s)

/-- Every mutation of the sequence meets `Mutation.Keeps` in the store it is
applied to. -/
def AllKeep (policy : Policy) (schema : BookSchema) : List Mutation → Store → Prop
  | [], _ => True
  | m :: ms, s => m.Keeps s ∧ AllKeep policy schema ms (m.apply policy schema s)

instance (policy : Policy) (schema : BookSchema) :
    (ms : List Mutation) → (s : Store) → Decidable (AllKeep policy schema ms s)
  | [], _ => isTrue trivial
  | m :: ms, s =>
    have := instDecidableAllKeep policy schema ms (m.apply policy schema s)
    inferInstanceAs (Decidable (m.Keeps s ∧ AllKeep policy schema ms (m.apply policy schema s)))

/-! ## Sample data of the lifecycle -/

/-- A sample policy: at most 5 active borrows, 14 days of loan, a fine of 1
per day. -/
def samplePolicy : Policy :=
  { maxActiveBorrows := 5, loanPeriod := 14 * dayMs, finePerDay := 1 }

/-- A sample Book schema: totalCopies must not be negative and a created book
starts with all its copies available. -/
def sampleSchema : BookSchema :=
  { validTotalCopies := fun n => decide (0 ≤ n), initialAvailable := fun n => n }

/-- An admin and two members; member 2 holds book 1, member 3 holds the only
copy of book 2; both loans are due at day 14. -/
def lendingStore : Store :=
  { users := [sampleUser 1 "Admin", sampleUser 2 "Member", sampleUser 3 "Member"]
    books := [sampleBook 1 "Fiction" 2 1, sampleBook 2 "Fiction" 1 0]
    borrowRecords :=
      [sampleRecord 1 2 1 Status.active DateField.missing,
       sampleRecord 2 3 2 Status.active DateField.missing] }

/-- A store whose only book has all its copies available although a record of
it is active. -/
def fullShelfStore : Store :=
  { users := [sampleUser 1 "Admin"]
    books := [sampleBook 1 "Fiction" 1 1]
    borrowRecords := [sampleRecord 1 1 1 Status.active DateField.missing] }

/-- Day 19: five days after the loans of `lendingStore` are due. -/
def day19 : Int := 19 * dayMs

/-- The request to borrow book `bookId` for user `userId`. -/
def borrowRequest (userId bookId : Nat) : CreateBorrowInput :=
  { userId := userId, bookId := bookId, notes := none }

/-- An update that sets `totalCopies` only. -/
def setTotalCopies (t : Int) : UpdateBookInput :=
  { title := none, author := none, isbn := none, genre := none, totalCopies := some t,
    publisher := none, isActive := none }

/-! ## Agreement of the two transports -/

/-- The entry with its joined book reshaped by `f` and every computed field
kept. -/
def BookPopularity.reshape {β γ : Type} (f : β → γ) (e : BookPopularity β) : BookPopularity γ :=
  { book := f e.book
    borrowCount := e.borrowCount
    activeBorrows := e.activeBorrows
    totalFines := e.totalFines
    popularityScore := e.popularityScore }

/-- The entry with its joined user reshaped by `f` and every computed field
kept. -/
def MemberActivity.reshape {β γ : Type} (f : β → γ) (e : MemberActivity β) : MemberActivity γ :=
  { user := f e.user
    totalBorrows := e.totalBorrows
    activeBorrows := e.activeBorrows
    returnedBooks := e.returnedBooks
    overdueBooks := e.overdueBooks
    totalFines := e.totalFines
    totalRenewals := e.totalRenewals
    avgBorrowDuration := e.avgBorrowDuration
    activityScore := e.activityScore }

/-- The entry with its book fields reshaped by `f` and every computed field
kept. -/
def BookAvailabilityItem.reshape {β γ : Type} (f : β → γ) (e : BookAvailabilityItem β) :
    BookAvailabilityItem γ :=
  { book := f e.book
    borrowedCopies := e.borrowedCopies
    totalBorrows := e.totalBorrows
    totalFinesGenerated := e.totalFinesGenerated
    availabilityPercentage := e.availabilityPercentage
    status := e.status }

/-- Two list answers carry the same report up to the shape of the joined
document: same flag, same count, and the REST entries are, in order, the
GraphQL entries reshaped by `shape`. -/
def SameList {α β : Type} (shape : β → α) (rest : Response α) (gql : Response β) : Prop :=
  rest.success = gql.success ∧ rest.count = gql.count ∧ rest.data = gql.data.map shape

/-- Two availability answers carry the same report up to the shape of the
book fields: same flag, same summary, same count, and the REST entries are,
in order, the GraphQL entries reshaped by `shape`. -/
def SameAvailability {α β : Type} (shape : β → α) (rest : AvailabilityResponse α)
    (gql : AvailabilityResponse β) : Prop :=
  rest.success = gql.success ∧ rest.summary = gql.summary ∧ rest.count = gql.count ∧
    rest.data = gql.data.map (BookAvailabilityItem.reshape shape)

/-- The outcomes of one operation over REST and over GraphQL agree: both
answer and the answers are related by `same`, or both fail and the resolver
reports the failure of the handler under its prefix `pre`. -/
def Agree {α β : Type} (same : α → β → Prop) (pre : String) :
    Except String α → Except String β → Prop
  | .ok a, .ok b => same a b
  | .error e1, .error e2 => e2 = pre ++ e1
  | _, _ => False

/-- The summary of an availability answer agrees with its per-book list: the
number of books, of entries labelled out of stock, of entries labelled low on
stock, and the remainder against the entries labelled available. -/
def SummaryMatchesList {β : Type} (resp : AvailabilityResponse β) : Prop :=
  resp.summary.totalBooks = (resp.count : Int) ∧
  resp.summary.outOfStock
    = ((resp.data.filter fun e => e.status = "Out of Stock").length : Int) ∧
  resp.summary.lowStock
    = ((resp.data.filter fun e => e.status = "Low Stock").length : Int) ∧
  resp.summary.totalBooks - resp.summary.outOfStock - resp.summary.lowStock
    = ((resp.data.filter fun e => e.status = "Available").length : Int)

instance {β : Type} (resp : AvailabilityResponse β) : Decidable (SummaryMatchesList resp) :=
  inferInstanceAs (Decidable (_ ∧ _))

/-- The entries of a genre report partition the active books of the store by
genre: distinct genres, no empty genre, the book counts adding up to the
number of active books, and active borrows between zero and all borrows. -/
def PartitionsByGenre (s : Store) (data : List GenreStats) : Prop :=
  (data.map fun e => e.genre).Nodup ∧
  (∀ e ∈ data, 1 ≤ e.totalBooks) ∧
  (data.map fun e => e.totalBooks).sum
    = ((s.books.filter fun b => b.isActive = true).length : Int) ∧
  ∀ e ∈ data, 0 ≤ e.activeBorrows ∧ e.activeBorrows ≤ e.totalBorrows

/-! ## The filter of the availability report, as the specification words it -/

/-- The string `s` occurs in `str` as a substring, letter case ignored. -/
def containsIgnoreCase (s str : String) : Bool :=
  decide (s.toLower.toList <:+: str.toLower.toList)

/-- The books the specification has the filter select: active books, of the
genre given (when one is given and non-empty), whose author contains the
author string given, and one of whose title, author and isbn contains the
search string given. -/
def selectedBy (f : AvailabilityFilter) (b : Book) : Bool :=
  b.isActive
    && (match truthy f.genre with
        | some g => decide (b.genre = g)
        | none => true)
    && (match truthy f.author with
        | some a => containsIgnoreCase a b.author
        | none => true)
    && (match truthy f.search with
        | some q =>
          containsIgnoreCase q b.title || containsIgnoreCase q b.author
            || containsIgnoreCase q b.isbn
        | none => true)

/-- The pattern `pat` of literal characters and `.` matches a prefix of
`str`, letter case ignored; `.` matches any character but a line feed. -/
def matchesPrefix : List Char → List Char → Bool
  | [], _ => true
  | _ :: _, [] => false
  | p :: ps, c :: cs =>
    ((p = '.' && c ≠ '\n') || p.toLower = c.toLower) && matchesPrefix ps cs

/-- The pattern matches somewhere in `str`: a regular expression is searched
for, not anchored. -/
def matchesSomewhere (pat : List Char) : List Char → Bool
  | [] => matchesPrefix pat []
  | c :: cs => matchesPrefix pat (c :: cs) || matchesSomewhere pat cs

/-- The characters with a special meaning in a regular expression, `.`
apart. -/
def otherMetacharacters : List Char :=
  ['\\', '^', '$', '*', '+', '?', '(', ')', '[', ']', '\x7b', '\x7d', '|']

/-- A sample engine for `{ $regex: p, $options: 'i' }` on the patterns made of
literal characters and `.`, read as a regular-expression engine reads them; a
pattern holding another metacharacter is outside the sample and is answered
with an error here. -/
def dotEngine : RegexEngine := fun p =>
  if p.toList.any fun c => c ∈ otherMetacharacters then
    .error "pattern outside the sample"
  else .ok fun s => matchesSomewhere p.toList s.toList

/-- Two books by different authors. -/
def authorBooks : List Book :=
  [{ sampleBook 1 "Fiction" 3 3 with author := "J. R. R. Tolkien" },
   { sampleBook 2 "Fiction" 3 3 with author := "Jane Austen" }]

/-- The filter `author = "."`. -/
def dotFilter : AvailabilityFilter := { genre := none, author := some ".", search := none }

/-- A library holding `authorBooks` and no borrow record. -/
def authorStore : Store :=
  { users := [sampleUser 1 "Admin"], books := authorBooks, borrowRecords := [] }

/-- The filter `author = "austen"`. -/
def austenFilter : AvailabilityFilter :=
  { genre := none, author := some "austen", search := none }

/-! ## Borrow listings (`graphql/resolvers/borrowResolvers.js`) -/

/-- The string a status is stored as. -/
def Status.name : Status → String
  | .active => "active"
  | .returned => "returned"
  | .overdue => "overdue"

/-- The argument `filter` of `borrows` (`BorrowFilterInput`); an id is `none`
when it is not given, `null` or the empty string, the cases in which
`if (filter.userId)` adds no condition. -/
structure BorrowFilterInput where
  userId : Option Nat
  bookId : Option Nat
  status : Option String
  overdue : Option Bool
  deriving DecidableEq, Repr

/-- The `query` object of a `find` or `countDocuments` on borrow records:
the conditions on `user`, `book`, `status` and `dueDate: { $lt: _ }`. -/
structure BorrowQuery where
  user : Option Nat := none
  book : Option Nat := none
  status : Option String := none
  dueBefore : Option Int := none
  deriving DecidableEq, Repr

/-- A record satisfies every condition of the query. -/
def BorrowQuery.satisfiedBy (q : BorrowQuery) (r : BorrowRecord) : Bool :=
  (match q.user with
    | some u => decide (r.user = u)
    | none => true)
  && (match q.book with
    | some b => decide (r.book = b)
    | none => true)
  && (match q.status with
    | some st => decide (r.status.name = st)
    | none => true)
  && (match q.dueBefore with
    | some d => decide (r.dueDate < d)
    | none => true)

/-- The query `borrows` builds from its filter and caller: the conditions of
the filter in the order of the source, then, for a caller who is not Admin,
`query.user = user.id` over whatever the filter has set. -/
def borrowsQuery (now : Int) (filter : BorrowFilterInput) (caller : User) : BorrowQuery :=
  let q0 : BorrowQuery := {}
  let q1 := match filter.userId with
    | some u => { q0 with user := some u }
    | none => q0
  let q2 := match filter.bookId with
    | some b => { q1 with book := some b }
    | none => q1
  let q3 := match truthy filter.status with
    | some st => { q2 with status := some st }
    | none => q2
  let q4 := if filter.overdue = some true then
      { q3 with dueBefore := some now, status := some "active" }
    else q3
  if caller.role ≠ "Admin" then { q4 with user := some caller._id } else q4

/-- The number a `null`-able integer argument stands for in arithmetic:
`null` converts to 0. -/
def toNumber : Option Int → Int
  | some n => n
  | none => 0

/-- The cursor options `.skip(skip).limit(limit)`, applied after the sort: the
store rejects a negative skip; a limit of 0 or `null` is no limit and a
negative limit counts as its absolute value. -/
def skipLimit {α : Type} (skip : Int) (limit : Option Int) (docs : List α) :
    Except String (List α) :=
  if skip < 0 then
    .error ("BSON field \x27skip\x27 value must be >= 0, actual value \x27"
      ++ toString skip ++ "\x27")
  else
    let rest := docs.drop skip.toNat
    match limit with
    | none => .ok rest
    | some n => if n = 0 then .ok rest else .ok (rest.take n.natAbs)

/-- The order of `sort({ createdAt: -1 })` on borrow records. -/
def newestFirst (a b : BorrowRecord) : Prop := b.createdAt ≤ a.createdAt

instance : DecidableRel newestFirst := fun _ _ => inferInstanceAs (Decidable (_ ≤ _))

/-- The value `Math.ceil(total / limit)`; `none` when the quotient is not a
finite number, which is when the limit is 0 or `null`. -/
def pageCount (total : Nat) (limit : Option Int) : Option Int :=
  if toNumber limit = 0 then none else some ⌈(total : ℚ) / (toNumber limit : ℚ)⌉

/-- The body `{ success, count, total, page, pages, data }` of a listing. -/
structure PageResponse (α : Type) where
  success : Bool
  count : Nat
  total : Nat
  page : Option Int
  pages : Option Int
  data : List α
  deriving DecidableEq, Repr

/-- The default `{}` of the argument `filter` of `borrows`. -/
def emptyBorrowFilter : BorrowFilterInput :=
  { userId := none, bookId := none, status := none, overdue := none }

/-- The chain `BorrowRecord.find(query)…skip(skip).limit(limit).sort({ createdAt: -1 })`
before population. -/
def BorrowRecord.findPage (s : Store) (query : BorrowQuery) (skip : Int)
    (limit : Option Int) : Except String (List BorrowRecord) :=
  skipLimit skip limit ((s.borrowRecords.filter query.satisfiedBy).insertionSort newestFirst)

/-- The query `countDocuments(query)` on borrow records. -/
def BorrowRecord.countDocuments (s : Store) (query : BorrowQuery) : Nat :=
  (s.borrowRecords.filter query.satisfiedBy).length

/-- GraphQL query `borrows`; the arguments default to `1`, `10` and `{}` when
absent, and reading `filter.userId` of an explicit `null` throws. -/
def borrows (now : Int) (page limit : Arg Int) (filter : Arg BorrowFilterInput)
    (user : Option User) (s : Store) : Except String (PageResponse PopulatedBorrow) :=
  rethrow "Failed to fetch borrows: " <|
    match requireAuth user, user with
    | .error e, _ => .error e
    | .ok _, none => .error "Authentication required"
    | .ok _, some caller =>
      let page := page.orDefault 1
      let limit := limit.orDefault 10
      let skip := (toNumber page - 1) * toNumber limit
      match filter.orDefault emptyBorrowFilter with
      | none => .error "Cannot read properties of null (reading \x27userId\x27)"
      | some f =>
        let query := borrowsQuery now f caller
        match BorrowRecord.findPage s query skip limit with
        | .error e => .error e
        | .ok found =>
          let total := BorrowRecord.countDocuments s query
          .ok { success := true, count := found.length, total := total, page := page,
                pages := pageCount total limit, data := found.map (populate s) }

/-- A borrow record with its populated book, as `myBorrows` loads it. -/
structure BorrowWithBook where
  record : BorrowRecord
  book : Option BookBrief
  deriving DecidableEq, Repr

/-- The call `.populate('book', 'title author isbn')`. -/
def populateBook (s : Store) (r : BorrowRecord) : BorrowWithBook :=
  { record := r
    book :=
      (s.books.find? fun b => b._id = r.book).map fun b =>
        { _id := b._id, title := b.title, author := b.author, isbn := b.isbn } }

/-- GraphQL query `myBorrows`. -/
def myBorrows (page limit : Arg Int) (user : Option User) (s : Store) :
    Except String (PageResponse BorrowWithBook) :=
  rethrow "Failed to fetch your borrows: " <|
    match requireAuth user, user with
    | .error e, _ => .error e
    | .ok _, none => .error "Authentication required"
    | .ok _, some caller =>
      let page := page.orDefault 1
      let limit := limit.orDefault 10
      let skip := (toNumber page - 1) * toNumber limit
      let query : BorrowQuery := { user := some caller._id }
      match BorrowRecord.findPage s query skip limit with
      | .error e => .error e
      | .ok found =>
        let total := BorrowRecord.countDocuments s query
        .ok { success := true, count := found.length, total := total, page := page,
              pages := pageCount total limit, data := found.map (populateBook s) }

/-- A filter naming user 3. -/
def otherUserFilter : BorrowFilterInput := { emptyBorrowFilter with userId := some 3 }

/-- The answer of `borrows` to member 2 of `lendingStore` asking with
`otherUserFilter`: the one record of member 2. -/
def memberPage : PageResponse PopulatedBorrow :=
  { success := true, count := 1, total := 1, page := some 1, pages := some 1,
    data := [populate lendingStore (sampleRecord 1 2 1 Status.active DateField.missing)] }

/-! ## Soft deletion of a book (`graphql/resolvers/bookResolvers.js`) -/

/-- The document after `book.isActive = false; await book.save()`: when the
assignment modifies the document, the save stores `isActive = false` and, the
model keeping timestamps, sets `updatedAt`; a book that was inactive already
is not modified and nothing is written. -/
def Book.deactivated (now : Int) (b : Book) : Book :=
  if b.isActive then { b with isActive := false, updatedAt := now } else b

/-- The store after `book.isActive = false; await book.save()`: the stored
document with the `_id` of `book` is saved as deactivated. -/
def Book.softDelete (now : Int) (book : Book) (s : Store) : Store :=
  { s with
    books := s.books.map fun x => if x._id = book._id then x.deactivated now else x }

/-- GraphQL mutation `deleteBook`; `now` is the time of the call. -/
def deleteBook (now : Int) (id : Nat) (user : Option User) (s : Store) :
    Except String BookResponse × Store :=
  match requireAdmin user with
  | .error e => (.error ("Failed to delete book: " ++ e), s)
  | .ok _ =>
    match Book.findById s id with
    | none => (.error "Failed to delete book: Book not found", s)
    | some book =>
      let activeBorrows :=
        BorrowRecord.countDocuments s { book := some id, status := some "active" }
      if activeBorrows > 0 then
        (.error "Failed to delete book: Cannot delete book with active borrows", s)
      else
        (.ok { success := true, message := some "Book deleted successfully",
               data := some (book.deactivated now) },
          book.softDelete now s)

/-! ## Administrative update of a borrow record -/

/-- The cast of a string to the `Date` type of a schema path, done by the
JavaScript engine: the milliseconds of the date, or `none` when the string
is no date. -/
abbrev DateCast := String → Option Int

/-- The status a string stands for under `enum: ['active', 'returned', 'overdue']`. -/
def Status.ofName (n : String) : Option Status :=
  if n = "active" then some Status.active
  else if n = "returned" then some Status.returned
  else if n = "overdue" then some Status.overdue
  else none

/-- The update `$set` of the input: the paths `returnDate`, `status` and
`fine` that are given; `notes` is no path of the schema and is dropped. -/
def applyBorrowUpdate (returnDate : Option Int) (status : Option Status) (fine : Option ℚ)
    (r : BorrowRecord) : BorrowRecord :=
  { r with
    returnDate := match returnDate with
      | some d => DateField.date d
      | none => r.returnDate
    status := status.getD r.status
    fine := fine.getD r.fine }

/-- The call `BorrowRecord.findByIdAndUpdate(id, input, { new: true, runValidators: true })`:
the input is cast and validated against the schema (`returnDate` a date,
`status` in the enum), then the record with that `_id`, if any, gets the given
paths and is returned as updated. -/
def BorrowRecord.findByIdAndUpdate (cast : DateCast) (id : Nat) (input : UpdateBorrowInput)
    (s : Store) : Except String (Option BorrowRecord) × Store :=
  match input.returnDate.map cast with
  | some none => (.error "Cast to date failed for path \"returnDate\"", s)
  | returnDate =>
    match input.status.map Status.ofName with
    | some none => (.error "Validation failed: status is not a valid enum value", s)
    | status =>
      match BorrowRecord.findById s id with
      | none => (.ok none, s)
      | some r =>
        let updated := applyBorrowUpdate (returnDate.bind fun d => d) (status.bind fun x => x)
          input.fine r
        (.ok (some updated), saveRecord updated s)

/-- GraphQL mutation `updateBorrow`. -/
def updateBorrow (cast : DateCast) (id : Nat) (input : UpdateBorrowInput)
    (user : Option User) (s : Store) : Except String BorrowResponse × Store :=
  match requireAdmin user with
  | .error e => (.error ("Failed to update borrow: " ++ e), s)
  | .ok _ =>
    match BorrowRecord.findByIdAndUpdate cast id input s with
    | (.error e, s1) => (.error ("Failed to update borrow: " ++ e), s1)
    | (.ok none, s1) => (.error "Failed to update borrow: Borrow record not found", s1)
    | (.ok (some updated), s1) =>
      (.ok { success := true, message := some "Borrow record updated successfully",
             data := some (populate s1 updated) }, s1)

/-- The field `returnDate` holds no date. -/
def DateField.isUnset : DateField → Bool
  | .date _ => false
  | _ => true

/-- The record invariant of the spec: status active iff returnDate unset. -/
def RecordInvariant (r : BorrowRecord) : Prop :=
  r.status = Status.active ↔ r.returnDate.isUnset = true

instance : DecidablePred RecordInvariant := fun _ =>
  inferInstanceAs (Decidable (_ ↔ _))

/-- Every borrow record of the store satisfies the record invariant. -/
def RecordsInvariant (s : Store) : Prop := ∀ r ∈ s.borrowRecords, RecordInvariant r

instance : DecidablePred RecordsInvariant := fun s =>
  inferInstanceAs (Decidable (∀ r ∈ s.borrowRecords, RecordInvariant r))

/-- The only status change the spec allows between two versions of a record:
none, or active to returned. -/
def StatusStep (r r2 : BorrowRecord) : Prop :=
  r2._id = r._id ∧ (r2.status = r.status ∨ (r.status = Status.active ∧ r2.status = Status.returned))

instance : DecidableRel StatusStep := fun _ _ => inferInstanceAs (Decidable (_ ∧ _))

/-- The input `{ status: "returned" }`. -/
def markReturned : UpdateBorrowInput :=
  { returnDate := none, status := some "returned", fine := none, notes := none }

/-- The input `{ status: "active" }`. -/
def markActive : UpdateBorrowInput :=
  { returnDate := none, status := some "active", fine := none, notes := none }

/-- The input `{ fine: 5 }`. -/
def setFine : UpdateBorrowInput :=
  { returnDate := none, status := none, fine := some 5, notes := none }

/-- A GraphQL mutation on borrow records with its arguments, its caller and
the time `now` at which it runs. -/
inductive BorrowMutation where
  | borrowBook (now : Int) (input : CreateBorrowInput) (user : Option User)
  | returnBook (now : Int) (id : Nat) (input : Arg UpdateBorrowInput) (user : Option User)
  | renewBook (now : Int) (id : Nat) (user : Option User)
  | updateBorrow (id : Nat) (input : UpdateBorrowInput) (user : Option User)

/-- The store a borrow mutation leaves, whether it succeeds or fails. -/
def BorrowMutation.apply (policy : Policy) (cast : DateCast) (m : BorrowMutation) (s : Store) :
    Store :=
  match m with
  | .borrowBook now input user => (Huemn.borrowBook policy now input user s).2
  | .returnBook now id input user => (Huemn.returnBook policy now id input user s).2
  | .renewBook now id user => (Huemn.renewBook policy now id user s).2
  | .updateBorrow id input user => (Huemn.updateBorrow cast id input user s).2

/-- The mutation writes no status and no returnDate of its own choosing: it
is no `updateBorrow`, or an `updateBorrow` whose input gives neither. -/
def BorrowMutation.LeavesStatus (m : BorrowMutation) : Prop :=
  match m with
  | .updateBorrow _ input _ => input.status = none ∧ input.returnDate = none
  | _ => True

instance : (m : BorrowMutation) → Decidable m.LeavesStatus
  | .borrowBook _ _ _ => isTrue trivial
  | .returnBook _ _ _ _ => isTrue trivial
  | .renewBook _ _ _ => isTrue trivial
  | .updateBorrow _ input _ =>
    inferInstanceAs (Decidable (input.status = none ∧ input.returnDate = none))

/-- The store a sequence of borrow mutations leaves. -/
def applyBorrowMutations (policy : Policy) (cast : DateCast) :
    List BorrowMutation → Store → Store
  | [], s => s
  | m :: ms, s => applyBorrowMutations policy cast ms (m.apply policy cast s)

/-- A cast that reads no string as a date. -/
def noDate : DateCast := fun _ => none

/-! ## validateUser (`middleware/validateUser.js`) -/

/-- The built-in `String.prototype.toLowerCase` of the JavaScript engine, a
collaborator outside the repository. -/
abbrev CaseMap := String → String

/-- The built-in `String.prototype.trim`: the string without its leading and
trailing white space and line terminators. -/
def trim (s : String) : String :=
  ⟨(s.toList.dropWhile isStrWhiteSpace).rdropWhile isStrWhiteSpace⟩

/-- The built-in `String.prototype.includes` for a needle of one character. -/
def includes (s : String) (c : Char) : Bool := s.toList.contains c

/-- The request body as the middleware reads it: `name` and `email`, each a
string or absent (`none`), and the other fields, which it does not read. -/
structure UserBody (ρ : Type) where
  name : Option String
  email : Option String
  rest : ρ
  deriving DecidableEq, Repr

/-- The middleware `validateUser`; `.error e` stands for `next(e)` and
`.ok body` for `next()` with `req.body` as the middleware left it. -/
def validateUser {ρ : Type} (toLowerCase : CaseMap) (body : UserBody ρ) :
    Except AppError (UserBody ρ) :=
  match truthy body.name with
  | none => .error { message := "Name is required", statusCode := 400 }
  | some name =>
    if (trim name).length = 0 then
      .error { message := "Name is required", statusCode := 400 }
    else
      match truthy body.email with
      | none => .error { message := "Valid email is required", statusCode := 400 }
      | some email =>
        if !includes email '@' then
          .error { message := "Valid email is required", statusCode := 400 }
        else
          .ok { body with
                name := some (trim name)
                email := some (trim (toLowerCase email)) }

/-- The name of the body is absent or blank after trimming. -/
def NameMissing {ρ : Type} (body : UserBody ρ) : Prop :=
  body.name = none ∨ ∃ n, body.name = some n ∧ trim n = ""

/-- The email of the body is absent or contains no `@`. -/
def EmailMissing {ρ : Type} (body : UserBody ρ) : Prop :=
  body.email = none ∨ ∃ e, body.email = some e ∧ includes e '@' = false

/-- A sample `toLowerCase`: the letters `A` to `Z` are lowered and every other
character is kept. -/
def asciiLower : CaseMap := fun s => ⟨s.toList.map Char.toLower⟩

/-- A sample body with a padded name and a mixed-case, padded email. -/
def sampleBody : UserBody String :=
  { name := some "  Ada Lovelace ", email := some " Ada@Example.COM ", rest := "secret12" }

/-! ## Users (`models/User.js`, `graphql/resolvers/userResolvers.js`,
`controllers/userController.js`, `routes/userRoutes.js`) -/

/-- A user document as a handler holds it.  `password` is absent unless the
query selected it or the document was just created; `__v` is absent when the
projection excludes it or it was deleted; `activeBorrowCount` is the virtual,
present once populated. -/
structure UserDoc where
  _id : Nat
  name : String
  email : String
  password : Option String
  role : String
  isActive : Bool
  membershipDate : Int
  createdAt : Int
  __v : Option Nat
  activeBorrowCount : Option Nat
  deriving DecidableEq, Repr

/-- The built-ins the user code calls outside the repository: the engine's
`toLowerCase`, the test of the schema's email pattern, `bcrypt.hash` with its
salt, `bcrypt.compare` of a candidate against a hash, and `jwt.sign` of a user
id. -/
structure UserEnv where
  toLowerCase : CaseMap
  emailPattern : String → Bool
  hash : String → String
  compare : String → String → Bool
  sign : Nat → String

/-- A stored user as a query returns it: `password` has `select: false`. -/
def User.load (u : User) : UserDoc :=
  { _id := u._id, name := u.name, email := u.email, password := none, role := u.role,
    isActive := u.isActive, membershipDate := u.membershipDate, createdAt := u.createdAt,
    __v := some u.__v, activeBorrowCount := none }

/-- A stored user as a query with `.select('+password')` returns it. -/
def User.loadWithPassword (u : User) : UserDoc :=
  { u.load with password := some u.password }

/-- A user just created, as `User.create` returns it: every path it saved. -/
def User.created (u : User) : UserDoc :=
  { u.load with password := some u.password }

/-- The projection `.select('-__v')`. -/
def UserDoc.withoutVersion (d : UserDoc) : UserDoc := { d with __v := none }

/-- The call `.populate('activeBorrowCount')`: the number of borrow records of
the user with status active. -/
def UserDoc.populateActiveBorrowCount (s : Store) (d : UserDoc) : UserDoc :=
  { d with
    activeBorrowCount :=
      some (s.borrowRecords.filter fun r => r.user = d._id ∧ r.status = Status.active).length }

/-- The method `toPublicJSON`: the document's object without `password` and
`__v`. -/
def UserDoc.toPublicJSON (d : UserDoc) : UserDoc :=
  { d with password := none, __v := none }

/-- The query `findById` on the `users` collection. -/
def User.findById (s : Store) (id : Nat) : Option User :=
  s.users.find? fun u => u._id = id

/-- The fields of a user that a create or update input can give. -/
structure UserFields where
  name : Option String
  email : Option String
  password : Option String
  role : Option String
  isActive : Option Bool
  deriving DecidableEq, Repr

/-- The length of a JavaScript string: its number of UTF-16 code units. -/
def utf16Length (s : String) : Nat :=
  (s.toList.map fun c => if c.val ≥ 0x10000 then 2 else 1).sum

/-- The value the schema stores for a given name: the setter `trim`. -/
def castName (n : String) : String := trim n

/-- The value the schema stores for a given email: the setters `trim` and
`lowercase`. -/
def castEmail (env : UserEnv) (e : String) : String := env.toLowerCase (trim e)

/-- The messages of the validators of `userSchema` that fail on the given
paths; an absent path is tested for `required` only when `creating`. -/
def userValidationErrors (env : UserEnv) (creating : Bool) (f : UserFields) : List String :=
  (match f.name.map castName with
    | none => if creating then ["name: Name is required"] else []
    | some n =>
      if n = "" then ["name: Name is required"]
      else if utf16Length n > 50 then ["name: Name cannot be more than 50 characters"]
      else [])
  ++ (match f.email.map (castEmail env) with
    | none => if creating then ["email: Email is required"] else []
    | some e =>
      if e = "" then ["email: Email is required"]
      else if !env.emailPattern e then ["email: Please enter a valid email"]
      else [])
  ++ (match f.password with
    | none => if creating then ["password: Password is required"] else []
    | some p =>
      if p = "" then ["password: Password is required"]
      else if utf16Length p < 6 then ["password: Password must be at least 6 characters"]
      else [])
  ++ (match f.role with
    | none => []
    | some r =>
      if r = "Admin" ∨ r = "Member" then [] else ["role: Role must be either Admin or Member"])

/-- An id not used by any user of the store. -/
def freshUserId (s : Store) : Nat :=
  (s.users.map fun u => u._id).foldr max 0 + 1

/-- The call `User.create(input)`: the input is cast and validated, the
pre-save hook hashes the password, the unique index on `email` is checked and
the document is inserted with the defaults of the schema. -/
def User.create (env : UserEnv) (now : Int) (f : UserFields) (s : Store) :
    Except WriteError User × Store :=
  match userValidationErrors env true f, f.name, f.email, f.password with
  | [], some n, some e, some p =>
    if s.users.any fun u => u.email = castEmail env e then
      (.error (.duplicateKey "E11000 duplicate key error collection: users index: email_1"), s)
    else
      let u : User :=
        { _id := freshUserId s
          name := castName n
          email := castEmail env e
          password := env.hash p
          role := f.role.getD "Member"
          isActive := f.isActive.getD true
          membershipDate := now
          createdAt := now
          __v := 0 }
      (.ok u, { s with users := s.users ++ [u] })
  | errs, _, _, _ =>
    (.error (.validation ("User validation failed: " ++ ", ".intercalate errs)), s)

/-- The stored user after the update `$set` of the given fields; the pre-save
hook does not run on an update, so a given password is stored as given. -/
def applyUserUpdate (env : UserEnv) (f : UserFields) (u : User) : User :=
  { u with
    name := (f.name.map castName).getD u.name
    email := (f.email.map (castEmail env)).getD u.email
    password := f.password.getD u.password
    role := f.role.getD u.role
    isActive := f.isActive.getD u.isActive }

/-- The call `User.findByIdAndUpdate(id, input, { new: true, runValidators: true })`. -/
def User.findByIdAndUpdate (env : UserEnv) (id : Nat) (f : UserFields) (s : Store) :
    Except WriteError (Option User) × Store :=
  match userValidationErrors env false f with
  | _ :: _ =>
    (.error (.validation
      ("Validation failed: " ++ ", ".intercalate (userValidationErrors env false f))), s)
  | [] =>
    match User.findById s id with
    | none => (.ok none, s)
    | some u =>
      if s.users.any fun x => x._id ≠ id ∧ some x.email = f.email.map (castEmail env) then
        (.error (.duplicateKey "E11000 duplicate key error collection: users index: email_1"),
          s)
      else
        (.ok (some (applyUserUpdate env f u)),
          { s with
            users := s.users.map fun x => if x._id = id then applyUserUpdate env f x else x })

/-- The calls `user.isActive = false; await user.save()`. -/
def User.softDelete (u : User) (s : Store) : Store :=
  { s with
    users := s.users.map fun x => if x._id = u._id then { x with isActive := false } else x }

/-- The body `{ success, message, data }` of a user operation. -/
structure UserResponse where
  success : Bool
  message : Option String
  data : Option UserDoc
  deriving DecidableEq, Repr

/-- The body `{ success, message, token, data }` of `login` and `register`. -/
structure AuthResponse where
  success : Bool
  message : Option String
  token : Option String
  data : Option UserDoc
  deriving DecidableEq, Repr

/-- The order of `sort({ createdAt: -1 })` on users. -/
def newestUserFirst (a b : User) : Prop := b.createdAt ≤ a.createdAt

instance : DecidableRel newestUserFirst := fun _ _ => inferInstanceAs (Decidable (_ ≤ _))

/-- The chain `User.find({ isActive: true })…skip(skip).limit(limit).sort({ createdAt: -1 })`. -/
def User.findPage (s : Store) (skip : Int) (limit : Option Int) : Except String (List User) :=
  skipLimit skip limit ((s.users.filter fun u => u.isActive).insertionSort newestUserFirst)

/-- The query `User.countDocuments({ isActive: true })`. -/
def User.countActive (s : Store) : Nat := (s.users.filter fun u => u.isActive).length

/-- GraphQL query `users`. -/
def users (page limit : Arg Int) (user : Option User) (s : Store) :
    Except String (PageResponse UserDoc) :=
  rethrow "Failed to fetch users: " <|
    match requireAdmin user with
    | .error e => .error e
    | .ok _ =>
      let page := page.orDefault 1
      let limit := limit.orDefault 10
      let skip := (toNumber page - 1) * toNumber limit
      match User.findPage s skip limit with
      | .error e => .error e
      | .ok found =>
        let total := User.countActive s
        .ok { success := true, count := found.length, total := total, page := page,
              pages := pageCount total limit,
              data := found.map fun u => u.load.populateActiveBorrowCount s }

/-- GraphQL query `user`. -/
def user (id : Nat) (currentUser : Option User) (s : Store) : Except String UserResponse :=
  rethrow "Failed to fetch user: " <|
    match requireAuth currentUser, currentUser with
    | .error e, _ => .error e
    | .ok _, none => .error "Authentication required"
    | .ok _, some caller =>
      if caller.role ≠ "Admin" ∧ caller._id ≠ id then .error "Access denied"
      else
        match User.findById s id with
        | none => .error "User not found"
        | some u =>
          if !u.isActive then .error "User not found"
          else
            .ok { success := true, message := none,
                  data := some (u.load.populateActiveBorrowCount s) }

/-- GraphQL query `me`. -/
def me (currentUser : Option User) (s : Store) : Except String UserResponse :=
  rethrow "Failed to fetch user profile: " <|
    match requireAuth currentUser, currentUser with
    | .error e, _ => .error e
    | .ok _, none => .error "Authentication required"
    | .ok _, some caller =>
      match User.findById s caller._id with
      | none => .error "User not found"
      | some u =>
        .ok { success := true, message := none,
              data := some (u.load.populateActiveBorrowCount s) }

/-- GraphQL mutation `login`; the arguments are the fields of `LoginInput`.
The filter `{ email: email.toLowerCase() }` of `findOne` is cast through the
setters of the schema path, as a stored email is. -/
def login (env : UserEnv) (email password : String) (s : Store) : Except String AuthResponse :=
  rethrow "Login failed: " <|
    match s.users.find? fun u => u.email = castEmail env (env.toLowerCase email) with
    | none => .error "Invalid credentials"
    | some u =>
      if !u.isActive then .error "Invalid credentials"
      else if !env.compare password u.password then .error "Invalid credentials"
      else
        .ok { success := true, message := some "Login successful",
              token := some (env.sign u._id), data := some u.loadWithPassword.toPublicJSON }

/-- GraphQL mutation `register`; `CreateUserInput` gives name, email, password
and optionally role. -/
def register (env : UserEnv) (now : Int) (input : UserFields) (s : Store) :
    Except String AuthResponse × Store :=
  match User.create env now input s with
  | (.error (.duplicateKey _), s1) => (.error "Email already exists", s1)
  | (.error (.validation msg), s1) => (.error ("Registration failed: " ++ msg), s1)
  | (.ok u, s1) =>
    (.ok { success := true, message := some "Registration successful",
           token := some (env.sign u._id), data := some u.created.toPublicJSON }, s1)

/-- GraphQL mutation `createUser`. -/
def createUser (env : UserEnv) (now : Int) (input : UserFields) (user : Option User)
    (s : Store) : Except String UserResponse × Store :=
  match requireAdmin user with
  | .error e => (.error ("Failed to create user: " ++ e), s)
  | .ok _ =>
    match User.create env now input s with
    | (.error (.duplicateKey _), s1) => (.error "Email already exists", s1)
    | (.error (.validation msg), s1) => (.error ("Failed to create user: " ++ msg), s1)
    | (.ok u, s1) =>
      (.ok { success := true, message := some "User created successfully",
             data := some u.created.toPublicJSON }, s1)

/-- GraphQL mutation `updateUser`; `UpdateUserInput` gives no password. -/
def updateUser (env : UserEnv) (id : Nat) (input : UserFields) (currentUser : Option User)
    (s : Store) : Except String UserResponse × Store :=
  match requireAuth currentUser, currentUser with
  | .error e, _ => (.error ("Failed to update user: " ++ e), s)
  | .ok _, none => (.error "Failed to update user: Authentication required", s)
  | .ok _, some caller =>
    if caller.role ≠ "Admin" ∧ caller._id ≠ id then
      (.error "Failed to update user: Access denied", s)
    else
      let input :=
        if (truthy input.role).isSome ∧ caller.role ≠ "Admin" then { input with role := none }
        else input
      match User.findByIdAndUpdate env id input s with
      | (.error e, s1) => (.error ("Failed to update user: " ++ e.message), s1)
      | (.ok none, s1) => (.error "Failed to update user: User not found", s1)
      | (.ok (some u), s1) =>
        (.ok { success := true, message := some "User updated successfully",
               data := some u.load }, s1)

/-- GraphQL mutation `deleteUser`. -/
def deleteUser (id : Nat) (currentUser : Option User) (s : Store) :
    Except String UserResponse × Store :=
  match requireAdmin currentUser, currentUser with
  | .error e, _ => (.error ("Failed to delete user: " ++ e), s)
  | .ok _, none => (.error "Failed to delete user: Authentication required", s)
  | .ok _, some caller =>
    match User.findById s id with
    | none => (.error "Failed to delete user: User not found", s)
    | some u =>
      if u._id = caller._id then
        (.error "Failed to delete user: Cannot delete your own account", s)
      else
        (.ok { success := true, message := some "User deleted successfully",
               data := some { u.load with isActive := false } },
          u.softDelete s)

/-- The value `parseInt(req.query.page, 10) || 1`. -/
def queryPage (q : Option String) : Int :=
  match q.bind parseInt with
  | none => 1
  | some n => if n = 0 then 1 else n

/-- The fields of a REST body besides `name` and `email` that the schema
knows. -/
structure UserRest where
  password : Option String
  role : Option String
  isActive : Option Bool
  deriving DecidableEq, Repr

/-- The body `req.body` as the input of `User.create` or `findByIdAndUpdate`. -/
def UserBody.fields (b : UserBody UserRest) : UserFields :=
  { name := b.name, email := b.email, password := b.rest.password, role := b.rest.role,
    isActive := b.rest.isActive }

/-- The answer of a REST user handler for one user: the HTTP status and the
body `{ success, message, data }`; `data` is `none` for the empty object. -/
structure RestUserResponse where
  status : Nat
  success : Bool
  message : Option String
  data : Option UserDoc
  deriving DecidableEq, Repr

/-- An error a handler throws and `asyncHandler` passes on to `next`. -/
def thrown (msg : String) : AppError := { message := msg, statusCode := 500 }

/-- REST handler `getUsers`; the arguments are `req.query.page` and
`req.query.limit`. -/
def UserController.getUsers (page limit : Option String) (s : Store) :
    Except AppError (PageResponse UserDoc) :=
  let page := queryPage page
  let limit := queryLimit limit
  let skip := (page - 1) * limit
  match User.findPage s skip (some limit) with
  | .error e => .error (thrown e)
  | .ok found =>
    let total := User.countActive s
    .ok { success := true, count := found.length, total := total, page := some page,
          pages := pageCount total (some limit),
          data := found.map fun u => u.load.withoutVersion }

/-- REST handler `getUser`. -/
def UserController.getUser (id : Nat) (s : Store) : Except AppError RestUserResponse :=
  match User.findById s id with
  | none => .error { message := "User not found", statusCode := 404 }
  | some u =>
    .ok { status := 200, success := true, message := none, data := some u.load.withoutVersion }

/-- REST handler `createUser`; the argument is `req.body`. -/
def UserController.createUser (env : UserEnv) (now : Int) (body : UserBody UserRest)
    (s : Store) : Except AppError RestUserResponse × Store :=
  match User.create env now body.fields s with
  | (.error e, s1) => (.error (thrown e.message), s1)
  | (.ok u, s1) =>
    (.ok { status := 201, success := true, message := some "User created successfully",
           data := some u.created.toPublicJSON }, s1)

/-- REST handler `updateUser`; the arguments are `req.params.id` and
`req.body`. -/
def UserController.updateUser (env : UserEnv) (id : Nat) (body : UserBody UserRest)
    (s : Store) : Except AppError RestUserResponse × Store :=
  match User.findByIdAndUpdate env id body.fields s with
  | (.error e, s1) => (.error (thrown e.message), s1)
  | (.ok none, s1) => (.error { message := "User not found", statusCode := 404 }, s1)
  | (.ok (some u), s1) =>
    (.ok { status := 200, success := true, message := some "User updated successfully",
           data := some u.load.withoutVersion }, s1)

/-- REST handler `deleteUser`. -/
def UserController.deleteUser (id : Nat) (s : Store) :
    Except AppError RestUserResponse × Store :=
  match User.findById s id with
  | none => (.error { message := "User not found", statusCode := 404 }, s)
  | some u =>
    (.ok { status := 200, success := true, message := some "User deleted successfully",
           data := none },
      u.softDelete s)

/-- A request to the router of `routes/userRoutes.js`: method and path with
the parameters the handlers read. -/
inductive UserRequest where
  | getUsers (page limit : Option String)
  | createUser (body : UserBody UserRest)
  | getUser (id : Nat)
  | updateUser (id : Nat) (body : UserBody UserRest)
  | deleteUser (id : Nat)

/-- The answer of the router: a page of users or one user response. -/
inductive UserReply where
  | page (body : PageResponse UserDoc)
  | one (body : RestUserResponse)
  deriving DecidableEq, Repr

/-- The router of `routes/userRoutes.js`: `GET /` runs `getUsers`, `POST /`
runs `validateUser` then `createUser`, `GET /:id` runs `getUser`, `PUT /:id`
runs `validateUser` then `updateUser`, `DELETE /:id` runs `deleteUser`.  The
module imports `authMiddleware` and applies it to no route, and `server.js`
mounts the router without a guard: the `Authorization` header of the request
is read by nothing. -/
def userRoutes (env : UserEnv) (now : Int) (_authorization : Option String)
    (req : UserRequest) (s : Store) : Except AppError UserReply × Store :=
  match req with
  | .getUsers page limit => ((UserController.getUsers page limit s).map UserReply.page, s)
  | .createUser body =>
    match validateUser env.toLowerCase body with
    | .error e => (.error e, s)
    | .ok body1 =>
      match UserController.createUser env now body1 s with
      | (r, s1) => (r.map UserReply.one, s1)
  | .getUser id => ((UserController.getUser id s).map UserReply.one, s)
  | .updateUser id body =>
    match validateUser env.toLowerCase body with
    | .error e => (.error e, s)
    | .ok body1 =>
      match UserController.updateUser env id body1 s with
      | (r, s1) => (r.map UserReply.one, s1)
  | .deleteUser id =>
    match UserController.deleteUser id s with
    | (r, s1) => (r.map UserReply.one, s1)

/-- A sample environment: `asciiLower`, an email pattern asking for an `@`, a
hash that prefixes the password, the matching comparison, and a token naming
the user. -/
def sampleEnv : UserEnv :=
  { toLowerCase := asciiLower
    emailPattern := fun e => includes e '@'
    hash := fun p => "$2a$12$" ++ p
    compare := fun p h => decide (h = "$2a$12$" ++ p)
    sign := fun id => "token-" ++ toString id }

/-- A REST body naming a new administrator. -/
def malloryBody : UserBody UserRest :=
  { name := some "Mallory", email := some "mallory@example.com",
    rest := { password := some "hunter22", role := some "Admin", isActive := none } }

/-- The user documents an answer of the REST user router carries. -/
def UserReply.docs : UserReply → List UserDoc
  | .page body => body.data
  | .one body => body.data.toList

/-- The store with the stored password of every user replaced by `g`. -/
def withPasswords (g : User → String) (s : Store) : Store :=
  { s with users := s.users.map fun u => { u with password := g u } }

/-- A sample input of `register`. -/
def adaInput : UserFields :=
  { name := some "Ada Lovelace", email := some "ada@example.com",
    password := some "analytical", role := none, isActive := none }

/-- The answer of `register` to `adaInput` on `lendingStore` at time 0. -/
def adaRegistered : AuthResponse :=
  { success := true, message := some "Registration successful", token := some "token-4",
    data := some
      { _id := 4, name := "Ada Lovelace", email := "ada@example.com", password := none,
        role := "Member", isActive := true, membershipDate := 0, createdAt := 0,
        __v := none, activeBorrowCount := none } }

/-! ## Auxiliary facts about the stages -/

theorem mem_groupIds {κ : Type} [DecidableEq κ] (k : κ) (l : List κ) :
    k ∈ groupIds l ↔ k ∈ l := by
  induction l with
  | nil => simp [groupIds]
  | cons a as ih =>
    simp only [groupIds, List.mem_cons, List.mem_filter, ih]
    by_cases h : k = a <;> simp [h]

theorem nodup_groupIds {κ : Type} [DecidableEq κ] (l : List κ) : (groupIds l).Nodup := by
  induction l with
  | nil => simp [groupIds]
  | cons a as ih =>
    simp only [groupIds, List.nodup_cons, List.mem_filter]
    exact ⟨by simp, ih.filter _⟩

theorem sum_ones {α : Type} (l : List α) : (l.map fun _ => (1 : Int)).sum = (l.length : Int) := by
  induction l with
  | nil => simp
  | cons a as ih => simp [ih]; ring

theorem sum_indicator {α : Type} (p : α → Prop) [DecidablePred p] (l : List α) :
    (l.map fun a => if p a then (1 : Int) else 0).sum
      = ((l.filter fun a => decide (p a)).length : Int) := by
  induction l with
  | nil => simp
  | cons a as ih =>
    by_cases h : p a
    · simp [h, ih]; ring
    · simp [h, ih]

theorem sorted_insertionSort_of {α : Type} (r : α → α → Prop) [DecidableRel r]
    (htot : ∀ a b, r a b ∨ r b a) (htr : ∀ a b c, r a b → r b c → r a c) (l : List α) :
    (l.insertionSort r).Sorted r := by
  haveI : IsTotal α r := ⟨htot⟩
  haveI : IsTrans α r := ⟨htr⟩
  exact List.sorted_insertionSort r l

theorem limitStage_ok {α : Type} (limit : Option Int) (docs res : List α)
    (h : limitStage limit docs = .ok res) :
    ∃ n : Int, limit = some n ∧ 0 < n ∧ n ≤ maxLimit ∧ res = docs.take n.toNat := by
  cases limit with
  | none => simp [limitStage] at h
  | some n =>
    by_cases hn : 0 < n ∧ n ≤ maxLimit
    · simp only [limitStage] at h
      rw [if_pos hn] at h
      cases h
      exact ⟨n, rfl, hn.1, hn.2, rfl⟩
    · simp only [limitStage] at h
      rw [if_neg hn] at h
      cases h

theorem limitStage_pos {α : Type} (n : Int) (docs : List α) (h0 : 0 < n) (h1 : n ≤ maxLimit) :
    limitStage (some n) docs = .ok (docs.take n.toNat) := by
  simp only [limitStage]
  rw [if_pos ⟨h0, h1⟩]

theorem mem_limitStage {α : Type} (limit : Option Int) (docs res : List α)
    (h : limitStage limit docs = .ok res) (a : α) (ha : a ∈ res) : a ∈ docs := by
  obtain ⟨n, -, -, -, rfl⟩ := limitStage_ok limit docs res h
  exact List.mem_of_mem_take ha

theorem rethrow_ok {α : Type} (pre : String) (r : Except String α) (a : α)
    (h : rethrow pre r = .ok a) : r = .ok a := by
  cases r with
  | ok b => simpa [rethrow] using h
  | error e => simp [rethrow] at h

theorem requireAdmin_ok (u : User) (h : u.role = "Admin") : requireAdmin (some u) = .ok () := by
  simp [requireAdmin, requireAuth, h, bind, Except.bind]

/-! ## mostBorrowedBooks -/

theorem mem_groupByBook (rs : List BorrowRecord) (g : BookGroup) (h : g ∈ groupByBook rs) :
    g.borrowCount = ((rs.filter fun r => r.book = g._id).length : Int) ∧
    g.activeBorrows
      = ((rs.filter fun r => r.book = g._id ∧ r.status = Status.active).length : Int) ∧
    g.totalFines = ((rs.filter fun r => r.book = g._id).map fun r => r.fine).sum := by
  simp only [groupByBook, List.mem_map] at h
  obtain ⟨k, -, rfl⟩ := h
  refine ⟨sum_ones _, ?_, rfl⟩
  simp only []
  rw [sum_indicator, List.filter_filter]
  congr 2
  apply List.filter_congr
  intro r _
  simp [Bool.and_comm]

theorem mem_mostBorrowedPipeline {β : Type} (proj : Book → β) (limit : Option Int) (s : Store)
    (res : List (BookPopularity β)) (h : mostBorrowedPipeline proj limit s = .ok res)
    (e : BookPopularity β) (he : e ∈ res) :
    ∃ b ∈ s.books, b.isActive = true ∧ e.book = proj b ∧
      e.borrowCount = ((s.borrowRecords.filter fun r => r.book = b._id).length : Int) ∧
      e.activeBorrows = ((s.borrowRecords.filter
        fun r => r.book = b._id ∧ r.status = Status.active).length : Int) ∧
      e.totalFines = ((s.borrowRecords.filter fun r => r.book = b._id).map fun r => r.fine).sum ∧
      e.popularityScore = 0.7 * (e.borrowCount : ℚ) + 0.3 * (e.activeBorrows : ℚ) := by
  have he1 := mem_limitStage _ _ _ h e he
  rw [(List.perm_insertionSort _ _).mem_iff] at he1
  simp only [List.mem_map, List.mem_filter, lookupBookDetails, List.mem_flatMap] at he1
  obtain ⟨d, ⟨⟨g, hg, b, ⟨hb, hid⟩, rfl⟩, hact⟩, rfl⟩ := he1
  obtain ⟨h1, h2, h3⟩ := mem_groupByBook _ g hg
  simp only [decide_eq_true_eq] at hid hact
  refine ⟨b, hb, hact, rfl, ?_, ?_, ?_, ?_⟩
  · simpa [projectPopularity, hid] using h1
  · simpa [projectPopularity, hid] using h2
  · simpa [projectPopularity, hid] using h3
  · simp only [projectPopularity]; ring

theorem popularityOrder_total {β : Type} (a b : BookPopularity β) :
    popularityOrder a b ∨ popularityOrder b a := by
  unfold popularityOrder
  rcases lt_trichotomy a.borrowCount b.borrowCount with h | h | h
  · exact Or.inr (Or.inl h)
  · rcases le_total a.popularityScore b.popularityScore with h2 | h2
    · exact Or.inr (Or.inr ⟨h.symm, h2⟩)
    · exact Or.inl (Or.inr ⟨h, h2⟩)
  · exact Or.inl (Or.inl h)

theorem popularityOrder_trans {β : Type} (a b c : BookPopularity β)
    (hab : popularityOrder a b) (hbc : popularityOrder b c) : popularityOrder a c := by
  unfold popularityOrder at *
  rcases hab with h | ⟨h, h2⟩ <;> rcases hbc with k | ⟨k, k2⟩
  · exact Or.inl (lt_trans k h)
  · exact Or.inl (k ▸ h)
  · exact Or.inl (h ▸ k)
  · exact Or.inr ⟨h.trans k, le_trans k2 h2⟩

theorem sorted_limitStage {α : Type} (r : α → α → Prop) (limit : Option Int)
    (docs res : List α) (h : limitStage limit docs = .ok res) (hs : docs.Sorted r) :
    res.Sorted r := by
  obtain ⟨n, -, -, -, rfl⟩ := limitStage_ok limit docs res h
  exact List.Pairwise.sublist (List.take_sublist _ _) hs

theorem sorted_mostBorrowedPipeline {β : Type} (proj : Book → β) (limit : Option Int)
    (s : Store) (res : List (BookPopularity β))
    (h : mostBorrowedPipeline proj limit s = .ok res) : res.Sorted popularityOrder :=
  sorted_limitStage _ _ _ _ h
    (sorted_insertionSort_of _ popularityOrder_total popularityOrder_trans _)

theorem length_limitStage {α : Type} (n : Int) (docs : List α) (h0 : 0 < n)
    (h1 : n ≤ maxLimit) :
    ∃ res, limitStage (some n) docs = .ok res ∧ (res.length : Int) ≤ n := by
  refine ⟨_, limitStage_pos n docs h0 h1, ?_⟩
  rw [List.length_take]
  have : ((min n.toNat docs.length : Nat) : Int) ≤ (n.toNat : Int) :=
    Int.ofNat_le.mpr (Nat.min_le_left _ _)
  rw [Int.toNat_of_nonneg h0.le] at this
  exact this

theorem getMostBorrowedBooks_ok (q : Option String) (s : Store)
    (resp : Response (BookPopularity BookRef)) (h : getMostBorrowedBooks q s = .ok resp) :
    mostBorrowedPipeline bookRef (some (queryLimit q)) s = .ok resp.data := by
  unfold getMostBorrowedBooks at h
  cases hp : mostBorrowedPipeline bookRef (some (queryLimit q)) s with
  | error e => simp [hp, bind, Except.bind] at h
  | ok res =>
    simp only [hp, bind, Except.bind, pure, Except.pure, Except.ok.injEq] at h
    rw [← h]

theorem getMostBorrowedBooks_of_pipeline (q : Option String) (s : Store)
    (res : List (BookPopularity BookRef))
    (h : mostBorrowedPipeline bookRef (some (queryLimit q)) s = .ok res) :
    getMostBorrowedBooks q s = .ok { success := true, count := res.length, data := res } := by
  simp [getMostBorrowedBooks, h, bind, Except.bind, pure, Except.pure]

theorem mostBorrowedBooks_ok (limit : Arg Int) (user : Option User) (s : Store)
    (resp : Response (BookPopularity Book)) (h : mostBorrowedBooks limit user s = .ok resp) :
    mostBorrowedPipeline id (limit.orDefault 10) s = .ok resp.data := by
  have h1 := rethrow_ok _ _ _ h
  cases ha : requireAdmin user with
  | error e => simp [ha, bind, Except.bind] at h1
  | ok u =>
    cases hp : mostBorrowedPipeline id (limit.orDefault 10) s with
    | error e => simp [ha, hp, bind, Except.bind] at h1
    | ok res =>
      simp only [ha, hp, bind, Except.bind, pure, Except.pure, Except.ok.injEq] at h1
      rw [← h1]

theorem mostBorrowedBooks_of_pipeline (limit : Arg Int) (u : User) (s : Store)
    (res : List (BookPopularity Book)) (hu : u.role = "Admin")
    (h : mostBorrowedPipeline id (limit.orDefault 10) s = .ok res) :
    mostBorrowedBooks limit (some u) s
      = .ok { success := true, count := res.length, data := res } := by
  simp [mostBorrowedBooks, requireAdmin_ok u hu, h, bind, Except.bind, pure, Except.pure,
    rethrow]

theorem mostBorrowedPipeline_pos {β : Type} (proj : Book → β) (n : Int) (s : Store)
    (h0 : 0 < n) (h1 : n ≤ maxLimit) :
    ∃ res, mostBorrowedPipeline proj (some n) s = .ok res ∧ (res.length : Int) ≤ n := by
  unfold mostBorrowedPipeline
  exact length_limitStage n _ h0 h1

theorem queryLimit_of_parse (q : Option String) (n : Int) (h : q.bind parseInt = some n)
    (hn : n ≠ 0) : queryLimit q = n := by
  simp [queryLimit, h, hn]

theorem queryLimit_default (q : Option String)
    (h : q.bind parseInt = none ∨ q.bind parseInt = some 0) : queryLimit q = 10 := by
  rcases h with h | h <;> simp [queryLimit, h]

theorem ten_le_maxLimit : (10 : Int) ≤ maxLimit := by
  unfold maxLimit; norm_num

theorem getMostBorrowedBooks_default (s : Store) :
    ∃ resp, getMostBorrowedBooks none s = .ok resp := by
  obtain ⟨res, hres, -⟩ := mostBorrowedPipeline_pos bookRef 10 s (by norm_num) ten_le_maxLimit
  exact ⟨_, getMostBorrowedBooks_of_pipeline none s res hres⟩

theorem mostBorrowedBooks_default (u : User) (hu : u.role = "Admin") (s : Store) :
    ∃ resp, mostBorrowedBooks Arg.absent (some u) s = .ok resp := by
  obtain ⟨res, hres, -⟩ := mostBorrowedPipeline_pos id 10 s (by norm_num) ten_le_maxLimit
  exact ⟨_, mostBorrowedBooks_of_pipeline Arg.absent u s res hu hres⟩

/-- C1: every entry of mostBorrowedBooks, over REST and over GraphQL, belongs
to a book of the store with isActive = true, and carries that book's metrics:
borrowCount is the number of borrow records referencing the book,
activeBorrows the number of those with status active, totalFines the sum of
their fines, and popularityScore = 0.7 * borrowCount + 0.3 * activeBorrows;
and the report is answered when no limit is supplied (over GraphQL to an
Admin). -/
theorem mostBorrowedBooks_metrics (s : Store) :
    (∀ q resp, getMostBorrowedBooks q s = .ok resp → ∀ e ∈ resp.data,
        ∃ b ∈ s.books, b.isActive = true ∧ e.book = bookRef b ∧ IsPopularityOf s b e) ∧
    (∀ limit user resp, mostBorrowedBooks limit user s = .ok resp → ∀ e ∈ resp.data,
        ∃ b ∈ s.books, b.isActive = true ∧ e.book = b ∧ IsPopularityOf s b e) ∧
    (∃ resp, getMostBorrowedBooks none s = .ok resp) ∧
    (∀ u : User, u.role = "Admin" →
        ∃ resp, mostBorrowedBooks Arg.absent (some u) s = .ok resp) := by
  refine ⟨?_, ?_, getMostBorrowedBooks_default s, fun u hu => mostBorrowedBooks_default u hu s⟩
  · intro q resp h e he
    exact mem_mostBorrowedPipeline _ _ _ _ (getMostBorrowedBooks_ok q s resp h) e he
  · intro limit user resp h e he
    exact mem_mostBorrowedPipeline _ _ _ _ (mostBorrowedBooks_ok limit user s resp h) e he

theorem mostBorrowedBooks_metrics_witness :
    getMostBorrowedBooks none tieStore = .ok tieReport ∧
      ∀ e ∈ tieReport.data, ∃ b ∈ tieStore.books,
        b.isActive = true ∧ e.book = bookRef b ∧ IsPopularityOf tieStore b e :=
  ⟨by decide!, (mostBorrowedBooks_metrics tieStore).1 none tieReport (by decide!)⟩

theorem mostBorrowedBooks_limit_zero :
    parseInt "0" = some 0 ∧
      ∃ resp, getMostBorrowedBooks (some "0") tieStore = .ok resp ∧
        ¬ ((resp.data.length : Int) ≤ 0) :=
  ⟨by decide!, tieReport, by decide!, by decide!⟩

/-- C2 (amended): with a requested limit n ≥ 1 (read by parseInt from the
query string over REST, the argument over GraphQL) mostBorrowedBooks returns,
and returns at most n entries; with no limit supplied, and over REST also with
a limit that parseInt reads as 0 or as no number, it returns at most 10
entries. -/
theorem mostBorrowedBooks_limit (s : Store) :
    (∀ (q : String) (n : Int), parseInt q = some n → 0 < n → n ≤ 2 ^ 53 →
        ∃ resp, getMostBorrowedBooks (some q) s = .ok resp ∧ (resp.data.length : Int) ≤ n) ∧
    (∀ q : Option String, q.bind parseInt = none ∨ q.bind parseInt = some 0 →
        ∃ resp, getMostBorrowedBooks q s = .ok resp ∧ resp.data.length ≤ 10) ∧
    (∀ (u : User) (n : Int), u.role = "Admin" → 0 < n → n ≤ maxLimit →
        ∃ resp, mostBorrowedBooks (Arg.value n) (some u) s = .ok resp ∧
          (resp.data.length : Int) ≤ n) ∧
    (∀ u : User, u.role = "Admin" →
        ∃ resp, mostBorrowedBooks Arg.absent (some u) s = .ok resp ∧
          resp.data.length ≤ 10) := by
  refine ⟨?_, ?_, ?_, ?_⟩
  · intro q n hq h0 h1
    have hmax : n ≤ maxLimit := le_trans h1 (by unfold maxLimit; norm_num)
    have hl : queryLimit (some q) = n := queryLimit_of_parse (some q) n hq (ne_of_gt h0)
    obtain ⟨res, hres, hlen⟩ := mostBorrowedPipeline_pos bookRef n s h0 hmax
    rw [← hl] at hres
    exact ⟨_, getMostBorrowedBooks_of_pipeline _ s res hres, hlen⟩
  · intro q hq
    have hl : queryLimit q = 10 := queryLimit_default q hq
    obtain ⟨res, hres, hlen⟩ :=
      mostBorrowedPipeline_pos bookRef 10 s (by norm_num) ten_le_maxLimit
    rw [← hl] at hres
    exact ⟨_, getMostBorrowedBooks_of_pipeline _ s res hres, by exact_mod_cast hlen⟩
  · intro u n hu h0 h1
    obtain ⟨res, hres, hlen⟩ := mostBorrowedPipeline_pos id n s h0 h1
    exact ⟨_, mostBorrowedBooks_of_pipeline (Arg.value n) u s res hu hres, hlen⟩
  · intro u hu
    obtain ⟨res, hres, hlen⟩ :=
      mostBorrowedPipeline_pos id 10 s (by norm_num) ten_le_maxLimit
    exact ⟨_, mostBorrowedBooks_of_pipeline Arg.absent u s res hu hres,
      by exact_mod_cast hlen⟩

theorem mostBorrowedBooks_limit_witness :
    parseInt "1" = some 1 ∧
      ∃ resp, getMostBorrowedBooks (some "1") tieStore = .ok resp ∧
        (resp.data.length : Int) ≤ 1 :=
  ⟨by decide!,
    (mostBorrowedBooks_limit tieStore).1 "1" 1 (by decide!) (by norm_num) (by norm_num)⟩

theorem mostBorrowedBooks_tie_not_strict :
    ∃ resp, getMostBorrowedBooks none tieStore = .ok resp ∧
      ¬ List.Chain' StrictlyMoreBorrowed resp.data :=
  ⟨tieReport, by decide!, by
    simp only [tieReport, List.chain'_cons, List.chain'_singleton, and_true]
    decide!⟩

/-- C3 (amended): the list returned by mostBorrowedBooks, over REST and over
GraphQL, is ordered by (borrowCount descending, popularityScore descending):
for every two consecutive entries e1, e2, either
e1.borrowCount > e2.borrowCount, or the borrowCounts are equal and
e1.popularityScore ≥ e2.popularityScore. -/
theorem mostBorrowedBooks_ordered (s : Store) :
    (∀ q resp, getMostBorrowedBooks q s = .ok resp →
        List.Chain'
          (fun e1 e2 => e1.borrowCount > e2.borrowCount ∨
            (e1.borrowCount = e2.borrowCount ∧ e1.popularityScore ≥ e2.popularityScore))
          resp.data) ∧
    (∀ limit user resp, mostBorrowedBooks limit user s = .ok resp →
        List.Chain'
          (fun e1 e2 => e1.borrowCount > e2.borrowCount ∨
            (e1.borrowCount = e2.borrowCount ∧ e1.popularityScore ≥ e2.popularityScore))
          resp.data) := by
  constructor
  · intro q resp h
    exact (sorted_mostBorrowedPipeline _ _ _ _ (getMostBorrowedBooks_ok q s resp h)).chain'
  · intro limit user resp h
    exact
      (sorted_mostBorrowedPipeline _ _ _ _ (mostBorrowedBooks_ok limit user s resp h)).chain'

theorem mostBorrowedBooks_ordered_witness :
    getMostBorrowedBooks none tieStore = .ok tieReport ∧
      List.Chain'
        (fun e1 e2 => e1.borrowCount > e2.borrowCount ∨
          (e1.borrowCount = e2.borrowCount ∧ e1.popularityScore ≥ e2.popularityScore))
        tieReport.data :=
  ⟨by decide!, (mostBorrowedBooks_ordered tieStore).1 none tieReport (by decide!)⟩

/-! ## mostActiveMembers -/

theorem filter_and {α : Type} (p q : α → Prop) [DecidablePred p] [DecidablePred q]
    (l : List α) :
    (l.filter fun a => decide (p a)).filter (fun a => decide (q a))
      = l.filter fun a => decide (p a ∧ q a) := by
  rw [List.filter_filter]
  apply List.filter_congr
  intro a _
  simp [Bool.and_comm]

theorem durationOf_eq (r : BorrowRecord) :
    (if neNull r.returnDate then divideByDayMs (subtractDates r.returnDate r.borrowDate)
      else none)
      = (match r.returnDate with
        | .date ms => some (((ms - r.borrowDate : Int) : ℚ) / 86400000)
        | _ => none) := by
  cases h : r.returnDate <;> simp [neNull, divideByDayMs, subtractDates]
  norm_num

theorem avg_map {α : Type} (f : α → Option ℚ) (l : List α) :
    avg (l.map f)
      = if l.filterMap f = [] then none
        else some ((l.filterMap f).sum / ((l.filterMap f).length : ℚ)) := by
  have h : (l.map f).reduceOption = l.filterMap f := by
    simp [List.reduceOption, List.filterMap_map]
  simp only [avg, h]

theorem mem_groupByUser (now : Int) (rs : List BorrowRecord) (g : UserGroup)
    (h : g ∈ groupByUser now rs) :
    g.totalBorrows = ((rs.filter fun r => r.user = g._id).length : Int) ∧
    g.activeBorrows
      = ((rs.filter fun r => r.user = g._id ∧ r.status = Status.active).length : Int) ∧
    g.returnedBooks
      = ((rs.filter fun r => r.user = g._id ∧ r.status = Status.returned).length : Int) ∧
    g.overdueBooks
      = ((rs.filter
          fun r => r.user = g._id ∧ r.status = Status.active ∧ r.dueDate < now).length : Int) ∧
    g.totalRenewals = ((rs.filter fun r => r.user = g._id).map fun r => r.renewalCount).sum ∧
    g.avgBorrowDuration
      = avg ((rs.filter fun r => r.user = g._id).map fun r =>
          match r.returnDate with
          | .date ms => some (((ms - r.borrowDate : Int) : ℚ) / 86400000)
          | _ => none) := by
  simp only [groupByUser, List.mem_map] at h
  obtain ⟨k, -, rfl⟩ := h
  refine ⟨sum_ones _, ?_, ?_, ?_, rfl, ?_⟩
  · simp only []
    rw [sum_indicator, filter_and]
  · simp only []
    rw [sum_indicator, filter_and]
  · simp only []
    rw [sum_indicator, filter_and]
  · simp only []
    congr 1
    apply List.map_congr_left
    intro r _
    exact durationOf_eq r

theorem activityOrder_total {β : Type} (a b : MemberActivity β) :
    activityOrder a b ∨ activityOrder b a := by
  unfold activityOrder
  rcases lt_trichotomy a.totalBorrows b.totalBorrows with h | h | h
  · exact Or.inr (Or.inl h)
  · rcases le_total a.activityScore b.activityScore with h2 | h2
    · exact Or.inr (Or.inr ⟨h.symm, h2⟩)
    · exact Or.inl (Or.inr ⟨h, h2⟩)
  · exact Or.inl (Or.inl h)

theorem activityOrder_trans {β : Type} (a b c : MemberActivity β)
    (hab : activityOrder a b) (hbc : activityOrder b c) : activityOrder a c := by
  unfold activityOrder at *
  rcases hab with h | ⟨h, h2⟩ <;> rcases hbc with k | ⟨k, k2⟩
  · exact Or.inl (lt_trans k h)
  · exact Or.inl (k ▸ h)
  · exact Or.inl (h ▸ k)
  · exact Or.inr ⟨h.trans k, le_trans k2 h2⟩

theorem sorted_mostActivePipeline {β : Type} (proj : User → β) (now : Int)
    (limit : Option Int) (s : Store) (res : List (MemberActivity β))
    (h : mostActivePipeline proj now limit s = .ok res) : res.Sorted activityOrder :=
  sorted_limitStage _ _ _ _ h
    (sorted_insertionSort_of _ activityOrder_total activityOrder_trans _)

theorem mem_mostActivePipeline {β : Type} (proj : User → β) (now : Int) (limit : Option Int)
    (s : Store) (res : List (MemberActivity β))
    (h : mostActivePipeline proj now limit s = .ok res)
    (e : MemberActivity β) (he : e ∈ res) :
    ∃ u ∈ s.users, u.isActive = true ∧ e.user = proj u ∧ IsActivityOf now s u e ∧
      e.avgBorrowDuration
        = round1 (if returnedDurations s u._id = [] then none
            else some ((returnedDurations s u._id).sum
              / ((returnedDurations s u._id).length : ℚ))) := by
  have he1 := mem_limitStage _ _ _ h e he
  rw [(List.perm_insertionSort _ _).mem_iff] at he1
  simp only [List.mem_map, List.mem_filter, lookupUserDetails, List.mem_flatMap] at he1
  obtain ⟨d, ⟨⟨g, hg, u, ⟨hu, hid⟩, rfl⟩, hact⟩, rfl⟩ := he1
  obtain ⟨h1, h2, h3, h4, h5, h6⟩ := mem_groupByUser now _ g hg
  simp only [decide_eq_true_eq] at hid hact
  rw [avg_map] at h6
  refine ⟨u, hu, hact, rfl, ⟨?_, ?_, ?_, ?_, ?_, ?_⟩, ?_⟩
  · simpa [projectActivity, hid] using h1
  · simpa [projectActivity, hid] using h2
  · simpa [projectActivity, hid] using h3
  · simpa [projectActivity, hid] using h4
  · simpa [projectActivity, hid] using h5
  · simp only [projectActivity]; ring
  · simp only [projectActivity, returnedDurations, h6, hid]

theorem getMostActiveMembers_ok (now : Int) (q : Option String) (s : Store)
    (resp : Response (MemberActivity UserRef)) (h : getMostActiveMembers now q s = .ok resp) :
    mostActivePipeline userRef now (some (queryLimit q)) s = .ok resp.data := by
  unfold getMostActiveMembers at h
  cases hp : mostActivePipeline userRef now (some (queryLimit q)) s with
  | error e => simp [hp, bind, Except.bind] at h
  | ok res =>
    simp only [hp, bind, Except.bind, pure, Except.pure, Except.ok.injEq] at h
    rw [← h]

theorem mostActiveMembers_ok (now : Int) (limit : Arg Int) (user : Option User) (s : Store)
    (resp : Response (MemberActivity User)) (h : mostActiveMembers now limit user s = .ok resp) :
    mostActivePipeline id now (limit.orDefault 10) s = .ok resp.data := by
  have h1 := rethrow_ok _ _ _ h
  cases ha : requireAdmin user with
  | error e => simp [ha, bind, Except.bind] at h1
  | ok u =>
    cases hp : mostActivePipeline id now (limit.orDefault 10) s with
    | error e => simp [ha, hp, bind, Except.bind] at h1
    | ok res =>
      simp only [ha, hp, bind, Except.bind, pure, Except.pure, Except.ok.injEq] at h1
      rw [← h1]

theorem getMostActiveMembers_default (now : Int) (s : Store) :
    ∃ resp, getMostActiveMembers now none s = .ok resp := by
  have hp : mostActivePipeline userRef now (some (queryLimit none)) s
      = .ok (List.take (10 : Int).toNat
          (List.insertionSort activityOrder
            (List.map (projectActivity userRef)
              (List.filter (fun d => d.2.isActive = true)
                (lookupUserDetails s.users (groupByUser now s.borrowRecords)))))) :=
    limitStage_pos 10 _ (by norm_num) ten_le_maxLimit
  exact ⟨_, by
    simp only [getMostActiveMembers, hp, bind, Except.bind, pure, Except.pure]
    rfl⟩

theorem mostActiveMembers_default (now : Int) (u : User) (hu : u.role = "Admin") (s : Store) :
    ∃ resp, mostActiveMembers now Arg.absent (some u) s = .ok resp := by
  have hp : mostActivePipeline id now (Arg.absent.orDefault 10) s
      = .ok (List.take (10 : Int).toNat
          (List.insertionSort activityOrder
            (List.map (projectActivity id)
              (List.filter (fun d => d.2.isActive = true)
                (lookupUserDetails s.users (groupByUser now s.borrowRecords)))))) :=
    limitStage_pos 10 _ (by norm_num) ten_le_maxLimit
  exact ⟨_, by
    simp only [mostActiveMembers, requireAdmin_ok u hu, hp, bind, Except.bind, pure,
      Except.pure, rethrow]
    rfl⟩

theorem roundHalfEven_near (x : ℚ) : |(roundHalfEven x : ℚ) - x| ≤ 1 / 2 := by
  have hfl : Rat.floor x = ⌊x⌋ := rfl
  have h1 : ((Rat.floor x : Int) : ℚ) ≤ x := by rw [hfl]; exact Int.floor_le x
  have h2 : x < ((Rat.floor x : Int) : ℚ) + 1 := by rw [hfl]; exact Int.lt_floor_add_one x
  unfold roundHalfEven
  simp only []
  rw [abs_le]
  split_ifs with c1 c2 c3
  · constructor <;> linarith
  · push_cast; constructor <;> linarith
  · constructor <;> linarith
  · push_cast; constructor <;> linarith

theorem round1_rounded (x : ℚ) : ∃ v, round1 (some x) = some v ∧ IsRoundedToTenth x v := by
  refine ⟨(roundHalfEven (x * 10) : ℚ) / 10, rfl, ⟨_, rfl⟩, ?_⟩
  have h := roundHalfEven_near (x * 10)
  rw [abs_le] at h ⊢
  constructor <;> linarith [h.1, h.2]

theorem isAvgDurationOf_round1 (s : Store) (uid : Nat) :
    IsAvgDurationOf s uid
      (round1 (if returnedDurations s uid = [] then none
        else some ((returnedDurations s uid).sum / ((returnedDurations s uid).length : ℚ)))) := by
  constructor
  · intro h
    simp [h, round1]
  · intro h
    rw [if_neg h]
    exact round1_rounded _

/-- C4: every entry of mostActiveMembers, over REST and over GraphQL, belongs
to a user of the store with isActive = true and carries that user's metrics at
time now: totalBorrows, activeBorrows, returnedBooks, overdueBooks (status
active and dueDate < now), totalRenewals (sum of renewalCount) and
activityScore = 0.4 * totalBorrows + 0.3 * returnedBooks + 0.2 * totalRenewals
- 0.1 * overdueBooks; the entries are ordered by (totalBorrows descending,
activityScore descending); and the report is answered when no limit is
supplied (over GraphQL to an Admin). -/
theorem mostActiveMembers_metrics (now : Int) (s : Store) :
    (∀ q resp, getMostActiveMembers now q s = .ok resp →
        (∀ e ∈ resp.data,
          ∃ u ∈ s.users, u.isActive = true ∧ e.user = userRef u ∧ IsActivityOf now s u e) ∧
        List.Chain'
          (fun e1 e2 => e1.totalBorrows > e2.totalBorrows ∨
            (e1.totalBorrows = e2.totalBorrows ∧ e1.activityScore ≥ e2.activityScore))
          resp.data) ∧
    (∀ limit user resp, mostActiveMembers now limit user s = .ok resp →
        (∀ e ∈ resp.data,
          ∃ u ∈ s.users, u.isActive = true ∧ e.user = u ∧ IsActivityOf now s u e) ∧
        List.Chain'
          (fun e1 e2 => e1.totalBorrows > e2.totalBorrows ∨
            (e1.totalBorrows = e2.totalBorrows ∧ e1.activityScore ≥ e2.activityScore))
          resp.data) ∧
    (∃ resp, getMostActiveMembers now none s = .ok resp) ∧
    (∀ u : User, u.role = "Admin" →
        ∃ resp, mostActiveMembers now Arg.absent (some u) s = .ok resp) := by
  refine ⟨?_, ?_, getMostActiveMembers_default now s,
    fun u hu => mostActiveMembers_default now u hu s⟩
  · intro q resp h
    have hp := getMostActiveMembers_ok now q s resp h
    refine ⟨?_, (sorted_mostActivePipeline _ _ _ _ _ hp).chain'⟩
    intro e he
    obtain ⟨u, hu, hact, hproj, hmet, -⟩ := mem_mostActivePipeline _ _ _ _ _ hp e he
    exact ⟨u, hu, hact, hproj, hmet⟩
  · intro limit user resp h
    have hp := mostActiveMembers_ok now limit user s resp h
    refine ⟨?_, (sorted_mostActivePipeline _ _ _ _ _ hp).chain'⟩
    intro e he
    obtain ⟨u, hu, hact, hproj, hmet, -⟩ := mem_mostActivePipeline _ _ _ _ _ hp e he
    exact ⟨u, hu, hact, hproj, hmet⟩

theorem mostActiveMembers_metrics_witness :
    getMostActiveMembers 2000000000 none memberStore = .ok memberReport ∧
      (∀ e ∈ memberReport.data,
        ∃ u ∈ memberStore.users, u.isActive = true ∧ e.user = userRef u ∧
          IsActivityOf 2000000000 memberStore u e) ∧
      List.Chain'
        (fun e1 e2 => e1.totalBorrows > e2.totalBorrows ∨
          (e1.totalBorrows = e2.totalBorrows ∧ e1.activityScore ≥ e2.activityScore))
        memberReport.data :=
  ⟨by decide!,
    (mostActiveMembers_metrics 2000000000 memberStore).1 none memberReport (by decide!)⟩

/-- C5: for every entry of mostActiveMembers, over REST and over GraphQL,
avgBorrowDuration is absent (null, not 0) when the entry's user has no record
with a returnDate, and otherwise is the arithmetic mean of
(returnDate - borrowDate) in days over exactly that user's records whose
returnDate is set, rounded to one decimal place; records without a returnDate
enter neither the sum nor the divisor; and the report is answered when no
limit is supplied (over GraphQL to an Admin). -/
theorem mostActiveMembers_avgBorrowDuration (now : Int) (s : Store) :
    (∀ q resp, getMostActiveMembers now q s = .ok resp →
        ∀ e ∈ resp.data, IsAvgDurationOf s e.user.id e.avgBorrowDuration) ∧
    (∀ limit user resp, mostActiveMembers now limit user s = .ok resp →
        ∀ e ∈ resp.data, IsAvgDurationOf s e.user._id e.avgBorrowDuration) ∧
    (∃ resp, getMostActiveMembers now none s = .ok resp) ∧
    (∀ u : User, u.role = "Admin" →
        ∃ resp, mostActiveMembers now Arg.absent (some u) s = .ok resp) := by
  refine ⟨?_, ?_, getMostActiveMembers_default now s,
    fun u hu => mostActiveMembers_default now u hu s⟩
  · intro q resp h e he
    obtain ⟨u, -, -, hproj, -, havg⟩ :=
      mem_mostActivePipeline _ _ _ _ _ (getMostActiveMembers_ok now q s resp h) e he
    rw [havg, hproj]
    exact isAvgDurationOf_round1 s u._id
  · intro limit user resp h e he
    obtain ⟨u, -, -, hproj, -, havg⟩ :=
      mem_mostActivePipeline _ _ _ _ _ (mostActiveMembers_ok now limit user s resp h) e he
    rw [havg, hproj]
    exact isAvgDurationOf_round1 s u._id

theorem mostActiveMembers_avgBorrowDuration_witness :
    getMostActiveMembers 2000000000 none memberStore = .ok memberReport ∧
      ∀ e ∈ memberReport.data, IsAvgDurationOf memberStore e.user.id e.avgBorrowDuration :=
  ⟨by decide!,
    (mostActiveMembers_avgBorrowDuration 2000000000 memberStore).1 none memberReport
      (by decide!)⟩

/-! ## bookAvailabilityReport -/

theorem divide_ok (a b c : ℚ) (h : divide a b = .ok c) : b ≠ 0 ∧ c = a / b := by
  unfold divide at h
  by_cases hb : b = 0
  · rw [if_pos hb] at h; cases h
  · rw [if_neg hb] at h; cases h; exact ⟨hb, rfl⟩

theorem divide_of_ne (a b : ℚ) (h : b ≠ 0) : divide a b = .ok (a / b) := by
  unfold divide
  rw [if_neg h]

theorem projectStage_ok {α β : Type} (f : α → Except String β) (l : List α) (res : List β)
    (h : projectStage f l = .ok res) : List.Forall₂ (fun a b => f a = .ok b) l res := by
  induction l generalizing res with
  | nil =>
    simp only [projectStage, Except.ok.injEq] at h
    subst h
    exact List.Forall₂.nil
  | cons a as ih =>
    simp only [projectStage] at h
    cases ha : f a with
    | error e => simp [ha, bind, Except.bind] at h
    | ok b =>
      cases hr : projectStage f as with
      | error e => simp [ha, hr, bind, Except.bind] at h
      | ok bs =>
        simp only [ha, hr, bind, Except.bind, pure, Except.pure, Except.ok.injEq] at h
        subst h
        exact List.Forall₂.cons ha (ih bs hr)

theorem projectStage_of_forall {α β : Type} (f : α → Except String β) (l : List α)
    (h : ∀ a ∈ l, ∃ b, f a = .ok b) : ∃ res, projectStage f l = .ok res := by
  induction l with
  | nil => exact ⟨[], rfl⟩
  | cons a as ih =>
    obtain ⟨b, hb⟩ := h a (List.mem_cons_self _ _)
    obtain ⟨bs, hbs⟩ := ih fun x hx => h x (List.mem_cons_of_mem _ hx)
    exact ⟨b :: bs, by simp [projectStage, hb, hbs, bind, Except.bind, pure, Except.pure]⟩

theorem mem_projectStage {α β : Type} (f : α → Except String β) (l : List α) (res : List β)
    (h : projectStage f l = .ok res) (b : β) (hb : b ∈ res) : ∃ a ∈ l, f a = .ok b := by
  have hf := projectStage_ok f l res h
  clear h
  induction hf with
  | nil => simp at hb
  | cons hab _ ih =>
    rcases List.mem_cons.mp hb with rfl | hb
    · exact ⟨_, List.mem_cons_self _ _, hab⟩
    · obtain ⟨a, ha, hfa⟩ := ih hb
      exact ⟨a, List.mem_cons_of_mem _ ha, hfa⟩

theorem length_projectStage {α β : Type} (f : α → Except String β) (l : List α)
    (res : List β) (h : projectStage f l = .ok res) : res.length = l.length :=
  (projectStage_ok f l res h).length_eq.symm

theorem stockStatus_label (a t : Int) : IsStockLabel a t (stockStatus a t) := by
  unfold IsStockLabel stockStatus
  have e : (t : ℚ) * 0.2 = 0.2 * (t : ℚ) := mul_comm _ _
  rw [e]
  refine ⟨fun h => by simp [h], fun h1 h2 => by simp [h1, h2], fun h1 h2 => by simp [h1, h2]⟩

theorem stockStatus_cases (a t : Int) :
    (stockStatus a t = "Out of Stock" ↔ a = 0) ∧
    (stockStatus a t = "Low Stock" ↔ a ≠ 0 ∧ (a : ℚ) < 0.2 * (t : ℚ)) ∧
    (stockStatus a t = "Available" ↔ a ≠ 0 ∧ ¬ (a : ℚ) < 0.2 * (t : ℚ)) := by
  unfold stockStatus
  have e : (t : ℚ) * 0.2 = 0.2 * (t : ℚ) := mul_comm _ _
  rw [e]
  by_cases h1 : a = 0
  · simp [h1]
  · by_cases h2 : (a : ℚ) < 0.2 * (t : ℚ)
    · simp [h1, h2]
    · simp [h1, h2]

theorem matchBooks_ok (rx : RegexEngine) (f : AvailabilityFilter) (books matched : List Book)
    (h : matchBooks rx f books = .ok matched) :
    ∃ keep, matchStage rx f = .ok keep ∧ matched = books.filter keep := by
  unfold matchBooks at h
  cases hk : matchStage rx f with
  | error e => simp [hk, bind, Except.bind] at h
  | ok keep =>
    simp only [hk, bind, Except.bind, pure, Except.pure, Except.ok.injEq] at h
    exact ⟨keep, rfl, h.symm⟩

theorem availabilityReport_ok {β : Type} (proj : Book → β) (rx : RegexEngine)
    (f : AvailabilityFilter) (s : Store) (resp : AvailabilityResponse β)
    (h : availabilityReport proj rx f s = .ok resp) :
    ∃ matched summaries, matchBooks rx f s.books = .ok matched ∧
      availabilityPipeline proj matched s.borrowRecords = .ok resp.data ∧
      summaryPipeline matched = .ok summaries ∧
      resp.summary = (summaries.head?).getD emptySummary ∧
      resp.count = resp.data.length := by
  unfold availabilityReport at h
  cases hk : matchBooks rx f s.books with
  | error e => simp [hk, bind, Except.bind] at h
  | ok matched =>
    cases hp : availabilityPipeline proj matched s.borrowRecords with
    | error e => simp [hk, hp, bind, Except.bind] at h
    | ok books =>
      cases hs : summaryPipeline matched with
      | error e => simp [hk, hp, hs, bind, Except.bind] at h
      | ok summaries =>
        simp only [hk, hp, hs, bind, Except.bind, pure, Except.pure, Except.ok.injEq] at h
        subst h
        exact ⟨matched, summaries, rfl, hp, hs, rfl, rfl⟩

theorem availabilityReport_of_parts {β : Type} (proj : Book → β) (rx : RegexEngine)
    (f : AvailabilityFilter) (s : Store) (matched : List Book)
    (books : List (BookAvailabilityItem β)) (summaries : List AvailabilitySummary)
    (hk : matchBooks rx f s.books = .ok matched)
    (hp : availabilityPipeline proj matched s.borrowRecords = .ok books)
    (hs : summaryPipeline matched = .ok summaries) :
    availabilityReport proj rx f s
      = .ok { success := true, summary := (summaries.head?).getD emptySummary,
              count := books.length, data := books } := by
  simp [availabilityReport, hk, hp, hs, bind, Except.bind, pure, Except.pure]

theorem projectAvailability_ok {β : Type} (proj : Book → β) (d : BookWithBorrows)
    (e : BookAvailabilityItem β) (h : projectAvailability proj d = .ok e) :
    d.book.totalCopies ≠ 0 ∧ e.book = proj d.book ∧
      e.borrowedCopies = (d.activeBorrows.length : Int) ∧
      e.totalBorrows = ((d.borrowStats.map fun st => st.totalBorrows).head?).getD 0 ∧
      e.totalFinesGenerated = ((d.borrowStats.map fun st => st.totalFines).head?).getD 0 ∧
      e.availabilityPercentage
        = 100 * (d.book.availableCopies : ℚ) / (d.book.totalCopies : ℚ) ∧
      e.status = stockStatus d.book.availableCopies d.book.totalCopies := by
  unfold projectAvailability at h
  cases hd : divide d.book.availableCopies d.book.totalCopies with
  | error e => simp [hd, bind, Except.bind] at h
  | ok c =>
    obtain ⟨hne, rfl⟩ := divide_ok _ _ _ hd
    simp only [hd, bind, Except.bind, pure, Except.pure, Except.ok.injEq] at h
    subst h
    refine ⟨by exact_mod_cast hne, rfl, rfl, rfl, rfl, ?_, rfl⟩
    simp only []
    ring

theorem mem_availabilityPipeline {β : Type} (proj : Book → β) (matched : List Book)
    (rs : List BorrowRecord) (data : List (BookAvailabilityItem β))
    (h : availabilityPipeline proj matched rs = .ok data)
    (e : BookAvailabilityItem β) (he : e ∈ data) :
    ∃ b ∈ matched, projectAvailability proj (lookupBorrows rs b) = .ok e := by
  unfold availabilityPipeline at h
  cases hp : projectStage (projectAvailability proj) (matched.map (lookupBorrows rs)) with
  | error e => simp [hp, bind, Except.bind] at h
  | ok projected =>
    simp only [hp, bind, Except.bind, pure, Except.pure, Except.ok.injEq] at h
    subst h
    rw [(List.perm_insertionSort _ _).mem_iff] at he
    obtain ⟨d, hd, hde⟩ := mem_projectStage _ _ _ hp e he
    obtain ⟨b, hb, rfl⟩ := List.mem_map.mp hd
    exact ⟨b, hb, hde⟩

theorem availabilityPipeline_total {β : Type} (proj : Book → β) (matched : List Book)
    (rs : List BorrowRecord) (h : ∀ b ∈ matched, b.totalCopies ≠ 0) :
    ∃ data, availabilityPipeline proj matched rs = .ok data := by
  have hp : ∃ res, projectStage (projectAvailability proj) (matched.map (lookupBorrows rs))
      = .ok res := by
    apply projectStage_of_forall
    intro d hd
    obtain ⟨b, hb, rfl⟩ := List.mem_map.mp hd
    have hne : ((b.totalCopies : Int) : ℚ) ≠ 0 := by exact_mod_cast h b hb
    exact ⟨_, by
      simp only [projectAvailability, lookupBorrows, divide_of_ne _ _ hne, bind, Except.bind,
        pure, Except.pure]
      rfl⟩
  obtain ⟨res, hres⟩ := hp
  exact ⟨_, by
    simp only [availabilityPipeline, hres, bind, Except.bind, pure, Except.pure]
    rfl⟩

theorem summaryPipeline_nil : summaryPipeline [] = .ok [] := rfl

theorem summaryPipeline_ok (matched : List Book) (summaries : List AvailabilitySummary)
    (h : summaryPipeline matched = .ok summaries) (hne : matched ≠ []) :
    ∃ sm, summaries = [sm] ∧ IsSummaryOf matched sm := by
  cases matched with
  | nil => exact absurd rfl hne
  | cons b bs =>
    simp only [summaryPipeline, groupAll, projectStage] at h
    cases hd : projectSummary (summaryGroup (b :: bs)) with
    | error e => simp [hd, bind, Except.bind] at h
    | ok sm =>
      simp only [hd, bind, Except.bind, pure, Except.pure, Except.ok.injEq] at h
      subst h
      refine ⟨sm, rfl, ?_⟩
      unfold projectSummary at hd
      cases hq : divide (summaryGroup (b :: bs)).totalAvailable
          (summaryGroup (b :: bs)).totalCopies with
      | error e => simp [hq, bind, Except.bind] at hd
      | ok c =>
        obtain ⟨hz, rfl⟩ := divide_ok _ _ _ hq
        simp only [hq, bind, Except.bind, pure, Except.pure, Except.ok.injEq] at hd
        subst hd
        refine ⟨sum_ones _, rfl, rfl, rfl, ?_, rfl, by exact_mod_cast hz, ?_⟩
        · exact sum_indicator (fun x : Book => x.availableCopies = 0) (b :: bs)
        · simp only []
          ring

theorem sum_pos_of_forall_pos (l : List Int) (hne : l ≠ []) (h : ∀ x ∈ l, 0 < x) :
    0 < l.sum := by
  induction l with
  | nil => exact absurd rfl hne
  | cons a as ih =>
    rw [List.sum_cons]
    have ha : 0 < a := h a (List.mem_cons_self _ _)
    by_cases hn : as = []
    · subst hn; simpa using ha
    · have := ih hn fun x hx => h x (List.mem_cons_of_mem _ hx)
      omega

theorem summaryPipeline_total (matched : List Book) (h : ∀ b ∈ matched, 0 < b.totalCopies) :
    ∃ summaries, summaryPipeline matched = .ok summaries := by
  cases matched with
  | nil => exact ⟨[], rfl⟩
  | cons b bs =>
    have hpos : 0 < ((b :: bs).map fun x => x.totalCopies).sum := by
      apply sum_pos_of_forall_pos
      · simp
      · intro x hx
        obtain ⟨y, hy, rfl⟩ := List.mem_map.mp hx
        exact h y hy
    have hne : (((summaryGroup (b :: bs)).totalCopies : Int) : ℚ) ≠ 0 := by
      have : (summaryGroup (b :: bs)).totalCopies ≠ 0 := ne_of_gt hpos
      exact_mod_cast this
    exact ⟨_, by
      simp only [summaryPipeline, groupAll, projectStage, projectSummary,
        divide_of_ne _ _ hne, bind, Except.bind, pure, Except.pure]
      rfl⟩

theorem availabilityReport_total {β : Type} (proj : Book → β) (rx : RegexEngine)
    (f : AvailabilityFilter) (s : Store) (matched : List Book)
    (hk : matchBooks rx f s.books = .ok matched) (h : ∀ b ∈ matched, 0 < b.totalCopies) :
    ∃ resp, availabilityReport proj rx f s = .ok resp := by
  obtain ⟨books, hb⟩ := availabilityPipeline_total proj matched
    s.borrowRecords fun b hb => ne_of_gt (h b hb)
  obtain ⟨summaries, hs⟩ := summaryPipeline_total matched h
  exact ⟨_, availabilityReport_of_parts proj rx f s matched books summaries hk hb hs⟩

theorem bookAvailabilityReport_ok (rx : RegexEngine) (filter : Arg AvailabilityFilter)
    (user : Option User) (s : Store) (resp : AvailabilityResponse Book)
    (h : bookAvailabilityReport rx filter user s = .ok resp) :
    ∃ f, filter.orDefault emptyFilter = some f ∧
      availabilityReport id rx f s = .ok resp := by
  have h1 := rethrow_ok _ _ _ h
  cases ha : requireAdmin user with
  | error e => simp [ha, bind, Except.bind] at h1
  | ok u =>
    simp only [ha, bind, Except.bind] at h1
    cases hf : filter.orDefault emptyFilter with
    | none => simp [hf] at h1
    | some f =>
      simp only [hf] at h1
      exact ⟨f, rfl, h1⟩

theorem bookAvailabilityReport_of_report (rx : RegexEngine) (filter : Arg AvailabilityFilter)
    (u : User) (s : Store) (f : AvailabilityFilter) (resp : AvailabilityResponse Book)
    (hu : u.role = "Admin")
    (hf : filter.orDefault emptyFilter = some f)
    (h : availabilityReport id rx f s = .ok resp) :
    bookAvailabilityReport rx filter (some u) s = .ok resp := by
  simp [bookAvailabilityReport, requireAdmin_ok u hu, hf, h, bind, Except.bind, rethrow]

theorem status_of_mem_availabilityPipeline {β : Type} (proj : Book → β) (matched : List Book)
    (rs : List BorrowRecord) (data : List (BookAvailabilityItem β))
    (h : availabilityPipeline proj matched rs = .ok data)
    (e : BookAvailabilityItem β) (he : e ∈ data) :
    ∃ b ∈ matched, e.book = proj b ∧
      IsStockLabel b.availableCopies b.totalCopies e.status := by
  obtain ⟨b, hb, hpe⟩ := mem_availabilityPipeline proj matched rs data h e he
  obtain ⟨-, hbook, -, -, -, -, hst⟩ := projectAvailability_ok proj _ e hpe
  exact ⟨b, hb, hbook, hst ▸ stockStatus_label _ _⟩

/-- C6: for every book in the bookAvailabilityReport result, over REST and
over GraphQL, status is 'Out of Stock' if availableCopies = 0, otherwise
'Low Stock' if availableCopies < 0.2 * totalCopies, otherwise 'Available';
for every pair (availableCopies, totalCopies) exactly one of the three labels
is computed, each under exactly its own condition; and the report is answered
when every filtered book has totalCopies > 0. -/
theorem bookAvailabilityReport_status (rx : RegexEngine) (s : Store) :
    (∀ f resp, getBookAvailabilityReport rx f s = .ok resp → ∀ e ∈ resp.data,
        IsStockLabel e.book.availableCopies e.book.totalCopies e.status) ∧
    (∀ filter user resp, bookAvailabilityReport rx filter user s = .ok resp →
        ∀ e ∈ resp.data, IsStockLabel e.book.availableCopies e.book.totalCopies e.status) ∧
    (∀ a t : Int,
        (stockStatus a t = "Out of Stock" ↔ a = 0) ∧
        (stockStatus a t = "Low Stock" ↔ a ≠ 0 ∧ (a : ℚ) < 0.2 * (t : ℚ)) ∧
        (stockStatus a t = "Available" ↔ a ≠ 0 ∧ ¬ (a : ℚ) < 0.2 * (t : ℚ))) ∧
    (∀ f matched, matchBooks rx f s.books = .ok matched →
        (∀ b ∈ matched, 0 < b.totalCopies) →
        ∃ resp, getBookAvailabilityReport rx f s = .ok resp) := by
  refine ⟨?_, ?_, stockStatus_cases,
    fun f matched hm hpos => availabilityReport_total bookInfo rx f s matched hm hpos⟩
  · intro f resp h e he
    obtain ⟨matched, -, -, hp, -, -, -⟩ := availabilityReport_ok bookInfo rx f s resp h
    obtain ⟨b, -, hbook, hst⟩ :=
      status_of_mem_availabilityPipeline bookInfo matched _ _ hp e he
    rw [hbook]
    exact hst
  · intro filter user resp h e he
    obtain ⟨f, -, hr⟩ := bookAvailabilityReport_ok rx filter user s resp h
    obtain ⟨matched, -, -, hp, -, -, -⟩ := availabilityReport_ok id rx f s resp hr
    obtain ⟨b, -, hbook, hst⟩ := status_of_mem_availabilityPipeline id matched _ _ hp e he
    rw [hbook]
    exact hst

theorem bookAvailabilityReport_status_witness :
    getBookAvailabilityReport literalEngine emptyFilter stockStore = .ok stockReport ∧
      ∀ e ∈ stockReport.data,
        IsStockLabel e.book.availableCopies e.book.totalCopies e.status :=
  ⟨by decide!,
    (bookAvailabilityReport_status literalEngine stockStore).1 emptyFilter stockReport
      (by decide!)⟩

/-- C7: on a store whose only active book has totalCopies = 0 the report,
over REST and over GraphQL, fails with the division error of `$divide`; it
answers neither availabilityPercentage = 0 nor overallAvailability = 0. -/
theorem bookAvailabilityReport_zero_copies :
    getBookAvailabilityReport literalEngine emptyFilter zeroCopiesStore
        = .error "can\x27t $divide by zero" ∧
      bookAvailabilityReport literalEngine Arg.absent (some (sampleUser 1 "Admin"))
          zeroCopiesStore
        = .error "Failed to fetch book availability report: can\x27t $divide by zero" :=
  ⟨by decide!, by decide!⟩

/-- C10: whenever bookAvailabilityReport answers for a non-empty filtered set
of books, over REST and over GraphQL, its summary has totalBooks = number of
filtered books, totalCopies and totalAvailable = the sums of those fields,
totalBorrowed = totalCopies - totalAvailable, outOfStock = number of books
with availableCopies = 0, availableBooks = totalBooks - outOfStock and, with
totalCopies ≠ 0, overallAvailability = 100 * totalAvailable / totalCopies; and
the report does answer when every filtered book has totalCopies > 0. -/
theorem bookAvailabilityReport_summary (rx : RegexEngine) (s : Store) :
    (∀ f matched resp, matchBooks rx f s.books = .ok matched → matched ≠ [] →
        getBookAvailabilityReport rx f s = .ok resp → IsSummaryOf matched resp.summary) ∧
    (∀ filter f matched user resp, filter.orDefault emptyFilter = some f →
        matchBooks rx f s.books = .ok matched → matched ≠ [] →
        bookAvailabilityReport rx filter user s = .ok resp →
        IsSummaryOf matched resp.summary) ∧
    (∀ f matched, matchBooks rx f s.books = .ok matched →
        (∀ b ∈ matched, 0 < b.totalCopies) →
        ∃ resp, getBookAvailabilityReport rx f s = .ok resp) ∧
    (∀ filter f matched (u : User), filter.orDefault emptyFilter = some f →
        matchBooks rx f s.books = .ok matched → (∀ b ∈ matched, 0 < b.totalCopies) →
        u.role = "Admin" → ∃ resp, bookAvailabilityReport rx filter (some u) s = .ok resp) := by
  refine ⟨?_, ?_, ?_, ?_⟩
  · intro f matched resp hm hne h
    obtain ⟨matched2, summaries, hm2, -, hs, hsum, -⟩ :=
      availabilityReport_ok bookInfo rx f s resp h
    rw [hm] at hm2
    cases hm2
    obtain ⟨sm, rfl, hsm⟩ := summaryPipeline_ok matched summaries hs hne
    rw [hsum]
    exact hsm
  · intro filter f matched user resp hf hm hne h
    obtain ⟨f2, hf2, hr⟩ := bookAvailabilityReport_ok rx filter user s resp h
    rw [hf] at hf2
    cases hf2
    obtain ⟨matched2, summaries, hm2, -, hs, hsum, -⟩ :=
      availabilityReport_ok id rx f s resp hr
    rw [hm] at hm2
    cases hm2
    obtain ⟨sm, rfl, hsm⟩ := summaryPipeline_ok matched summaries hs hne
    rw [hsum]
    exact hsm
  · intro f matched hm hpos
    exact availabilityReport_total bookInfo rx f s matched hm hpos
  · intro filter f matched u hf hm hpos hu
    obtain ⟨resp, hr⟩ := availabilityReport_total id rx f s matched hm hpos
    exact ⟨resp, bookAvailabilityReport_of_report rx filter u s f resp hu hf hr⟩

theorem bookAvailabilityReport_summary_witness :
    matchBooks literalEngine emptyFilter stockStore.books = .ok stockStore.books ∧
      stockStore.books ≠ [] ∧
      getBookAvailabilityReport literalEngine emptyFilter stockStore = .ok stockReport ∧
      IsSummaryOf stockStore.books stockReport.summary :=
  ⟨by decide!, by decide!, by decide!,
    (bookAvailabilityReport_summary literalEngine stockStore).1 emptyFilter stockStore.books
      stockReport (by decide!) (by decide!) (by decide!)⟩

/-! ## genreStats -/

theorem sum_filter_or {α M : Type} [AddCommMonoid M] (p q : α → Prop) [DecidablePred p]
    [DecidablePred q] (hdisj : ∀ a, p a → ¬ q a) (f : α → M) (l : List α) :
    ((l.filter fun a => decide (p a ∨ q a)).map f).sum
      = ((l.filter fun a => decide (p a)).map f).sum
        + ((l.filter fun a => decide (q a)).map f).sum := by
  simp only [Bool.decide_or]
  induction l with
  | nil => simp
  | cons a as ih =>
    by_cases hp : p a
    · have hq : ¬ q a := hdisj a hp
      simp [List.filter_cons, hp, hq, ih, add_assoc]
    · by_cases hq : q a
      · simp [List.filter_cons, hp, hq, ih, add_left_comm]
      · simp [List.filter_cons, hp, hq, ih]

theorem sum_lookup {M : Type} [AddCommMonoid M] (f : BorrowRecord → M)
    (rs : List BorrowRecord) (bs : List Book) (hnd : (bs.map fun b => b._id).Nodup) :
    (bs.map fun b => ((rs.filter fun r => r.book = b._id).map f).sum).sum
      = ((rs.filter fun r => r.book ∈ bs.map fun b => b._id).map f).sum := by
  induction bs with
  | nil => simp
  | cons b bs ih =>
    rw [List.map_cons, List.nodup_cons] at hnd
    rw [List.map_cons, List.sum_cons, ih hnd.2]
    have hdisj : ∀ r : BorrowRecord, r.book = b._id → ¬ r.book ∈ bs.map fun b => b._id := by
      intro r hr hmem
      exact hnd.1 (hr ▸ hmem)
    rw [← sum_filter_or (fun r : BorrowRecord => r.book = b._id)
      (fun r : BorrowRecord => r.book ∈ bs.map fun b => b._id) hdisj f rs]
    congr 2
    apply List.filter_congr
    intro r _
    simp [List.mem_cons]

theorem foldl_fine (l : List BorrowRecord) (init : ℚ) :
    l.foldl (fun value this => value + this.fine) init = init + (l.map fun r => r.fine).sum := by
  induction l generalizing init with
  | nil => simp
  | cons a as ih => simp [List.foldl_cons, ih, add_assoc]

theorem mem_groupByGenre (rs : List BorrowRecord) (books : List Book)
    (hnd : (books.map fun b => b._id).Nodup) (g : GenreGroup)
    (h : g ∈ groupByGenre ((books.filter fun b => b.isActive = true).map
      (lookupGenreBorrows rs))) :
    let bs := books.filter fun b => b.isActive = true ∧ b.genre = g._id
    let ms := rs.filter fun r => r.book ∈ bs.map fun b => b._id
    bs ≠ [] ∧
    g.totalBooks = (bs.length : Int) ∧
    g.totalCopies = (bs.map fun b => b.totalCopies).sum ∧
    g.availableCopies = (bs.map fun b => b.availableCopies).sum ∧
    g.totalBorrows = (ms.length : Int) ∧
    g.activeBorrows = ((ms.filter fun r => r.status = Status.active).length : Int) ∧
    g.totalFines = (ms.map fun r => r.fine).sum := by
  intro bs ms
  simp only [groupByGenre, List.mem_map] at h
  obtain ⟨k, hk, rfl⟩ := h
  have hdocs : (((books.filter fun b => b.isActive = true).map (lookupGenreBorrows rs)).filter
      fun d => d.1.genre = k) = bs.map (lookupGenreBorrows rs) := by
    rw [List.filter_map]
    congr 1
    exact filter_and (fun b : Book => b.isActive = true) (fun b : Book => b.genre = k) books
  have hbs : (bs.map fun b => b._id).Nodup :=
    hnd.sublist ((List.filter_sublist _).map _)
  simp only [hdocs]
  refine ⟨?_, ?_, ?_, ?_, ?_, ?_, ?_⟩
  · rw [mem_groupIds] at hk
    simp only [List.mem_map, List.mem_filter] at hk
    obtain ⟨d, ⟨b, ⟨hb, hact⟩, rfl⟩, hg⟩ := hk
    intro hnil
    have hmem : b ∈ bs := by
      simp only [bs, List.mem_filter]
      refine ⟨hb, ?_⟩
      simp only [decide_eq_true_eq] at hact hg
      simpa [lookupGenreBorrows] using ⟨hact, hg⟩
    rw [hnil] at hmem
    simp at hmem
  · rw [sum_ones, List.length_map]
  · rw [List.map_map]; rfl
  · rw [List.map_map]; rfl
  · rw [List.map_map]
    have e1 : ((fun d : Book × List BorrowRecord => (d.2.length : Int)) ∘ lookupGenreBorrows rs)
        = fun b => ((rs.filter fun r => r.book = b._id).map fun _ => (1 : Int)).sum := by
      funext b
      simp only [Function.comp, lookupGenreBorrows, sum_ones]
    rw [e1, sum_lookup _ rs bs hbs, sum_ones]
  · rw [List.map_map]
    have e1 : ((fun d : Book × List BorrowRecord =>
          ((d.2.filter fun r => r.status = Status.active).length : Int))
          ∘ lookupGenreBorrows rs)
        = fun b => ((rs.filter fun r => r.book = b._id).map
            fun r => if r.status = Status.active then (1 : Int) else 0).sum := by
      funext b
      simp only [Function.comp, lookupGenreBorrows]
      rw [sum_indicator]
    rw [e1, sum_lookup _ rs bs hbs, sum_indicator]
  · rw [List.map_map]
    have e1 : ((fun d : Book × List BorrowRecord =>
          d.2.foldl (fun value this => value + this.fine) 0) ∘ lookupGenreBorrows rs)
        = fun b => ((rs.filter fun r => r.book = b._id).map fun r => r.fine).sum := by
      funext b
      simp only [Function.comp, lookupGenreBorrows, foldl_fine, zero_add]
    rw [e1, sum_lookup _ rs bs hbs]

theorem projectGenre_ok (g : GenreGroup) (e : GenreStats) (h : projectGenre g = .ok e) :
    g.totalCopies ≠ 0 ∧ e.genre = g._id ∧ e.totalBooks = g.totalBooks ∧
      e.totalCopies = g.totalCopies ∧ e.availableCopies = g.availableCopies ∧
      e.borrowedCopies = g.totalCopies - g.availableCopies ∧
      e.totalBorrows = g.totalBorrows ∧ e.activeBorrows = g.activeBorrows ∧
      e.totalFines = g.totalFines ∧
      e.availabilityRate = 100 * (g.availableCopies : ℚ) / (g.totalCopies : ℚ) ∧
      e.popularityScore
        = if g.totalBooks = 0 then 0 else (g.totalBorrows : ℚ) / (g.totalBooks : ℚ) := by
  unfold projectGenre at h
  cases hd : divide g.availableCopies g.totalCopies with
  | error e => simp [hd, bind, Except.bind] at h
  | ok c =>
    obtain ⟨hne, rfl⟩ := divide_ok _ _ _ hd
    by_cases hz : g.totalBooks = 0
    · simp only [hd, hz, if_true, bind, Except.bind, pure, Except.pure, Except.ok.injEq] at h
      subst h
      refine ⟨by exact_mod_cast hne, rfl, hz.symm, rfl, rfl, rfl, rfl, rfl, rfl, ?_, ?_⟩
      · simp only []; ring
      · simp [hz]
    · have hzq : ((g.totalBooks : Int) : ℚ) ≠ 0 := by exact_mod_cast hz
      simp only [hd, hz, if_false, divide_of_ne _ _ hzq, bind, Except.bind, pure, Except.pure,
        Except.ok.injEq] at h
      subst h
      refine ⟨by exact_mod_cast hne, rfl, rfl, rfl, rfl, rfl, rfl, rfl, rfl, ?_, ?_⟩
      · simp only []; ring
      · simp [hz]

theorem projectGenre_of_ne (g : GenreGroup) (h : g.totalCopies ≠ 0) :
    ∃ e, projectGenre g = .ok e := by
  have hq : ((g.totalCopies : Int) : ℚ) ≠ 0 := by exact_mod_cast h
  by_cases hz : g.totalBooks = 0
  · exact ⟨_, by
      simp only [projectGenre, divide_of_ne _ _ hq, hz, if_true, bind, Except.bind, pure,
        Except.pure]
      rfl⟩
  · have hzq : ((g.totalBooks : Int) : ℚ) ≠ 0 := by exact_mod_cast hz
    exact ⟨_, by
      simp only [projectGenre, divide_of_ne _ _ hq, divide_of_ne _ _ hzq, hz, if_false, bind,
        Except.bind, pure, Except.pure]
      rfl⟩

theorem genreOrder_total (a b : GenreStats) : genreOrder a b ∨ genreOrder b a := by
  unfold genreOrder
  rcases lt_trichotomy a.totalBorrows b.totalBorrows with h | h | h
  · exact Or.inr (Or.inl h)
  · rcases le_total a.popularityScore b.popularityScore with h2 | h2
    · exact Or.inr (Or.inr ⟨h.symm, h2⟩)
    · exact Or.inl (Or.inr ⟨h, h2⟩)
  · exact Or.inl (Or.inl h)

theorem genreOrder_trans (a b c : GenreStats) (hab : genreOrder a b) (hbc : genreOrder b c) :
    genreOrder a c := by
  unfold genreOrder at *
  rcases hab with h | ⟨h, h2⟩ <;> rcases hbc with k | ⟨k, k2⟩
  · exact Or.inl (lt_trans k h)
  · exact Or.inl (k ▸ h)
  · exact Or.inl (h ▸ k)
  · exact Or.inr ⟨h.trans k, le_trans k2 h2⟩

theorem genreStatsPipeline_ok (s : Store) (data : List GenreStats)
    (h : genreStatsPipeline s = .ok data) :
    data.Sorted genreOrder ∧
      ∀ e ∈ data, ∃ g ∈ groupByGenre ((s.books.filter fun b => b.isActive = true).map
        (lookupGenreBorrows s.borrowRecords)), projectGenre g = .ok e := by
  unfold genreStatsPipeline at h
  cases hp : projectStage projectGenre (groupByGenre
      ((s.books.filter fun b => b.isActive = true).map
        (lookupGenreBorrows s.borrowRecords))) with
  | error e =>
    simp only [hp, bind, Except.bind] at h
    cases h
  | ok projected =>
    simp only [hp, bind, Except.bind, pure, Except.pure, Except.ok.injEq] at h
    subst h
    refine ⟨sorted_insertionSort_of _ genreOrder_total genreOrder_trans _, ?_⟩
    intro e he
    rw [(List.perm_insertionSort _ _).mem_iff] at he
    exact mem_projectStage _ _ _ hp e he

theorem mem_genreStatsPipeline (s : Store) (hnd : (s.books.map fun b => b._id).Nodup)
    (data : List GenreStats) (h : genreStatsPipeline s = .ok data) (e : GenreStats)
    (he : e ∈ data) : IsGenreStatsOf s e := by
  obtain ⟨g, hg, hpe⟩ := (genreStatsPipeline_ok s data h).2 e he
  obtain ⟨-, e1, e2, e3, e4, e5, e6, e7, e8, -, -⟩ := projectGenre_ok g e hpe
  have hgr := mem_groupByGenre s.borrowRecords s.books hnd g hg
  simp only [] at hgr
  obtain ⟨g0, g1, g2, g3, g4, g5, g6⟩ := hgr
  unfold IsGenreStatsOf
  simp only [e1]
  refine ⟨g0, ?_, ?_, ?_, ?_, ?_, ?_, ?_⟩
  · rw [e2, g1]
  · rw [e3, g2]
  · rw [e4, g3]
  · rw [e6, g4]
  · rw [e7, g5]
  · rw [e8, g6]
  · rw [e5, e3, e4]

theorem genreStatsPipeline_total (s : Store)
    (h : ∀ b ∈ s.books, b.isActive = true → 0 < b.totalCopies) :
    ∃ data, genreStatsPipeline s = .ok data := by
  have hp : ∃ res, projectStage projectGenre (groupByGenre
      ((s.books.filter fun b => b.isActive = true).map
        (lookupGenreBorrows s.borrowRecords))) = .ok res := by
    apply projectStage_of_forall
    intro g hg
    apply projectGenre_of_ne
    simp only [groupByGenre, List.mem_map] at hg
    obtain ⟨k, hk, rfl⟩ := hg
    simp only []
    apply ne_of_gt
    apply sum_pos_of_forall_pos
    · rw [mem_groupIds] at hk
      obtain ⟨d, hd, hdk⟩ := List.mem_map.mp hk
      intro hnil
      have hmem : d.1.totalCopies ∈ List.map (fun d : Book × List BorrowRecord => d.1.totalCopies)
          (List.filter (fun d => decide (d.1.genre = k))
            ((s.books.filter fun b => b.isActive = true).map
              (lookupGenreBorrows s.borrowRecords))) :=
        List.mem_map.mpr ⟨d, List.mem_filter.mpr ⟨hd, by simpa using hdk⟩, rfl⟩
      rw [hnil] at hmem
      simp at hmem
    · intro x hx
      obtain ⟨d, hd, rfl⟩ := List.mem_map.mp hx
      obtain ⟨hd1, -⟩ := List.mem_filter.mp hd
      obtain ⟨b, hb, rfl⟩ := List.mem_map.mp hd1
      obtain ⟨hb1, hb2⟩ := List.mem_filter.mp hb
      exact h b hb1 (by simpa using hb2)
  obtain ⟨res, hres⟩ := hp
  exact ⟨_, by
    simp only [genreStatsPipeline, hres, bind, Except.bind, pure, Except.pure]
    rfl⟩

theorem getGenreStats_ok (s : Store) (resp : Response GenreStats)
    (h : getGenreStats s = .ok resp) : genreStatsPipeline s = .ok resp.data := by
  unfold getGenreStats at h
  cases hp : genreStatsPipeline s with
  | error e => simp [hp, bind, Except.bind] at h
  | ok res =>
    simp only [hp, bind, Except.bind, pure, Except.pure, Except.ok.injEq] at h
    rw [← h]

theorem genreStats_ok (user : Option User) (s : Store) (resp : Response GenreStats)
    (h : genreStats user s = .ok resp) : genreStatsPipeline s = .ok resp.data := by
  have h1 := rethrow_ok _ _ _ h
  cases ha : requireAdmin user with
  | error e => simp [ha, bind, Except.bind] at h1
  | ok u =>
    cases hp : genreStatsPipeline s with
    | error e => simp [ha, hp, bind, Except.bind] at h1
    | ok res =>
      simp only [ha, hp, bind, Except.bind, pure, Except.pure, Except.ok.injEq] at h1
      rw [← h1]

/-- C8: on a store whose only active book has totalCopies = 0, so that its
genre has summed totalCopies 0, genreStats, over REST and over GraphQL, fails
with the division error of `$divide` instead of answering
availabilityRate = 0. -/
theorem genreStats_zero_copies :
    getGenreStats zeroCopiesStore = .error "can\x27t $divide by zero" ∧
      genreStats (some (sampleUser 1 "Admin")) zeroCopiesStore
        = .error "Failed to fetch genre statistics: can\x27t $divide by zero" :=
  ⟨by decide!, by decide!⟩

/-- C9: in a store whose books have pairwise distinct ids, every entry of
genreStats, over REST and over GraphQL, aggregates exactly the books with
isActive = true of its genre: totalBooks is their count, totalCopies and
availableCopies the sums of those fields, totalBorrows the number of borrow
records referencing any of them, activeBorrows the number of those records
with status active, totalFines the sum of those records' fines, and
borrowedCopies = totalCopies - availableCopies; the entries are ordered by
(totalBorrows descending, popularityScore descending); and the report answers
when every active book has totalCopies > 0. -/
theorem genreStats_aggregates (s : Store) (hid : (s.books.map fun b => b._id).Nodup) :
    (∀ resp, getGenreStats s = .ok resp →
        (∀ e ∈ resp.data, IsGenreStatsOf s e) ∧
        List.Chain'
          (fun e1 e2 => e1.totalBorrows > e2.totalBorrows ∨
            (e1.totalBorrows = e2.totalBorrows ∧ e1.popularityScore ≥ e2.popularityScore))
          resp.data) ∧
    (∀ user resp, genreStats user s = .ok resp →
        (∀ e ∈ resp.data, IsGenreStatsOf s e) ∧
        List.Chain'
          (fun e1 e2 => e1.totalBorrows > e2.totalBorrows ∨
            (e1.totalBorrows = e2.totalBorrows ∧ e1.popularityScore ≥ e2.popularityScore))
          resp.data) ∧
    ((∀ b ∈ s.books, b.isActive = true → 0 < b.totalCopies) →
        ∃ resp, getGenreStats s = .ok resp) := by
  refine ⟨?_, ?_, ?_⟩
  · intro resp h
    have hp := getGenreStats_ok s resp h
    exact ⟨mem_genreStatsPipeline s hid _ hp, (genreStatsPipeline_ok s _ hp).1.chain'⟩
  · intro user resp h
    have hp := genreStats_ok user s resp h
    exact ⟨mem_genreStatsPipeline s hid _ hp, (genreStatsPipeline_ok s _ hp).1.chain'⟩
  · intro hpos
    obtain ⟨data, hd⟩ := genreStatsPipeline_total s hpos
    exact ⟨_, by
      simp only [getGenreStats, hd, bind, Except.bind, pure, Except.pure]
      rfl⟩

theorem genreStats_aggregates_witness :
    (stockStore.books.map fun b => b._id).Nodup ∧
      getGenreStats stockStore = .ok stockGenreReport ∧
      (∀ e ∈ stockGenreReport.data, IsGenreStatsOf stockStore e) ∧
      List.Chain'
        (fun e1 e2 => e1.totalBorrows > e2.totalBorrows ∨
          (e1.totalBorrows = e2.totalBorrows ∧ e1.popularityScore ≥ e2.popularityScore))
        stockGenreReport.data :=
  ⟨by decide!, by decide!,
    (genreStats_aggregates stockStore (by decide!)).1 stockGenreReport (by decide!)⟩

/-! ## bookAvailabilityReport: per-book metrics -/

theorem availabilityOrder_total {β : Type} (a b : BookAvailabilityItem β) :
    availabilityOrder a b ∨ availabilityOrder b a := by
  unfold availabilityOrder
  rcases lt_trichotomy a.availabilityPercentage b.availabilityPercentage with h | h | h
  · exact Or.inl (Or.inl h)
  · rcases le_total a.totalBorrows b.totalBorrows with h2 | h2
    · exact Or.inr (Or.inr ⟨h.symm, h2⟩)
    · exact Or.inl (Or.inr ⟨h, h2⟩)
  · exact Or.inr (Or.inl h)

theorem availabilityOrder_trans {β : Type} (a b c : BookAvailabilityItem β)
    (hab : availabilityOrder a b) (hbc : availabilityOrder b c) : availabilityOrder a c := by
  unfold availabilityOrder at *
  rcases hab with h | ⟨h, h2⟩ <;> rcases hbc with k | ⟨k, k2⟩
  · exact Or.inl (lt_trans h k)
  · exact Or.inl (k ▸ h)
  · exact Or.inl (h ▸ k)
  · exact Or.inr ⟨h.trans k, le_trans k2 h2⟩

theorem borrowStats_totalBorrows (rs : List BorrowRecord) (b : Book) :
    (((lookupBorrows rs b).borrowStats.map fun st => st.totalBorrows).head?).getD 0
      = ((rs.filter fun r => r.book = b._id).length : Int) := by
  simp only [lookupBorrows, groupAll]
  cases h : rs.filter fun r => r.book = b._id with
  | nil => simp
  | cons x xs =>
    simp only [List.map_cons, List.head?_cons, Option.getD_some]
    exact sum_ones (x :: xs)

theorem borrowStats_totalFines (rs : List BorrowRecord) (b : Book) :
    (((lookupBorrows rs b).borrowStats.map fun st => st.totalFines).head?).getD 0
      = ((rs.filter fun r => r.book = b._id).map fun r => r.fine).sum := by
  simp only [lookupBorrows, groupAll]
  cases h : rs.filter fun r => r.book = b._id with
  | nil => simp
  | cons x xs => simp only [List.map_cons, List.head?_cons, Option.getD_some]

theorem metrics_of_mem_availabilityPipeline {β : Type} (proj : Book → β) (s : Store)
    (matched : List Book) (data : List (BookAvailabilityItem β))
    (h : availabilityPipeline proj matched s.borrowRecords = .ok data)
    (e : BookAvailabilityItem β) (he : e ∈ data) :
    ∃ b ∈ matched, e.book = proj b ∧ IsAvailabilityOf s b e := by
  obtain ⟨b, hb, hpe⟩ := mem_availabilityPipeline proj matched _ data h e he
  obtain ⟨hne, hbook, h1, h2, h3, h4, -⟩ := projectAvailability_ok proj _ e hpe
  refine ⟨b, hb, hbook, ?_, ?_, ?_, hne, h4⟩
  · rw [h1]; rfl
  · rw [h2]; exact borrowStats_totalBorrows _ b
  · rw [h3]; exact borrowStats_totalFines _ b

theorem sorted_availabilityPipeline {β : Type} (proj : Book → β) (matched : List Book)
    (rs : List BorrowRecord) (data : List (BookAvailabilityItem β))
    (h : availabilityPipeline proj matched rs = .ok data) :
    data.Sorted availabilityOrder ∧ data.length = matched.length := by
  unfold availabilityPipeline at h
  cases hp : projectStage (projectAvailability proj) (matched.map (lookupBorrows rs)) with
  | error e => simp [hp, bind, Except.bind] at h
  | ok projected =>
    simp only [hp, bind, Except.bind, pure, Except.pure, Except.ok.injEq] at h
    subst h
    refine ⟨sorted_insertionSort_of _ availabilityOrder_total availabilityOrder_trans _, ?_⟩
    rw [List.length_insertionSort, length_projectStage _ _ _ hp, List.length_map]

/-- C11: for every entry of the bookAvailabilityReport result, over REST and
over GraphQL, there is a filtered book b it reports on, with borrowedCopies =
the number of borrow records referencing b with status active, totalBorrows =
the number of all borrow records referencing b (0 when there are none),
totalFinesGenerated = the sum of their fines (0 when there are none) and
availabilityPercentage = 100 * availableCopies / totalCopies; the list has one
entry per filtered book and is ordered by (availabilityPercentage ascending,
totalBorrows descending); and the report is answered when every filtered book
has totalCopies > 0. -/
theorem bookAvailabilityReport_metrics (rx : RegexEngine) (s : Store) :
    (∀ f matched resp, matchBooks rx f s.books = .ok matched →
        getBookAvailabilityReport rx f s = .ok resp →
        (∀ e ∈ resp.data, ∃ b ∈ matched, e.book = bookInfo b ∧ IsAvailabilityOf s b e) ∧
        resp.data.length = matched.length ∧
        List.Chain'
          (fun e1 e2 => e1.availabilityPercentage < e2.availabilityPercentage ∨
            (e1.availabilityPercentage = e2.availabilityPercentage ∧
              e1.totalBorrows ≥ e2.totalBorrows))
          resp.data) ∧
    (∀ filter f matched user resp, filter.orDefault emptyFilter = some f →
        matchBooks rx f s.books = .ok matched →
        bookAvailabilityReport rx filter user s = .ok resp →
        (∀ e ∈ resp.data, ∃ b ∈ matched, e.book = b ∧ IsAvailabilityOf s b e) ∧
        resp.data.length = matched.length ∧
        List.Chain'
          (fun e1 e2 => e1.availabilityPercentage < e2.availabilityPercentage ∨
            (e1.availabilityPercentage = e2.availabilityPercentage ∧
              e1.totalBorrows ≥ e2.totalBorrows))
          resp.data) ∧
    (∀ f matched, matchBooks rx f s.books = .ok matched →
        (∀ b ∈ matched, 0 < b.totalCopies) →
        ∃ resp, getBookAvailabilityReport rx f s = .ok resp) := by
  refine ⟨?_, ?_,
    fun f matched hm hpos => availabilityReport_total bookInfo rx f s matched hm hpos⟩
  · intro f matched resp hm h
    obtain ⟨matched2, -, hm2, hp, -, -, -⟩ := availabilityReport_ok bookInfo rx f s resp h
    rw [hm] at hm2
    cases hm2
    obtain ⟨hsorted, hlen⟩ := sorted_availabilityPipeline _ _ _ _ hp
    exact ⟨metrics_of_mem_availabilityPipeline bookInfo s matched _ hp, hlen, hsorted.chain'⟩
  · intro filter f matched user resp hf hm h
    obtain ⟨f2, hf2, hr⟩ := bookAvailabilityReport_ok rx filter user s resp h
    rw [hf] at hf2
    cases hf2
    obtain ⟨matched2, -, hm2, hp, -, -, -⟩ := availabilityReport_ok id rx f s resp hr
    rw [hm] at hm2
    cases hm2
    obtain ⟨hsorted, hlen⟩ := sorted_availabilityPipeline _ _ _ _ hp
    exact ⟨metrics_of_mem_availabilityPipeline id s matched _ hp, hlen, hsorted.chain'⟩

theorem bookAvailabilityReport_metrics_witness :
    matchBooks literalEngine emptyFilter stockStore.books = .ok stockStore.books ∧
      getBookAvailabilityReport literalEngine emptyFilter stockStore = .ok stockReport ∧
      (∀ e ∈ stockReport.data,
        ∃ b ∈ stockStore.books, e.book = bookInfo b ∧ IsAvailabilityOf stockStore b e) ∧
      stockReport.data.length = stockStore.books.length ∧
      List.Chain'
        (fun e1 e2 => e1.availabilityPercentage < e2.availabilityPercentage ∨
          (e1.availabilityPercentage = e2.availabilityPercentage ∧
            e1.totalBorrows ≥ e2.totalBorrows))
        stockReport.data :=
  ⟨by decide!, by decide!,
    (bookAvailabilityReport_metrics literalEngine stockStore).1 emptyFilter stockStore.books
      stockReport (by decide!) (by decide!)⟩

/-! ## Access guards -/

theorem requireAdmin_none : requireAdmin none = .error "Authentication required" := rfl

theorem requireAdmin_not_admin (u : User) (h : u.role ≠ "Admin") :
    requireAdmin (some u) = .error "Admin access required" := by
  simp [requireAdmin, requireAuth, h, bind, Except.bind]

theorem requireAdmin_ok_iff (user : Option User) :
    requireAdmin user = .ok () ↔ ∃ u, user = some u ∧ u.role = "Admin" := by
  cases user with
  | none => simp [requireAdmin_none]
  | some u =>
    by_cases h : u.role = "Admin"
    · simp [requireAdmin_ok u h, h]
    · simp [requireAdmin_not_admin u h, h]

theorem requireAdmin_error (user : Option User)
    (h : user = none ∨ ∃ u, user = some u ∧ u.role ≠ "Admin") :
    ∃ msg, requireAdmin user = .error msg := by
  rcases h with rfl | ⟨u, rfl, hu⟩
  · exact ⟨_, requireAdmin_none⟩
  · exact ⟨_, requireAdmin_not_admin u hu⟩

theorem middleware_requireAdmin_ok_iff (reqUser : Option User) :
    Middleware.requireAdmin reqUser = .ok () ↔ ∃ u, reqUser = some u ∧ u.role = "Admin" := by
  cases reqUser with
  | none => simp [Middleware.requireAdmin]
  | some u =>
    by_cases h : u.role = "Admin" <;> simp [Middleware.requireAdmin, h]

theorem requireAdmin_absent_not_forbidden :
    requireAdmin none ≠ .ok () ∧
      requireAdmin none ≠ .error "Admin access required" ∧
      Middleware.requireAdmin none ≠ .ok () ∧
      Middleware.requireAdmin none
        ≠ .error { message := "Admin access required", statusCode := 403 } := by
  decide

/-- C12 (amended): requireAuth fails, with 'Authentication required', if and
only if the caller is absent; requireAdmin, in the resolvers and as REST
middleware, succeeds if and only if the caller is present with role 'Admin',
fails with 'Authentication required' (401 in REST) when the caller is absent
and with 'Admin access required' (403 in REST) when the caller is present
with another role.  The guards are functions of the caller alone. -/
theorem guards_contract :
    (∀ user : Option User, (∃ msg, requireAuth user = .error msg) ↔ user = none) ∧
    requireAuth none = .error "Authentication required" ∧
    (∀ user : Option User,
      requireAdmin user = .ok () ↔ ∃ u, user = some u ∧ u.role = "Admin") ∧
    requireAdmin none = .error "Authentication required" ∧
    (∀ u : User, u.role ≠ "Admin" →
      requireAdmin (some u) = .error "Admin access required") ∧
    (∀ reqUser : Option User,
      Middleware.requireAdmin reqUser = .ok () ↔ ∃ u, reqUser = some u ∧ u.role = "Admin") ∧
    Middleware.requireAdmin none
      = .error { message := "Authentication required", statusCode := 401 } ∧
    (∀ u : User, u.role ≠ "Admin" →
      Middleware.requireAdmin (some u)
        = .error { message := "Admin access required", statusCode := 403 }) := by
  refine ⟨?_, rfl, requireAdmin_ok_iff, requireAdmin_none, requireAdmin_not_admin,
    middleware_requireAdmin_ok_iff, rfl, ?_⟩
  · intro user
    cases user <;> simp [requireAuth]
  · intro u hu
    simp [Middleware.requireAdmin, hu]

theorem guards_contract_witness :
    (sampleUser 2 "Member").role ≠ "Admin" ∧
      requireAdmin (some (sampleUser 2 "Member")) = .error "Admin access required" :=
  ⟨by decide, guards_contract.2.2.2.2.1 (sampleUser 2 "Member") (by decide)⟩

theorem analyticsRoutes_guard (verify : JwtVerify) (authorization : Option String) (s : Store)
    (h : ∀ u, authMiddleware verify authorization s = .ok u → u.role ≠ "Admin") :
    ∃ e : AppError, (e.statusCode = 401 ∨ e.statusCode = 403) ∧
      ∀ rx now path query,
        analyticsRoutes verify rx now authorization path query s = .error e := by
  cases ha : authMiddleware verify authorization s with
  | error e =>
    refine ⟨e, ?_, fun rx now path query => by simp [analyticsRoutes, ha]⟩
    unfold authMiddleware at ha
    split at ha
    · cases ha; exact Or.inl rfl
    · split at ha
      · cases ha; exact Or.inl rfl
      · split at ha
        · cases ha; exact Or.inl rfl
        · split at ha
          · cases ha; exact Or.inl rfl
          · cases ha
  | ok u =>
    have hu := h u ha
    exact ⟨{ message := "Admin access required", statusCode := 403 }, Or.inr rfl,
      fun rx now path query => by simp [analyticsRoutes, ha, Middleware.requireAdmin, hu]⟩

/-- C13: for a caller that is absent or whose role is not 'Admin', each of
the four analytics resolvers fails with the error of requireAdmin, whatever
the store and the arguments, so no store query is issued and no report data
is returned; and over REST, when `authMiddleware` yields no caller or a caller
whose role is not 'Admin', the router answers every analytics path with one
and the same 401 or 403 error, without running the handler. -/
theorem analytics_guarded :
    (∀ user : Option User, (user = none ∨ ∃ u, user = some u ∧ u.role ≠ "Admin") →
      ∃ msg, requireAdmin user = .error msg ∧
        ∀ (s : Store) (now : Int) (rx : RegexEngine) (limit : Arg Int)
          (filter : Arg AvailabilityFilter),
          mostBorrowedBooks limit user s
              = .error ("Failed to fetch most borrowed books: " ++ msg) ∧
            mostActiveMembers now limit user s
              = .error ("Failed to fetch most active members: " ++ msg) ∧
            bookAvailabilityReport rx filter user s
              = .error ("Failed to fetch book availability report: " ++ msg) ∧
            genreStats user s = .error ("Failed to fetch genre statistics: " ++ msg)) ∧
    (∀ (verify : JwtVerify) (authorization : Option String) (s : Store),
      (∀ u, authMiddleware verify authorization s = .ok u → u.role ≠ "Admin") →
      ∃ e : AppError, (e.statusCode = 401 ∨ e.statusCode = 403) ∧
        ∀ rx now path query,
          analyticsRoutes verify rx now authorization path query s = .error e) := by
  refine ⟨?_, analyticsRoutes_guard⟩
  intro user h
  obtain ⟨msg, hmsg⟩ := requireAdmin_error user h
  refine ⟨msg, hmsg, ?_⟩
  intro s now rx limit filter
  refine ⟨?_, ?_, ?_, ?_⟩
  · simp [mostBorrowedBooks, hmsg, bind, Except.bind, rethrow]
  · simp [mostActiveMembers, hmsg, bind, Except.bind, rethrow]
  · simp [bookAvailabilityReport, hmsg, bind, Except.bind, rethrow]
  · simp [genreStats, hmsg, bind, Except.bind, rethrow]

theorem analytics_guarded_witness :
    ∃ msg, requireAdmin (some (sampleUser 2 "Member")) = .error msg ∧
      ∀ (s : Store) (now : Int) (rx : RegexEngine) (limit : Arg Int)
        (filter : Arg AvailabilityFilter),
        mostBorrowedBooks limit (some (sampleUser 2 "Member")) s
            = .error ("Failed to fetch most borrowed books: " ++ msg) ∧
          mostActiveMembers now limit (some (sampleUser 2 "Member")) s
            = .error ("Failed to fetch most active members: " ++ msg) ∧
          bookAvailabilityReport rx filter (some (sampleUser 2 "Member")) s
            = .error ("Failed to fetch book availability report: " ++ msg) ∧
          genreStats (some (sampleUser 2 "Member")) s
            = .error ("Failed to fetch genre statistics: " ++ msg) :=
  analytics_guarded.1 (some (sampleUser 2 "Member"))
    (Or.inr ⟨sampleUser 2 "Member", rfl, by decide⟩)

/-! ## Borrow lifecycle: ownership -/

theorem find?_id_of_mem (users : List User) (u : User) (h : u ∈ users) :
    ∃ owner, (users.find? fun x => x._id = u._id) = some owner ∧ owner._id = u._id := by
  cases hf : users.find? fun x => x._id = u._id with
  | none =>
    rw [List.find?_eq_none] at hf
    exact absurd (by simp) (hf u h)
  | some owner =>
    refine ⟨owner, rfl, ?_⟩
    have := List.find?_some hf
    simpa using this

theorem checkOwnership_denied (s : Store) (r : BorrowRecord) (u owner : User)
    (hu : u.role ≠ "Admin") (ho : (s.users.find? fun x => x._id = r.user) = some owner)
    (hne : r.user ≠ u._id) : checkOwnership u (populate s r) = .error "Access denied" := by
  have hid : owner._id = r.user := by
    have := List.find?_some ho
    simpa using this
  simp [checkOwnership, populate, ho, hu, hid, hne]

theorem checkOwnership_ok (s : Store) (r : BorrowRecord) (u : User)
    (h : u.role = "Admin" ∨ (r.user = u._id ∧ u ∈ s.users)) :
    checkOwnership u (populate s r) = .ok () := by
  by_cases hu : u.role = "Admin"
  · simp [checkOwnership, hu]
  · rcases h with h | ⟨hr, hmem⟩
    · exact absurd h hu
    · obtain ⟨owner, ho, hid⟩ := find?_id_of_mem s.users u hmem
      simp [checkOwnership, populate, hu, hr, ho, hid]

/-- C14: let r be the record found under id.  For an authenticated caller
whose role is not 'Admin' and who is not the user of r (an existing user), the
borrow query, returnBook and renewBook each fail with 'Access denied' (under
the resolver's message heading) and leave the store, so the record and every
Book, unchanged; for an Admin caller, or for the user of r, the ownership
check succeeds and none of the three fails with 'Access denied'. -/
theorem borrow_ownership (policy : Policy) (now : Int) (s : Store) (id : Nat)
    (r : BorrowRecord) (hr : BorrowRecord.findById s id = some r) :
    (∀ (u owner : User) (input : Arg UpdateBorrowInput), u.role ≠ "Admin" →
      (s.users.find? fun x => x._id = r.user) = some owner → r.user ≠ u._id →
      borrow id (some u) s = .error "Failed to fetch borrow: Access denied" ∧
      returnBook policy now id input (some u) s
        = (.error "Failed to return book: Access denied", s) ∧
      renewBook policy now id (some u) s
        = (.error "Failed to renew book: Access denied", s)) ∧
    (∀ (u : User) (input : Arg UpdateBorrowInput),
      (u.role = "Admin" ∨ (r.user = u._id ∧ u ∈ s.users)) →
      checkOwnership u (populate s r) = .ok () ∧
      borrow id (some u) s ≠ .error "Failed to fetch borrow: Access denied" ∧
      (returnBook policy now id input (some u) s).1
        ≠ .error "Failed to return book: Access denied" ∧
      (renewBook policy now id (some u) s).1
        ≠ .error "Failed to renew book: Access denied") := by
  constructor
  · intro u owner input hu ho hne
    have hc := checkOwnership_denied s r u owner hu ho hne
    refine ⟨?_, ?_, ?_⟩
    · simp [borrow, requireAuth, hr, hc, rethrow]
    · simp [returnBook, requireAuth, hr, hc]
    · simp [renewBook, requireAuth, hr, hc]
  · intro u input h
    have hc := checkOwnership_ok s r u h
    refine ⟨hc, ?_, ?_, ?_⟩
    · simp [borrow, requireAuth, hr, hc, rethrow]
    · simp only [returnBook, requireAuth, hr, hc]
      by_cases hs : r.status ≠ Status.active
      · rw [if_pos hs]; simp
      · rw [if_neg hs]
        simp only [BorrowRecord.returnBook, if_neg hs]
        cases input <;> simp
    · simp only [renewBook, requireAuth, hr, hc, BorrowRecord.renewBook]
      by_cases hs : r.status ≠ Status.active
      · rw [if_pos hs]; simp
      · rw [if_neg hs]
        by_cases hd : daysLate now r.dueDate ≠ 0
        · rw [if_pos hd]; simp
        · rw [if_neg hd]; simp

theorem borrow_ownership_witness :
    (sampleUser 3 "Member").role ≠ "Admin" ∧
      (lendingStore.users.find? fun x => x._id = (sampleRecord 1 2 1 Status.active
        DateField.missing).user) = some (sampleUser 2 "Member") ∧
      (sampleRecord 1 2 1 Status.active DateField.missing).user ≠ (sampleUser 3 "Member")._id ∧
      borrow 1 (some (sampleUser 3 "Member")) lendingStore
        = .error "Failed to fetch borrow: Access denied" ∧
      returnBook samplePolicy day19 1 Arg.absent (some (sampleUser 3 "Member")) lendingStore
        = (.error "Failed to return book: Access denied", lendingStore) ∧
      renewBook samplePolicy day19 1 (some (sampleUser 3 "Member")) lendingStore
        = (.error "Failed to renew book: Access denied", lendingStore) :=
  ⟨by decide, by decide, by decide,
    (borrow_ownership samplePolicy day19 lendingStore 1
      (sampleRecord 1 2 1 Status.active DateField.missing) (by decide)).1
      (sampleUser 3 "Member") (sampleUser 2 "Member") Arg.absent (by decide) (by decide)
      (by decide)⟩

/-! ## Borrow lifecycle: borrowBook -/

theorem borrowBook_cases (policy : Policy) (now : Int) (input : CreateBorrowInput)
    (caller : User) (s : Store) :
    borrowBook policy now input (some caller) s
      = if BorrowRecord.canUserBorrow policy now s
            (if caller.role = "Admin" then input.userId else caller._id) = false then
          (.error
            "Failed to borrow book: User has reached maximum borrow limit or has overdue books",
            s)
        else if (Book.findById s input.bookId).map Book.isBookAvailable = some true then
          (.error
            "Failed to borrow book: BorrowRecord validation failed: dueDate: Path `dueDate` is required.",
            s)
        else (.error "Failed to borrow book: Book is not available for borrowing", s) := by
  simp only [borrowBook, requireAuth]
  by_cases hc : BorrowRecord.canUserBorrow policy now s
      (if caller.role = "Admin" then input.userId else caller._id) = false
  · simp [hc]
  · simp only [hc, if_false]
    simp only [Bool.not_eq_false] at hc
    simp only [hc, Bool.not_true, Bool.false_eq_true, if_false]
    cases hb : Book.findById s input.bookId with
    | none => simp
    | some book =>
      by_cases ha : book.isBookAvailable = true
      · simp [ha, BorrowRecord.create, BorrowData.missingPaths, validationMessage]
        decide
      · simp [ha]

theorem borrowBook_store (policy : Policy) (now : Int) (input : CreateBorrowInput)
    (user : Option User) (s : Store) : (borrowBook policy now input user s).2 = s := by
  cases user with
  | none => simp [borrowBook, requireAuth]
  | some caller =>
    rw [borrowBook_cases]
    split_ifs <;> rfl

theorem borrowBook_not_ok (policy : Policy) (now : Int) (input : CreateBorrowInput)
    (user : Option User) (s : Store) (resp : BorrowResponse) :
    (borrowBook policy now input user s).1 ≠ .ok resp := by
  cases user with
  | none => simp [borrowBook, requireAuth]
  | some caller =>
    rw [borrowBook_cases]
    split_ifs <;> simp

theorem borrowBook_ineligible_first :
    (Book.findById lendingStore 2).map (fun b => b.availableCopies) = some 0 ∧
      borrowBook samplePolicy day19 (borrowRequest 3 2) (some (sampleUser 3 "Member"))
          lendingStore
        = (.error
            "Failed to borrow book: User has reached maximum borrow limit or has overdue books",
            lendingStore) ∧
      (borrowBook samplePolicy day19 (borrowRequest 3 2) (some (sampleUser 3 "Member"))
          lendingStore).1
        ≠ .error "Failed to borrow book: Book is not available for borrowing" := by
  refine ⟨by decide!, by decide!, by decide!⟩

/-- C15 (amended): for every authenticated caller and input, borrowBook on a
book that is missing, inactive or has availableCopies = 0 fails: with
IneligibleBorrower ('User has reached maximum borrow limit or has overdue
books') when the target user cannot borrow, and otherwise with BookUnavailable
('Book is not available for borrowing'); in either case the store is left as
it was, so no BorrowRecord is created and no Book is modified. -/
theorem borrowBook_unavailable (policy : Policy) (now : Int) (input : CreateBorrowInput)
    (caller : User) (s : Store)
    (hbook : ∀ b, Book.findById s input.bookId = some b →
      b.isActive = false ∨ b.availableCopies = 0) :
    (BorrowRecord.canUserBorrow policy now s
        (if caller.role = "Admin" then input.userId else caller._id) = false →
      borrowBook policy now input (some caller) s
        = (.error
            "Failed to borrow book: User has reached maximum borrow limit or has overdue books",
            s)) ∧
    (BorrowRecord.canUserBorrow policy now s
        (if caller.role = "Admin" then input.userId else caller._id) = true →
      borrowBook policy now input (some caller) s
        = (.error "Failed to borrow book: Book is not available for borrowing", s)) := by
  have hna : ¬ (Book.findById s input.bookId).map Book.isBookAvailable = some true := by
    cases hb : Book.findById s input.bookId with
    | none => simp
    | some b =>
      rcases hbook b hb with h | h <;> simp [Book.isBookAvailable, h]
  rw [borrowBook_cases]
  constructor
  · intro hc
    rw [if_pos hc]
  · intro hc
    rw [if_neg (by simp [hc]), if_neg hna]

theorem borrowBook_unavailable_witness :
    (∀ b, Book.findById lendingStore (borrowRequest 3 2).bookId = some b →
        b.isActive = false ∨ b.availableCopies = 0) ∧
      BorrowRecord.canUserBorrow samplePolicy 0 lendingStore 3 = true ∧
      borrowBook samplePolicy 0 (borrowRequest 3 2) (some (sampleUser 3 "Member")) lendingStore
        = (.error "Failed to borrow book: Book is not available for borrowing",
            lendingStore) :=
  have hb : ∀ b, Book.findById lendingStore (borrowRequest 3 2).bookId = some b →
      b.isActive = false ∨ b.availableCopies = 0 := by
    intro b hb
    have : b = sampleBook 2 "Fiction" 1 0 := by
      have h2 : Book.findById lendingStore (borrowRequest 3 2).bookId
          = some (sampleBook 2 "Fiction" 1 0) := by decide!
      rw [h2] at hb
      exact (Option.some.inj hb).symm
    subst this
    exact Or.inr rfl
  ⟨hb, by decide!,
    (borrowBook_unavailable samplePolicy 0 (borrowRequest 3 2) (sampleUser 3 "Member")
      lendingStore hb).2 (by decide!)⟩

/-- C16: borrowBook hands `BorrowRecord.create` an object without dueDate, a
required path of the schema without default, so the insert is rejected: for an
eligible user and an available book borrowBook fails with the validation
error and leaves the store as it was, and no call of borrowBook succeeds. -/
theorem borrowBook_rejects_record :
    BorrowRecord.canUserBorrow samplePolicy 0 lendingStore 1 = true ∧
      (Book.findById lendingStore 1).map Book.isBookAvailable = some true ∧
      borrowBook samplePolicy 0 (borrowRequest 1 1) (some (sampleUser 1 "Admin")) lendingStore
        = (.error
            "Failed to borrow book: BorrowRecord validation failed: dueDate: Path `dueDate` is required.",
            lendingStore) ∧
      ∀ (policy : Policy) (now : Int) (input : CreateBorrowInput) (user : Option User)
        (s : Store) (resp : BorrowResponse),
        (borrowBook policy now input user s).1 ≠ .ok resp :=
  ⟨by decide!, by decide!, by decide!, borrowBook_not_ok⟩

theorem borrowBook_fails (policy : Policy) (now : Int) (input : CreateBorrowInput)
    (user : Option User) (s : Store) :
    ∃ m, borrowBook policy now input user s = (.error m, s) ∧
      (m = "Failed to borrow book: Authentication required" ∨
        m = "Failed to borrow book: User has reached maximum borrow limit or has overdue books" ∨
        m = "Failed to borrow book: Book is not available for borrowing" ∨
        m = "Failed to borrow book: BorrowRecord validation failed: dueDate: Path `dueDate` is required.") := by
  cases user with
  | none => exact ⟨_, by simp [borrowBook, requireAuth], Or.inl rfl⟩
  | some caller =>
    rw [borrowBook_cases]
    split_ifs <;> exact ⟨_, rfl, by simp⟩

/-- C17: whenever borrowBook fails, the store it leaves has the BorrowRecords
and the Books, so every availableCopies, of the store it was called on; and
the failure is one of four: no caller, an ineligible borrower, an unavailable
book, or the rejection of the record insert.  Each of the four happens before
anything is written, and no call reaches the copy decrement. -/
theorem borrowBook_failure_atomic (policy : Policy) (now : Int) (input : CreateBorrowInput)
    (user : Option User) (s : Store) (msg : String)
    (h : (borrowBook policy now input user s).1 = .error msg) :
    (borrowBook policy now input user s).2.borrowRecords = s.borrowRecords ∧
    (borrowBook policy now input user s).2.books = s.books ∧
    (msg = "Failed to borrow book: Authentication required" ∨
      msg = "Failed to borrow book: User has reached maximum borrow limit or has overdue books" ∨
      msg = "Failed to borrow book: Book is not available for borrowing" ∨
      msg = "Failed to borrow book: BorrowRecord validation failed: dueDate: Path `dueDate` is required.") := by
  obtain ⟨m, hm, hreason⟩ := borrowBook_fails policy now input user s
  rw [hm] at h ⊢
  simp only [Except.error.injEq] at h
  subst h
  exact ⟨rfl, rfl, hreason⟩

theorem borrowBook_failure_atomic_witness :
    ((borrowBook samplePolicy day19 (borrowRequest 3 2) (some (sampleUser 3 "Member"))
          lendingStore).1
        = .error
            "Failed to borrow book: User has reached maximum borrow limit or has overdue books" ∧
      (borrowBook samplePolicy day19 (borrowRequest 3 2) (some (sampleUser 3 "Member"))
          lendingStore).2.borrowRecords = lendingStore.borrowRecords ∧
      (borrowBook samplePolicy day19 (borrowRequest 3 2) (some (sampleUser 3 "Member"))
          lendingStore).2.books = lendingStore.books) ∧
    ((borrowBook samplePolicy 0 (borrowRequest 2 2) (some (sampleUser 2 "Member"))
          lendingStore).1
        = .error "Failed to borrow book: Book is not available for borrowing" ∧
      (borrowBook samplePolicy 0 (borrowRequest 2 2) (some (sampleUser 2 "Member"))
          lendingStore).2.borrowRecords = lendingStore.borrowRecords ∧
      (borrowBook samplePolicy 0 (borrowRequest 2 2) (some (sampleUser 2 "Member"))
          lendingStore).2.books = lendingStore.books) ∧
    ((borrowBook samplePolicy 0 (borrowRequest 1 1) (some (sampleUser 1 "Admin"))
          lendingStore).1
        = .error
            "Failed to borrow book: BorrowRecord validation failed: dueDate: Path `dueDate` is required." ∧
      (borrowBook samplePolicy 0 (borrowRequest 1 1) (some (sampleUser 1 "Admin"))
          lendingStore).2.borrowRecords = lendingStore.borrowRecords ∧
      (borrowBook samplePolicy 0 (borrowRequest 1 1) (some (sampleUser 1 "Admin"))
          lendingStore).2.books = lendingStore.books) :=
  have h1 := borrowBook_failure_atomic samplePolicy day19 (borrowRequest 3 2)
    (some (sampleUser 3 "Member")) lendingStore
    "Failed to borrow book: User has reached maximum borrow limit or has overdue books"
    (by decide!)
  have h2 := borrowBook_failure_atomic samplePolicy 0 (borrowRequest 2 2)
    (some (sampleUser 2 "Member")) lendingStore
    "Failed to borrow book: Book is not available for borrowing" (by decide!)
  have h3 := borrowBook_failure_atomic samplePolicy 0 (borrowRequest 1 1)
    (some (sampleUser 1 "Admin")) lendingStore
    "Failed to borrow book: BorrowRecord validation failed: dueDate: Path `dueDate` is required."
    (by decide!)
  ⟨⟨by decide!, h1.1, h1.2.1⟩, ⟨by decide!, h2.1, h2.2.1⟩, ⟨by decide!, h3.1, h3.2.1⟩⟩

/-! ## Borrow lifecycle: returnBook -/

theorem findById_id (s : Store) (id : Nat) (r : BorrowRecord)
    (h : BorrowRecord.findById s id = some r) : r._id = id := by
  have := List.find?_some h
  simpa using this

theorem findById_saveRecord (s : Store) (id : Nat) (r r2 : BorrowRecord)
    (h : BorrowRecord.findById s id = some r) (hid : r2._id = id) :
    BorrowRecord.findById (saveRecord r2 s) id = some r2 := by
  have hr := findById_id s id r h
  unfold BorrowRecord.findById saveRecord at *
  simp only []
  rw [List.find?_map]
  have hcomp : ((fun x : BorrowRecord => decide (x._id = id))
      ∘ fun x => if x._id = r2._id then r2 else x) = fun x => decide (x._id = id) := by
    funext x
    by_cases hx : x._id = r2._id
    · simp [hx, hid]
    · simp [hx]
  rw [hcomp, h]
  simp [hr, hid]

theorem checkOwnership_congr (u : User) (p q : PopulatedBorrow) (h : p.user = q.user) :
    checkOwnership u p = checkOwnership u q := by
  simp [checkOwnership, h]

/-- The record a return at `now` stores for `r`. -/
theorem returnBook_model (policy : Policy) (now : Int) (r : BorrowRecord) (s : Store)
    (hact : r.status = Status.active) :
    BorrowRecord.returnBook policy now r s
      = (.ok { r with returnDate := DateField.date now, status := Status.returned,
                      fine := fineFor policy now r.dueDate },
          { users := s.users
            books := s.books.map fun b =>
              if b._id = r.book then
                { b with availableCopies := b.availableCopies + 1, updatedAt := now }
              else b
            borrowRecords := (saveRecord
              { r with returnDate := DateField.date now, status := Status.returned,
                       fine := fineFor policy now r.dueDate } s).borrowRecords }) := by
  simp [BorrowRecord.returnBook, hact, saveRecord]

theorem returnBook_active (policy : Policy) (now : Int) (id : Nat)
    (input : Arg UpdateBorrowInput) (caller : User) (s : Store) (r : BorrowRecord)
    (hr : BorrowRecord.findById s id = some r)
    (hown : checkOwnership caller (populate s r) = .ok ()) (hact : r.status = Status.active) :
    (returnBook policy now id input (some caller) s).2
        = (BorrowRecord.returnBook policy now r s).2 ∧
      (input ≠ Arg.null →
        ∃ resp, (returnBook policy now id input (some caller) s).1 = .ok resp) := by
  simp only [returnBook, requireAuth, hr, hown]
  rw [if_neg (by simp [hact])]
  rw [returnBook_model policy now r s hact]
  cases input <;> simp

theorem returnBook_ok_inv (policy : Policy) (now : Int) (id : Nat)
    (input : Arg UpdateBorrowInput) (user : Option User) (s s1 : Store) (resp : BorrowResponse)
    (h : returnBook policy now id input user s = (.ok resp, s1)) :
    ∃ caller r, user = some caller ∧ BorrowRecord.findById s id = some r ∧
      checkOwnership caller (populate s r) = .ok () ∧ r.status = Status.active ∧
      s1 = (BorrowRecord.returnBook policy now r s).2 := by
  cases user with
  | none => simp [returnBook, requireAuth] at h
  | some caller =>
    cases hr : BorrowRecord.findById s id with
    | none => simp [returnBook, requireAuth, hr] at h
    | some r =>
      cases hown : checkOwnership caller (populate s r) with
      | error e => simp [returnBook, requireAuth, hr, hown] at h
      | ok u =>
        by_cases hact : r.status = Status.active
        · have h2 := (returnBook_active policy now id input caller s r hr hown hact).1
          rw [h] at h2
          exact ⟨caller, r, rfl, rfl, hown, hact, h2⟩
        · simp [returnBook, requireAuth, hr, hown, hact] at h

/-- C18: for an authenticated caller, returnBook fails with 'Borrow record not
found' when no record has the id, and, when the caller passes the ownership
check, with 'Book has already been returned' whenever the status of the record
is not active; in both cases the store is left as it was.  Hence after a
returnBook that succeeded, every further returnBook of the same record by the
same caller fails with 'Book has already been returned' and leaves the store,
so the availableCopies of the book, as the first call left it. -/
theorem returnBook_idempotent (policy : Policy) (now : Int) (id : Nat)
    (input : Arg UpdateBorrowInput) (s : Store) :
    (∀ caller : User, BorrowRecord.findById s id = none →
      returnBook policy now id input (some caller) s
        = (.error "Failed to return book: Borrow record not found", s)) ∧
    (∀ (caller : User) (r : BorrowRecord), BorrowRecord.findById s id = some r →
      checkOwnership caller (populate s r) = .ok () → r.status ≠ Status.active →
      returnBook policy now id input (some caller) s
        = (.error "Failed to return book: Book has already been returned", s)) ∧
    (∀ (user : Option User) (resp : BorrowResponse) (s1 : Store),
      returnBook policy now id input user s = (.ok resp, s1) →
      ∀ (now2 : Int) (input2 : Arg UpdateBorrowInput),
        returnBook policy now2 id input2 user s1
          = (.error "Failed to return book: Book has already been returned", s1)) := by
  refine ⟨?_, ?_, ?_⟩
  · intro caller hr
    simp [returnBook, requireAuth, hr]
  · intro caller r hr hown hst
    simp [returnBook, requireAuth, hr, hown, hst]
  · intro user resp s1 h now2 input2
    obtain ⟨caller, r, rfl, hr, hown, hact, hs1⟩ := returnBook_ok_inv _ _ _ _ _ _ _ _ h
    rw [returnBook_model policy now r s hact] at hs1
    simp only [] at hs1
    have hid := findById_id s id r hr
    have hr1 : BorrowRecord.findById s1 id
        = some { r with returnDate := DateField.date now, status := Status.returned,
                        fine := fineFor policy now r.dueDate } := by
      have := findById_saveRecord s id r
        { r with returnDate := DateField.date now, status := Status.returned,
                 fine := fineFor policy now r.dueDate } hr hid
      rw [hs1]
      exact this
    have hown1 : checkOwnership caller (populate s1
        { r with returnDate := DateField.date now, status := Status.returned,
                 fine := fineFor policy now r.dueDate }) = .ok () := by
      rw [← hown]
      apply checkOwnership_congr
      rw [hs1]
      rfl
    simp [returnBook, requireAuth, hr1, hown1]

theorem returnBook_idempotent_witness :
    ∃ resp s1,
      returnBook samplePolicy day19 1 Arg.absent (some (sampleUser 2 "Member")) lendingStore
        = (.ok resp, s1) ∧
      returnBook samplePolicy day19 1 Arg.absent (some (sampleUser 2 "Member")) s1
        = (.error "Failed to return book: Book has already been returned", s1) :=
  ⟨_, _, rfl,
    (returnBook_idempotent samplePolicy day19 1 Arg.absent lendingStore).2.2
      (some (sampleUser 2 "Member")) _ _ rfl day19 Arg.absent⟩

theorem dayMs_pos : (0 : ℚ) < (dayMs : ℚ) := by
  unfold dayMs; norm_num

theorem daysLate_of_le (now dueDate : Int) (h : now ≤ dueDate) : daysLate now dueDate = 0 := by
  unfold daysLate
  apply max_eq_left
  rw [Int.ceil_le]
  have h1 : ((now - dueDate : Int) : ℚ) ≤ 0 := by exact_mod_cast sub_nonpos.mpr h
  have := div_nonpos_of_nonpos_of_nonneg h1 dayMs_pos.le
  simpa using this

theorem daysLate_five (dueDate : Int) : daysLate (dueDate + 5 * dayMs) dueDate = 5 := by
  unfold daysLate
  have h : (((dueDate + 5 * dayMs - dueDate : Int) : ℚ) / (dayMs : ℚ)) = ((5 : Int) : ℚ) := by
    have hne : (dayMs : ℚ) ≠ 0 := ne_of_gt dayMs_pos
    push_cast
    field_simp
  rw [h, Int.ceil_intCast]
  rfl

/-- C19: when an authorised caller returns an active record with due date D at
time R, the record returnBook stores has status returned, returnDate R and
fine = max(0, daysLate * finePerDay) with daysLate = max(0, ceil((R - D) in
days)); the stored fine is never negative, it is 0 when R ≤ D, and 5 when
R = D + 5 days and finePerDay = 1; and the call succeeds unless `input` is an
explicit null. -/
theorem returnBook_fine (policy : Policy) (now : Int) (id : Nat)
    (input : Arg UpdateBorrowInput) (caller : User) (s : Store) (r : BorrowRecord)
    (hr : BorrowRecord.findById s id = some r)
    (hown : checkOwnership caller (populate s r) = .ok ()) (hact : r.status = Status.active) :
    ∃ stored,
      BorrowRecord.findById (returnBook policy now id input (some caller) s).2 id
        = some stored ∧
      stored.status = Status.returned ∧ stored.returnDate = DateField.date now ∧
      stored.fine
        = max 0 (((max 0 (Int.ceil (((now - r.dueDate : Int) : ℚ) / (dayMs : ℚ))) : Int) : ℚ)
            * policy.finePerDay) ∧
      0 ≤ stored.fine ∧
      (now ≤ r.dueDate → stored.fine = 0) ∧
      (now = r.dueDate + 5 * dayMs → policy.finePerDay = 1 → stored.fine = 5) ∧
      (input ≠ Arg.null →
        ∃ resp, (returnBook policy now id input (some caller) s).1 = .ok resp) := by
  obtain ⟨hstore, hok⟩ := returnBook_active policy now id input caller s r hr hown hact
  have hid := findById_id s id r hr
  refine ⟨{ r with returnDate := DateField.date now, status := Status.returned,
                   fine := fineFor policy now r.dueDate }, ?_, rfl, rfl, rfl, ?_, ?_, ?_, hok⟩
  · rw [hstore, returnBook_model policy now r s hact]
    exact findById_saveRecord s id r _ hr hid
  · exact le_max_left _ _
  · intro hle
    show fineFor policy now r.dueDate = 0
    unfold fineFor
    rw [daysLate_of_le now r.dueDate hle]
    simp
  · intro hnow hfine
    show fineFor policy now r.dueDate = 5
    unfold fineFor
    rw [hnow, daysLate_five, hfine]
    norm_num

theorem returnBook_fine_witness :
    BorrowRecord.findById lendingStore 1
        = some (sampleRecord 1 2 1 Status.active DateField.missing) ∧
      ∃ stored,
        BorrowRecord.findById
            (returnBook samplePolicy day19 1 Arg.absent (some (sampleUser 2 "Member"))
              lendingStore).2 1
          = some stored ∧
        stored.status = Status.returned ∧ stored.returnDate = DateField.date day19 ∧
        stored.fine
          = max 0 (((max 0 (Int.ceil (((day19
              - (sampleRecord 1 2 1 Status.active DateField.missing).dueDate : Int) : ℚ)
              / (dayMs : ℚ))) : Int) : ℚ) * samplePolicy.finePerDay) ∧
        0 ≤ stored.fine ∧
        (day19 ≤ (sampleRecord 1 2 1 Status.active DateField.missing).dueDate →
          stored.fine = 0) ∧
        (day19 = (sampleRecord 1 2 1 Status.active DateField.missing).dueDate + 5 * dayMs →
          samplePolicy.finePerDay = 1 → stored.fine = 5) ∧
        ((Arg.absent : Arg UpdateBorrowInput) ≠ Arg.null →
          ∃ resp, (returnBook samplePolicy day19 1 Arg.absent (some (sampleUser 2 "Member"))
            lendingStore).1 = .ok resp) :=
  ⟨by decide!,
    returnBook_fine samplePolicy day19 1 Arg.absent (sampleUser 2 "Member") lendingStore
      (sampleRecord 1 2 1 Status.active DateField.missing) (by decide!) (by decide!)
      (by decide!)⟩

/-! ## The Book invariant -/

theorem returnBook_books (policy : Policy) (now : Int) (id : Nat)
    (input : Arg UpdateBorrowInput) (user : Option User) (s : Store) :
    (returnBook policy now id input user s).2 = s ∨
      ∃ r, BorrowRecord.findById s id = some r ∧
        (returnBook policy now id input user s).2.books
          = s.books.map fun b =>
              if b._id = r.book then
                { b with availableCopies := b.availableCopies + 1, updatedAt := now }
              else b := by
  cases user with
  | none => exact Or.inl (by simp [returnBook, requireAuth])
  | some caller =>
    cases hr : BorrowRecord.findById s id with
    | none => exact Or.inl (by simp [returnBook, requireAuth, hr])
    | some r =>
      cases hown : checkOwnership caller (populate s r) with
      | error e => exact Or.inl (by simp [returnBook, requireAuth, hr, hown])
      | ok u =>
        by_cases hact : r.status = Status.active
        · refine Or.inr ⟨r, rfl, ?_⟩
          rw [(returnBook_active policy now id input caller s r hr hown hact).1,
            returnBook_model policy now r s hact]
        · exact Or.inl (by simp [returnBook, requireAuth, hr, hown, hact])

theorem returnBook_invariant (policy : Policy) (now : Int) (id : Nat)
    (input : Arg UpdateBorrowInput) (user : Option User) (s : Store)
    (hinv : StoreInvariant s) (hk : (Mutation.returnBook now id input user).Keeps s) :
    StoreInvariant (returnBook policy now id input user s).2 := by
  rcases returnBook_books policy now id input user s with h | ⟨r, hr, hb⟩
  · rw [h]; exact hinv
  · intro b hmem
    rw [hb] at hmem
    obtain ⟨x, hx, rfl⟩ := List.mem_map.mp hmem
    have hxi := hinv x hx
    by_cases hid : x._id = r.book
    · have hlt : x.availableCopies < x.totalCopies := hk x hx (by simp [hr, hid])
      simp only [hid, if_true]
      unfold BookInvariant at *
      simp only []
      omega
    · simp only [hid, if_false]
      exact hxi

theorem createBook_invariant (schema : BookSchema) (now : Int) (input : CreateBookInput)
    (user : Option User) (s : Store) (hinv : StoreInvariant s)
    (hschema : ∀ n, schema.validTotalCopies n = true →
      0 ≤ schema.initialAvailable n ∧ schema.initialAvailable n ≤ n) :
    StoreInvariant (createBook schema now input user s).2 := by
  unfold createBook
  cases requireAdmin user with
  | error e => exact hinv
  | ok u =>
    simp only [Book.create]
    by_cases hv : schema.validTotalCopies input.totalCopies = true
    · by_cases hd : (s.books.any fun b => decide (b.isbn = input.isbn)) = true
      · simp only [hv, hd, Bool.not_true, Bool.false_eq_true, if_false, if_true]
        exact hinv
      · simp only [hv, hd, Bool.not_true, Bool.false_eq_true, if_false]
        intro b hmem
        simp only [List.mem_append, List.mem_singleton] at hmem
        rcases hmem with hmem | rfl
        · exact hinv b hmem
        · exact hschema _ hv
    · simp only [hv, Bool.not_false, if_true]
      exact hinv

theorem findByIdAndUpdate_books (schema : BookSchema) (now : Int) (id : Nat)
    (input : UpdateBookInput) (s : Store) :
    (Book.findByIdAndUpdate schema now id input s).2 = s ∨
      (Book.findByIdAndUpdate schema now id input s).2.books
        = s.books.map fun x => if x._id = id then applyBookUpdate now input x else x := by
  unfold Book.findByIdAndUpdate
  cases hv : input.totalCopies.map schema.validTotalCopies with
  | none =>
    cases hb : Book.findById s id with
    | none => exact Or.inl rfl
    | some b =>
      dsimp only
      split_ifs
      · exact Or.inl rfl
      · exact Or.inr rfl
  | some v =>
    cases v with
    | false => exact Or.inl rfl
    | true =>
      cases hb : Book.findById s id with
      | none => exact Or.inl rfl
      | some b =>
        dsimp only
        split_ifs
        · exact Or.inl rfl
        · exact Or.inr rfl

theorem updateBook_store (schema : BookSchema) (now : Int) (id : Nat)
    (input : UpdateBookInput) (user : Option User) (s : Store) :
    (updateBook schema now id input user s).2 = s ∨
      (updateBook schema now id input user s).2
        = (Book.findByIdAndUpdate schema now id input s).2 := by
  unfold updateBook
  cases requireAdmin user with
  | error e => exact Or.inl rfl
  | ok u =>
    refine Or.inr ?_
    rcases Book.findByIdAndUpdate schema now id input s with ⟨res, s1⟩
    cases res with
    | error e => rfl
    | ok ob =>
      cases ob with
      | none => rfl
      | some b => rfl

theorem updateBook_invariant (schema : BookSchema) (now : Int) (id : Nat)
    (input : UpdateBookInput) (user : Option User) (s : Store) (hinv : StoreInvariant s)
    (hk : (Mutation.updateBook now id input user).Keeps s) :
    StoreInvariant (updateBook schema now id input user s).2 := by
  rcases updateBook_store schema now id input user s with h | h
  · rw [h]; exact hinv
  · rw [h]
    rcases findByIdAndUpdate_books schema now id input s with h2 | h2
    · rw [h2]; exact hinv
    · intro x hmem
      rw [h2] at hmem
      obtain ⟨y, hy, rfl⟩ := List.mem_map.mp hmem
      by_cases hid : y._id = id
      · simp only [hid, if_true]
        have h1 := hinv y hy
        have h3 := hk y hy hid
        exact ⟨h1.1, h3⟩
      · simp only [hid, if_false]
        exact hinv y hy

theorem apply_invariant (policy : Policy) (schema : BookSchema)
    (hschema : ∀ n, schema.validTotalCopies n = true →
      0 ≤ schema.initialAvailable n ∧ schema.initialAvailable n ≤ n)
    (m : Mutation) (s : Store) (hinv : StoreInvariant s) (hk : m.Keeps s) :
    StoreInvariant (m.apply policy schema s) := by
  cases m with
  | borrowBook now input user =>
    show StoreInvariant (borrowBook policy now input user s).2
    rw [borrowBook_store]; exact hinv
  | returnBook now id input user => exact returnBook_invariant policy now id input user s hinv hk
  | createBook now input user =>
    exact createBook_invariant schema now input user s hinv hschema
  | updateBook now id input user =>
    exact updateBook_invariant schema now id input user s hinv hk

theorem invariant_broken :
    StoreInvariant stockStore ∧
      (∀ schema : BookSchema, schema.validTotalCopies 2 = true →
        ¬ StoreInvariant
          (updateBook schema 0 2 (setTotalCopies 2) (some (sampleUser 1 "Admin"))
            stockStore).2) ∧
      StoreInvariant fullShelfStore ∧
      ¬ StoreInvariant
        (returnBook samplePolicy 0 1 Arg.absent (some (sampleUser 1 "Admin"))
          fullShelfStore).2 := by
  refine ⟨by decide!, ?_, by decide!, by decide!⟩
  intro schema hv hinv
  have hstore : (updateBook schema 0 2 (setTotalCopies 2) (some (sampleUser 1 "Admin"))
      stockStore).2.books
      = stockStore.books.map fun x =>
          if x._id = 2 then applyBookUpdate 0 (setTotalCopies 2) x else x := by
    have hadmin : requireAdmin (some (sampleUser 1 "Admin")) = .ok () :=
      requireAdmin_ok _ rfl
    have hfind : Book.findById stockStore 2 = some (sampleBook 2 "Fiction" 4 4) := by decide!
    have hdup : (stockStore.books.any fun x =>
        decide (x._id ≠ 2 ∧ some x.isbn = (setTotalCopies 2).isbn)) = false := by decide!
    have hmap : (setTotalCopies 2).totalCopies.map schema.validTotalCopies = some true := by
      simp [setTotalCopies, hv]
    simp only [updateBook, hadmin, Book.findByIdAndUpdate, hmap, hfind, hdup]
    rfl
  have hb := hinv (applyBookUpdate 0 (setTotalCopies 2) (sampleBook 2 "Fiction" 4 4)) (by
    rw [hstore]
    decide!)
  revert hb
  decide!

/-- C20 (amended): when the Book schema starts every created book with
0 ≤ availableCopies ≤ totalCopies, the invariant 0 ≤ availableCopies ≤
totalCopies of every Book is kept by any sequence of the mutations borrowBook,
returnBook, createBook and updateBook in which every returnBook acts on a
record whose book has availableCopies < totalCopies and every updateBook
leaves the book with a totalCopies of at least its availableCopies. -/
theorem invariant_kept (policy : Policy) (schema : BookSchema)
    (hschema : ∀ n, schema.validTotalCopies n = true →
      0 ≤ schema.initialAvailable n ∧ schema.initialAvailable n ≤ n)
    (ms : List Mutation) (s : Store) (hinv : StoreInvariant s)
    (hk : AllKeep policy schema ms s) :
    StoreInvariant (applyAll policy schema ms s) := by
  induction ms generalizing s with
  | nil => exact hinv
  | cons m ms ih =>
    exact ih (m.apply policy schema s)
      (apply_invariant policy schema hschema m s hinv hk.1) hk.2

theorem invariant_kept_witness :
    StoreInvariant lendingStore ∧
      StoreInvariant
        (applyAll samplePolicy sampleSchema
          [Mutation.returnBook day19 1 Arg.absent (some (sampleUser 2 "Member")),
           Mutation.updateBook day19 1 (setTotalCopies 3) (some (sampleUser 1 "Admin")),
           Mutation.borrowBook day19 (borrowRequest 2 1) (some (sampleUser 2 "Member"))]
          lendingStore) :=
  ⟨by decide!,
    invariant_kept samplePolicy sampleSchema
      (fun n hn => ⟨by simpa [sampleSchema] using hn, le_refl _⟩)
      [Mutation.returnBook day19 1 Arg.absent (some (sampleUser 2 "Member")),
       Mutation.updateBook day19 1 (setTotalCopies 3) (some (sampleUser 1 "Admin")),
       Mutation.borrowBook day19 (borrowRequest 2 1) (some (sampleUser 2 "Member"))]
      lendingStore (by decide!) (by decide!)⟩

/-! ## Agreement of the two transports -/

theorem limitStage_map {α β : Type} (g : α → β) (limit : Option Int) (docs : List α) :
    limitStage limit (docs.map g) = (limitStage limit docs).map (List.map g) := by
  cases limit with
  | none => rfl
  | some n =>
    simp only [limitStage]
    split_ifs
    · simp [Except.map, List.map_take]
    · rfl

theorem projectStage_map {α β γ : Type} (f : α → Except String β) (g : β → γ) (l : List α) :
    projectStage (fun a => (f a).map g) l = (projectStage f l).map (List.map g) := by
  induction l with
  | nil => rfl
  | cons a as ih =>
    simp only [projectStage, ih]
    cases f a with
    | error e => rfl
    | ok b =>
      cases projectStage f as with
      | error e => rfl
      | ok bs => rfl

theorem mostBorrowedPipeline_reshape {β : Type} (proj : Book → β) (limit : Option Int)
    (s : Store) :
    mostBorrowedPipeline proj limit s
      = (mostBorrowedPipeline id limit s).map (List.map (BookPopularity.reshape proj)) := by
  unfold mostBorrowedPipeline
  simp only []
  rw [← limitStage_map]
  congr 1
  rw [List.map_insertionSort (r := popularityOrder) (s := popularityOrder)
    (BookPopularity.reshape proj) _ (fun a _ b _ => Iff.rfl), List.map_map]
  rfl

theorem mostActivePipeline_reshape {β : Type} (proj : User → β) (now : Int)
    (limit : Option Int) (s : Store) :
    mostActivePipeline proj now limit s
      = (mostActivePipeline id now limit s).map (List.map (MemberActivity.reshape proj)) := by
  unfold mostActivePipeline
  simp only []
  rw [← limitStage_map]
  congr 1
  rw [List.map_insertionSort (r := activityOrder) (s := activityOrder)
    (MemberActivity.reshape proj) _ (fun a _ b _ => Iff.rfl), List.map_map]
  rfl

theorem availabilityPipeline_reshape {β : Type} (proj : Book → β) (matched : List Book)
    (rs : List BorrowRecord) :
    availabilityPipeline proj matched rs
      = (availabilityPipeline id matched rs).map
          (List.map (BookAvailabilityItem.reshape proj)) := by
  unfold availabilityPipeline
  have h : projectAvailability proj
      = fun d => (projectAvailability id d).map (BookAvailabilityItem.reshape proj) := by
    funext d
    unfold projectAvailability
    cases divide d.book.availableCopies d.book.totalCopies with
    | error e => rfl
    | ok r => rfl
  simp only [h]
  rw [projectStage_map]
  cases projectStage (projectAvailability id) (matched.map (lookupBorrows rs)) with
  | error e => rfl
  | ok res =>
    simp only [bind, Except.bind, Except.map, pure, Except.pure]
    rw [List.map_insertionSort (r := availabilityOrder) (s := availabilityOrder)
      (BookAvailabilityItem.reshape proj) _ (fun a _ b _ => Iff.rfl)]

theorem agree_mostBorrowed (q : Option String) (n : Int) (hq : queryLimit q = n) (u : User)
    (hu : u.role = "Admin") (s : Store) :
    Agree (SameList (BookPopularity.reshape bookRef)) "Failed to fetch most borrowed books: "
      (getMostBorrowedBooks q s) (mostBorrowedBooks (.value n) (some u) s) := by
  unfold getMostBorrowedBooks mostBorrowedBooks
  simp only [hq, mostBorrowedPipeline_reshape bookRef, Arg.orDefault, requireAdmin_ok u hu]
  cases mostBorrowedPipeline id (some n) s with
  | error e => simp [Agree, rethrow, bind, Except.bind, Except.map]
  | ok res => simp [Agree, SameList, rethrow, bind, Except.bind, Except.map, pure, Except.pure]

theorem agree_mostActive (now : Int) (q : Option String) (n : Int) (hq : queryLimit q = n)
    (u : User) (hu : u.role = "Admin") (s : Store) :
    Agree (SameList (MemberActivity.reshape userRef)) "Failed to fetch most active members: "
      (getMostActiveMembers now q s) (mostActiveMembers now (.value n) (some u) s) := by
  unfold getMostActiveMembers mostActiveMembers
  simp only [hq, mostActivePipeline_reshape userRef, Arg.orDefault, requireAdmin_ok u hu]
  cases mostActivePipeline id now (some n) s with
  | error e => simp [Agree, rethrow, bind, Except.bind, Except.map]
  | ok res => simp [Agree, SameList, rethrow, bind, Except.bind, Except.map, pure, Except.pure]

theorem agree_availability (rx : RegexEngine) (f : AvailabilityFilter) (u : User)
    (hu : u.role = "Admin") (s : Store) :
    Agree (SameAvailability bookInfo) "Failed to fetch book availability report: "
      (getBookAvailabilityReport rx f s) (bookAvailabilityReport rx (.value f) (some u) s) := by
  unfold getBookAvailabilityReport bookAvailabilityReport availabilityReport
  simp only [Arg.orDefault, requireAdmin_ok u hu]
  cases matchBooks rx f s.books with
  | error e => simp [Agree, rethrow, bind, Except.bind]
  | ok matched =>
    simp only [availabilityPipeline_reshape bookInfo]
    cases hp : availabilityPipeline (β := Book) id matched s.borrowRecords with
    | error e => simp [Agree, rethrow, bind, Except.bind, Except.map, hp]
    | ok books =>
      cases hs : summaryPipeline matched with
      | error e => simp [Agree, rethrow, bind, Except.bind, Except.map, hp, hs]
      | ok sm =>
        simp [Agree, SameAvailability, rethrow, bind, Except.bind, Except.map, pure,
          Except.pure, hp, hs]

theorem agree_genreStats (u : User) (hu : u.role = "Admin") (s : Store) :
    Agree (fun rest gql => rest = gql) "Failed to fetch genre statistics: "
      (getGenreStats s) (genreStats (some u) s) := by
  unfold getGenreStats genreStats
  simp only [requireAdmin_ok u hu]
  cases genreStatsPipeline s with
  | error e => simp [Agree, rethrow, bind, Except.bind]
  | ok res => simp [Agree, rethrow, bind, Except.bind, pure, Except.pure]

/-- C25: for an Admin caller, every store, time, filter and limit `n ≥ 1`
(given to REST as a query string that `parseInt` reads as `n`), each of the
four analytics operations has the same outcome over REST and over GraphQL:
both answer with the same flag, count and summary and with the same entries
in the same order, equal in every computed field and differing only in the
shape of the joined book or user, or both fail with the same error, which the
resolver reports under its prefix; within the range of `$limit` the two
limited reports do answer. -/
theorem rest_graphql_same_reports (rx : RegexEngine) (now : Int) (s : Store) (u : User)
    (hu : u.role = "Admin") (f : AvailabilityFilter) (n : Int) (hn : 1 ≤ n)
    (q : Option String) (hq : q.bind parseInt = some n) :
    Agree (SameList (BookPopularity.reshape bookRef)) "Failed to fetch most borrowed books: "
      (getMostBorrowedBooks q s) (mostBorrowedBooks (.value n) (some u) s) ∧
    Agree (SameList (MemberActivity.reshape userRef)) "Failed to fetch most active members: "
      (getMostActiveMembers now q s) (mostActiveMembers now (.value n) (some u) s) ∧
    Agree (SameAvailability bookInfo) "Failed to fetch book availability report: "
      (getBookAvailabilityReport rx f s) (bookAvailabilityReport rx (.value f) (some u) s) ∧
    Agree (fun rest gql => rest = gql) "Failed to fetch genre statistics: "
      (getGenreStats s) (genreStats (some u) s) ∧
    (n ≤ maxLimit →
      (∃ r, getMostBorrowedBooks q s = .ok r) ∧ (∃ r, getMostActiveMembers now q s = .ok r)) := by
  have hql : queryLimit q = n := queryLimit_of_parse q n hq (by omega)
  refine ⟨agree_mostBorrowed q n hql u hu s, agree_mostActive now q n hql u hu s,
    agree_availability rx f u hu s, agree_genreStats u hu s, fun hmax => ⟨?_, ?_⟩⟩
  · obtain ⟨res, hres, -⟩ := mostBorrowedPipeline_pos bookRef n s (by omega) hmax
    exact ⟨_, getMostBorrowedBooks_of_pipeline q s res (hql ▸ hres)⟩
  · have hres : mostActivePipeline userRef now (some n) s = .ok _ :=
      limitStage_pos n _ (by omega) hmax
    simp only [getMostActiveMembers, hql, hres, bind, Except.bind, pure, Except.pure]
    exact ⟨_, rfl⟩

theorem rest_graphql_same_reports_witness :
    (sampleUser 1 "Admin").role = "Admin" ∧ (1 : Int) ≤ 2 ∧
      (some "2").bind parseInt = some 2 ∧
      Agree (SameList (BookPopularity.reshape bookRef)) "Failed to fetch most borrowed books: "
        (getMostBorrowedBooks (some "2") tieStore)
        (mostBorrowedBooks (.value 2) (some (sampleUser 1 "Admin")) tieStore) :=
  ⟨rfl, by decide, by decide,
    (rest_graphql_same_reports literalEngine 0 tieStore (sampleUser 1 "Admin") rfl emptyFilter 2
      (by decide) (some "2") (by decide)).1⟩

/-! ## Summary against list -/

theorem map_of_projectStage {α β γ : Type} (f : α → Except String β) (g : β → γ) (k : α → γ)
    (hk : ∀ a b, f a = .ok b → g b = k a) (l : List α) (res : List β)
    (h : projectStage f l = .ok res) : res.map g = l.map k := by
  have hf := projectStage_ok f l res h
  clear h
  induction hf with
  | nil => rfl
  | cons hab _ ih => simp [hk _ _ hab, ih]

theorem length_filter_eq_count {α : Type} (g : α → String) (l : List α) (x : String) :
    (l.filter fun e => g e = x).length = (l.map g).count x := by
  induction l with
  | nil => rfl
  | cons a as ih =>
    by_cases h : g a = x
    · simp [List.filter_cons, h, ih]
    · simp [List.filter_cons, h, ih, List.count_cons]

theorem status_availabilityPipeline {β : Type} (proj : Book → β) (matched : List Book)
    (rs : List BorrowRecord) (data : List (BookAvailabilityItem β))
    (h : availabilityPipeline proj matched rs = .ok data) (label : String) :
    (data.filter fun e => e.status = label).length
      = (matched.filter fun b => stockStatus b.availableCopies b.totalCopies = label).length := by
  unfold availabilityPipeline at h
  cases hp : projectStage (projectAvailability proj) (matched.map (lookupBorrows rs)) with
  | error e => simp [hp, bind, Except.bind] at h
  | ok projected =>
    simp only [hp, bind, Except.bind, pure, Except.pure, Except.ok.injEq] at h
    have hm := map_of_projectStage (projectAvailability proj) (fun e => e.status)
      (fun d => stockStatus d.book.availableCopies d.book.totalCopies)
      (fun a b hab => (projectAvailability_ok proj a b hab).2.2.2.2.2.2) _ _ hp
    rw [length_filter_eq_count, length_filter_eq_count
      (fun b : Book => stockStatus b.availableCopies b.totalCopies), ← h,
      ((List.perm_insertionSort availabilityOrder projected).map _).count_eq, hm, List.map_map]
    rfl

theorem length_availabilityPipeline {β : Type} (proj : Book → β) (matched : List Book)
    (rs : List BorrowRecord) (data : List (BookAvailabilityItem β))
    (h : availabilityPipeline proj matched rs = .ok data) : data.length = matched.length := by
  unfold availabilityPipeline at h
  cases hp : projectStage (projectAvailability proj) (matched.map (lookupBorrows rs)) with
  | error e => simp [hp, bind, Except.bind] at h
  | ok projected =>
    simp only [hp, bind, Except.bind, pure, Except.pure, Except.ok.injEq] at h
    rw [← h, List.length_insertionSort, length_projectStage _ _ _ hp, List.length_map]

theorem summaryPipeline_counts (matched : List Book) (summaries : List AvailabilitySummary)
    (h : summaryPipeline matched = .ok summaries) :
    ((summaries.head?).getD emptySummary).totalBooks = (matched.length : Int) ∧
    ((summaries.head?).getD emptySummary).outOfStock
      = ((matched.filter fun b => b.availableCopies = 0).length : Int) ∧
    ((summaries.head?).getD emptySummary).lowStock
      = ((matched.filter fun b =>
          0 < b.availableCopies ∧ (b.availableCopies : ℚ) < (b.totalCopies : ℚ) * 0.2).length
          : Int) := by
  cases matched with
  | nil =>
    rw [summaryPipeline_nil] at h
    cases h
    simp [emptySummary]
  | cons b bs =>
    simp only [summaryPipeline, groupAll, projectStage, projectSummary] at h
    cases hd : divide ((summaryGroup (b :: bs)).totalAvailable : ℚ)
        ((summaryGroup (b :: bs)).totalCopies : ℚ) with
    | error e => simp [hd, bind, Except.bind] at h
    | ok r =>
      simp only [hd, bind, Except.bind, pure, Except.pure, Except.ok.injEq] at h
      subst h
      simp only [List.head?_cons, Option.getD_some, summaryGroup]
      exact ⟨sum_ones (b :: bs), sum_indicator _ (b :: bs), sum_indicator _ (b :: bs)⟩

theorem stock_partition (l : List Book) :
    l.length
      = (l.filter fun b => stockStatus b.availableCopies b.totalCopies = "Out of Stock").length
        + (l.filter fun b => stockStatus b.availableCopies b.totalCopies = "Low Stock").length
        + (l.filter fun b => stockStatus b.availableCopies b.totalCopies = "Available").length := by
  induction l with
  | nil => rfl
  | cons b bs ih =>
    simp only [List.filter_cons, List.length_cons]
    unfold stockStatus at *
    split_ifs <;> simp_all <;> omega

theorem availabilityReport_summary_list {β : Type} (proj : Book → β) (rx : RegexEngine)
    (f : AvailabilityFilter) (s : Store) (resp : AvailabilityResponse β)
    (hnn : ∀ keep, matchStage rx f = .ok keep →
      ∀ b ∈ s.books, keep b = true → 0 ≤ b.availableCopies)
    (h : availabilityReport proj rx f s = .ok resp) : SummaryMatchesList resp := by
  obtain ⟨matched, summaries, hk, hp, hs, hsum, hcount⟩ :=
    availabilityReport_ok proj rx f s resp h
  obtain ⟨keep, hkeep, hm⟩ := matchBooks_ok rx f s.books matched hk
  have hpos : ∀ b ∈ matched, 0 ≤ b.availableCopies := by
    intro b hb
    rw [hm, List.mem_filter] at hb
    exact hnn keep hkeep b hb.1 hb.2
  obtain ⟨h1, h2, h3⟩ := summaryPipeline_counts matched summaries hs
  have hlen := length_availabilityPipeline proj matched s.borrowRecords resp.data hp
  have hout : (matched.filter fun b => b.availableCopies = 0)
      = matched.filter
          fun b => stockStatus b.availableCopies b.totalCopies = "Out of Stock" := by
    apply List.filter_congr
    intro b _
    simp only [decide_eq_decide]
    exact ((stockStatus_cases _ _).1).symm
  have hlow : (matched.filter fun b =>
        0 < b.availableCopies ∧ (b.availableCopies : ℚ) < (b.totalCopies : ℚ) * 0.2)
      = matched.filter
          fun b => stockStatus b.availableCopies b.totalCopies = "Low Stock" := by
    apply List.filter_congr
    intro b hb
    simp only [decide_eq_decide]
    rw [(stockStatus_cases _ _).2.1, mul_comm]
    have := hpos b hb
    constructor
    · rintro ⟨ha, hlt⟩
      exact ⟨by omega, hlt⟩
    · rintro ⟨ha, hlt⟩
      exact ⟨by omega, hlt⟩
  have hpart := stock_partition matched
  unfold SummaryMatchesList
  rw [hsum, h1, h2, h3, hcount, hlen, hout, hlow,
    status_availabilityPipeline proj matched s.borrowRecords resp.data hp "Out of Stock",
    status_availabilityPipeline proj matched s.borrowRecords resp.data hp "Low Stock",
    status_availabilityPipeline proj matched s.borrowRecords resp.data hp "Available"]
  refine ⟨rfl, rfl, rfl, ?_⟩
  omega

/-- C28: for every store and filter in which each selected book has
availableCopies ≥ 0, every answer of the availability report, over REST and
over GraphQL, has a summary that agrees with its per-book list: totalBooks is
the count of listed books, outOfStock and lowStock are the numbers of entries
with status Out of Stock and Low Stock, and totalBooks - outOfStock - lowStock
is the number of entries with status Available. -/
theorem bookAvailabilityReport_summary_list (rx : RegexEngine) (f : AvailabilityFilter)
    (s : Store)
    (hnn : ∀ keep, matchStage rx f = .ok keep →
      ∀ b ∈ s.books, keep b = true → 0 ≤ b.availableCopies) :
    (∀ resp, getBookAvailabilityReport rx f s = .ok resp → SummaryMatchesList resp) ∧
    (∀ user resp, bookAvailabilityReport rx (.value f) user s = .ok resp →
      SummaryMatchesList resp) := by
  refine ⟨fun resp h => availabilityReport_summary_list bookInfo rx f s resp hnn h, ?_⟩
  intro user resp h
  obtain ⟨f2, hf2, hr⟩ := bookAvailabilityReport_ok rx (.value f) user s resp h
  simp only [Arg.orDefault, Option.some.injEq] at hf2
  subst hf2
  exact availabilityReport_summary_list id rx f s resp hnn hr

theorem bookAvailabilityReport_summary_list_witness :
    (∀ keep, matchStage literalEngine emptyFilter = .ok keep →
      ∀ b ∈ stockStore.books, keep b = true → 0 ≤ b.availableCopies) ∧
    getBookAvailabilityReport literalEngine emptyFilter stockStore = .ok stockReport ∧
    SummaryMatchesList stockReport :=
  have hnn : ∀ keep, matchStage literalEngine emptyFilter = .ok keep →
      ∀ b ∈ stockStore.books, keep b = true → 0 ≤ b.availableCopies := by
    intro keep _ b hb _
    simp only [stockStore, sampleBook, List.mem_cons, List.mem_singleton, List.not_mem_nil,
      or_false] at hb
    rcases hb with rfl | rfl | rfl <;> decide
  ⟨hnn, by decide!,
    (bookAvailabilityReport_summary_list literalEngine emptyFilter stockStore hnn).1
      stockReport (by decide!)⟩

/-! ## Partition by genre -/

theorem sum_groups_length {α : Type} (key : α → String) (l : List α) :
    ((groupIds (l.map key)).map fun k => ((l.filter fun a => key a = k).length : Int)).sum
      = (l.length : Int) := by
  have hperm : (groupIds (l.map key)).Perm (l.map key).dedup := by
    rw [List.perm_ext_iff_of_nodup (nodup_groupIds _) (List.nodup_dedup _)]
    intro k
    rw [mem_groupIds, List.mem_dedup]
  rw [(hperm.map _).sum_eq]
  have h := List.sum_map_count_dedup_eq_length (l.map key)
  have h2 : ((l.map key).dedup.map fun k => ((l.filter fun a => key a = k).length : Int))
      = List.map (fun n : Nat => (n : Int))
          ((l.map key).dedup.map fun x => (l.map key).count x) := by
    rw [List.map_map]
    apply List.map_congr_left
    intro k _
    simp only [Function.comp, length_filter_eq_count key l k]
  rw [h2, ← Nat.cast_list_sum, h, List.length_map]

theorem groupByGenre_facts (docs : List (Book × List BorrowRecord)) :
    (groupByGenre docs).map (fun g => g._id) = groupIds (docs.map fun d => d.1.genre) ∧
    ((groupByGenre docs).map fun g => g.totalBooks).sum = (docs.length : Int) ∧
    ∀ g ∈ groupByGenre docs,
      1 ≤ g.totalBooks ∧ 0 ≤ g.activeBorrows ∧ g.activeBorrows ≤ g.totalBorrows := by
  refine ⟨?_, ?_, ?_⟩
  · simp only [groupByGenre, List.map_map, Function.comp_def, List.map_id']
  · rw [← sum_groups_length (fun d : Book × List BorrowRecord => d.1.genre) docs]
    simp only [groupByGenre, List.map_map, Function.comp_def, sum_ones]
  · intro g hg
    simp only [groupByGenre, List.mem_map] at hg
    obtain ⟨k, hk, rfl⟩ := hg
    rw [mem_groupIds, List.mem_map] at hk
    obtain ⟨d, hd, hdk⟩ := hk
    refine ⟨?_, ?_, ?_⟩
    · simp only [sum_ones]
      have : d ∈ docs.filter fun d => d.1.genre = k := by
        simp [List.mem_filter, hd, hdk]
      have := List.length_pos_of_mem this
      omega
    · apply List.sum_nonneg
      intro x hx
      simp only [List.mem_map] at hx
      obtain ⟨y, -, rfl⟩ := hx
      exact Int.natCast_nonneg _
    · apply List.sum_le_sum
      intro y _
      exact Int.ofNat_le.mpr (List.length_filter_le _ _)

theorem genreStatsPipeline_partition (s : Store) (data : List GenreStats)
    (h : genreStatsPipeline s = .ok data) : PartitionsByGenre s data := by
  unfold genreStatsPipeline at h
  cases hp : projectStage projectGenre (groupByGenre
      ((s.books.filter fun b => b.isActive = true).map
        (lookupGenreBorrows s.borrowRecords))) with
  | error e =>
    simp only [hp, bind, Except.bind] at h
    cases h
  | ok projected =>
    simp only [hp, bind, Except.bind, pure, Except.pure, Except.ok.injEq] at h
    subst h
    obtain ⟨hids, hsum, hmem⟩ := groupByGenre_facts
      ((s.books.filter fun b => b.isActive = true).map (lookupGenreBorrows s.borrowRecords))
    have hgenre := map_of_projectStage projectGenre (fun e => e.genre) (fun g => g._id)
      (fun g e hge => (projectGenre_ok g e hge).2.1) _ _ hp
    have htotal := map_of_projectStage projectGenre (fun e => e.totalBooks)
      (fun g => g.totalBooks) (fun g e hge => (projectGenre_ok g e hge).2.2.1) _ _ hp
    have hperm := List.perm_insertionSort genreOrder projected
    have hfacts : ∀ e ∈ projected.insertionSort genreOrder,
        1 ≤ e.totalBooks ∧ 0 ≤ e.activeBorrows ∧ e.activeBorrows ≤ e.totalBorrows := by
      intro e he
      rw [hperm.mem_iff] at he
      obtain ⟨g, hg, hge⟩ := mem_projectStage _ _ _ hp e he
      obtain ⟨-, -, h3, -, -, -, h7, h8, -⟩ := projectGenre_ok g e hge
      rw [h3, h7, h8]
      exact hmem g hg
    refine ⟨?_, fun e he => (hfacts e he).1, ?_, fun e he => (hfacts e he).2⟩
    · rw [(hperm.map _).nodup_iff, hgenre, hids]
      exact nodup_groupIds _
    · rw [(hperm.map _).sum_eq, htotal, hsum, List.length_map]

/-- C29: every answer of genreStats, over REST and over GraphQL, partitions
the active books of the store by genre: the genres of the entries are
pairwise distinct, every entry has totalBooks ≥ 1, the totalBooks of the
entries add up to the number of books with isActive = true, and every entry
has 0 ≤ activeBorrows ≤ totalBorrows. -/
theorem genreStats_partition (s : Store) :
    (∀ resp, getGenreStats s = .ok resp → PartitionsByGenre s resp.data) ∧
    (∀ user resp, genreStats user s = .ok resp → PartitionsByGenre s resp.data) :=
  ⟨fun resp h => genreStatsPipeline_partition s resp.data (getGenreStats_ok s resp h),
    fun user resp h => genreStatsPipeline_partition s resp.data (genreStats_ok user s resp h)⟩

theorem genreStats_partition_witness :
    getGenreStats stockStore = .ok stockGenreReport ∧
      PartitionsByGenre stockStore stockGenreReport.data :=
  ⟨by decide!, (genreStats_partition stockStore).1 stockGenreReport (by decide!)⟩

/-! ## The filter of the availability report -/

theorem matchStage_literal (rx : RegexEngine) (f : AvailabilityFilter)
    (hauthor : ∀ p, truthy f.author = some p → rx p = .ok fun str => containsIgnoreCase p str)
    (hsearch : ∀ p, truthy f.search = some p → rx p = .ok fun str => containsIgnoreCase p str) :
    matchStage rx f = .ok (selectedBy f) := by
  unfold matchStage regexCondition
  cases ha : truthy f.author with
  | none =>
    cases hs : truthy f.search with
    | none =>
      simp only []
      congr 1
      funext b
      simp [selectedBy, ha, hs]
    | some q =>
      simp only [hsearch q hs]
      congr 1
      funext b
      simp [selectedBy, ha, hs]
  | some a =>
    cases hs : truthy f.search with
    | none =>
      simp only [hauthor a ha]
      congr 1
      funext b
      simp [selectedBy, ha, hs]
    | some q =>
      simp only [hauthor a ha, hsearch q hs]
      congr 1
      funext b
      simp [selectedBy, ha, hs]

theorem books_of_availabilityPipeline {β : Type} (proj : Book → β) (matched : List Book)
    (rs : List BorrowRecord) (data : List (BookAvailabilityItem β))
    (h : availabilityPipeline proj matched rs = .ok data) :
    (data.map fun e => e.book).Perm (matched.map proj) := by
  unfold availabilityPipeline at h
  cases hp : projectStage (projectAvailability proj) (matched.map (lookupBorrows rs)) with
  | error e => simp [hp, bind, Except.bind] at h
  | ok projected =>
    simp only [hp, bind, Except.bind, pure, Except.pure, Except.ok.injEq] at h
    have hm := map_of_projectStage (projectAvailability proj) (fun e => e.book)
      (fun d => proj d.book)
      (fun a b hab => (projectAvailability_ok proj a b hab).2.1) _ _ hp
    rw [← h]
    refine ((List.perm_insertionSort availabilityOrder projected).map _).trans ?_
    rw [hm, List.map_map]
    exact List.Perm.refl _

theorem availabilityReport_selects {β : Type} (proj : Book → β) (rx : RegexEngine)
    (f : AvailabilityFilter) (s : Store) (resp : AvailabilityResponse β)
    (hm : matchStage rx f = .ok (selectedBy f))
    (h : availabilityReport proj rx f s = .ok resp) :
    (resp.data.map fun e => e.book).Perm ((s.books.filter (selectedBy f)).map proj) := by
  obtain ⟨matched, summaries, hk, hp, -, -, -⟩ := availabilityReport_ok proj rx f s resp h
  obtain ⟨keep, hkeep, hmatched⟩ := matchBooks_ok rx f s.books matched hk
  rw [hm] at hkeep
  cases hkeep
  rw [← hmatched]
  exact books_of_availabilityPipeline proj matched s.borrowRecords resp.data hp

/-- C26 (counterexample): with an engine that reads `.` as a regular
expression does, the filter `author = "."` selects both books of the store,
though the author of only one of them contains a full stop. -/
theorem author_filter_not_literal :
    (getBookAvailabilityReport dotEngine dotFilter authorStore).map (fun r => r.count) = .ok 2 ∧
      (authorStore.books.filter (selectedBy dotFilter)).length = 1 := by
  decide!

/-- C26 (amended): for every set of books and every filter whose non-empty
author and search strings the engine reads as literals, that is as
case-insensitive substring tests, the `$match` stage of the availability
report selects exactly the active books of the given genre whose author
contains the author string and one of whose title, author and isbn contains
the search string; every answer of the REST handler and of the resolver lists
exactly these books. -/
theorem bookAvailabilityReport_selects (rx : RegexEngine) (f : AvailabilityFilter) (s : Store)
    (hauthor : ∀ p, truthy f.author = some p → rx p = .ok fun str => containsIgnoreCase p str)
    (hsearch : ∀ p, truthy f.search = some p → rx p = .ok fun str => containsIgnoreCase p str) :
    matchBooks rx f s.books = .ok (s.books.filter (selectedBy f)) ∧
    (∀ resp, getBookAvailabilityReport rx f s = .ok resp →
      (resp.data.map fun e => e.book).Perm ((s.books.filter (selectedBy f)).map bookInfo)) ∧
    (∀ user resp, bookAvailabilityReport rx (.value f) user s = .ok resp →
      (resp.data.map fun e => e.book).Perm (s.books.filter (selectedBy f))) := by
  have hm := matchStage_literal rx f hauthor hsearch
  refine ⟨?_, ?_, ?_⟩
  · simp [matchBooks, hm, bind, Except.bind, pure, Except.pure]
  · intro resp h
    exact availabilityReport_selects bookInfo rx f s resp hm h
  · intro user resp h
    obtain ⟨f2, hf2, hr⟩ := bookAvailabilityReport_ok rx (.value f) user s resp h
    simp only [Arg.orDefault, Option.some.injEq] at hf2
    subst hf2
    have := availabilityReport_selects id rx f s resp hm hr
    rwa [List.map_id] at this

theorem bookAvailabilityReport_selects_witness :
    (∀ p, truthy austenFilter.author = some p →
      literalEngine p = .ok fun str => containsIgnoreCase p str) ∧
    (∀ p, truthy austenFilter.search = some p →
      literalEngine p = .ok fun str => containsIgnoreCase p str) ∧
    matchBooks literalEngine austenFilter authorStore.books
      = .ok (authorStore.books.filter (selectedBy austenFilter)) ∧
    (authorStore.books.filter (selectedBy austenFilter)).map (fun b => b.author)
      = ["Jane Austen"] :=
  ⟨fun _ _ => rfl, fun _ _ => rfl,
    (bookAvailabilityReport_selects literalEngine austenFilter authorStore
      (fun _ _ => rfl) (fun _ _ => rfl)).1,
    by decide!⟩

/-! ## Borrow listings -/

theorem mem_skipLimit {α : Type} (skip : Int) (limit : Option Int) (docs res : List α)
    (h : skipLimit skip limit docs = .ok res) (a : α) (ha : a ∈ res) : a ∈ docs := by
  unfold skipLimit at h
  split_ifs at h
  cases limit with
  | none =>
    simp only [Except.ok.injEq] at h
    subst h
    exact List.mem_of_mem_drop ha
  | some n =>
    simp only at h
    split_ifs at h
    · simp only [Except.ok.injEq] at h
      subst h
      exact List.mem_of_mem_drop ha
    · simp only [Except.ok.injEq] at h
      subst h
      exact List.mem_of_mem_drop (List.mem_of_mem_take ha)

theorem mem_findPage (s : Store) (query : BorrowQuery) (skip : Int) (limit : Option Int)
    (found : List BorrowRecord) (h : BorrowRecord.findPage s query skip limit = .ok found)
    (r : BorrowRecord) (hr : r ∈ found) :
    r ∈ s.borrowRecords ∧ query.satisfiedBy r = true := by
  have h1 := mem_skipLimit _ _ _ _ h r hr
  rw [(List.perm_insertionSort _ _).mem_iff, List.mem_filter] at h1
  exact h1

theorem satisfiedBy_user (q : BorrowQuery) (u : Nat) (hq : q.user = some u)
    (r : BorrowRecord) (h : q.satisfiedBy r = true) : r.user = u := by
  unfold BorrowQuery.satisfiedBy at h
  rw [hq] at h
  simp only [Bool.and_eq_true, decide_eq_true_eq] at h
  exact h.1.1.1

theorem borrowsQuery_user (now : Int) (f : BorrowFilterInput) (caller : User)
    (h : caller.role ≠ "Admin") : (borrowsQuery now f caller).user = some caller._id := by
  unfold borrowsQuery
  simp only [h, ne_eq, not_false_eq_true, if_true]

theorem filter_own (q : BorrowQuery) (u : Nat) (hq : q.user = some u)
    (rs : List BorrowRecord) :
    (rs.filter fun r => r.user = u).filter q.satisfiedBy = rs.filter q.satisfiedBy := by
  rw [List.filter_filter]
  apply List.filter_congr
  intro r _
  cases hs : q.satisfiedBy r with
  | false => rfl
  | true => simp [satisfiedBy_user q u hq r hs]

/-- C27: for every authenticated caller whose role is not Admin and every
page, limit and filter (a filter naming another user included), every record
in an answer of `borrows` belongs to the caller and its total is the number
of the caller's own records that satisfy the query; for every caller, every
record in an answer of `myBorrows` belongs to the caller and its total is the
number of the caller's records. -/
theorem borrows_own_only (now : Int) (page limit : Arg Int) (filter : Arg BorrowFilterInput)
    (caller : User) (s : Store) (hrole : caller.role ≠ "Admin") :
    (∀ resp, borrows now page limit filter (some caller) s = .ok resp →
      (∀ d ∈ resp.data, d.record.user = caller._id ∧ d.record ∈ s.borrowRecords) ∧
      ∃ f, filter.orDefault emptyBorrowFilter = some f ∧
        resp.total = ((s.borrowRecords.filter fun r => r.user = caller._id).filter
          (borrowsQuery now f caller).satisfiedBy).length) ∧
    (∀ resp, myBorrows page limit (some caller) s = .ok resp →
      (∀ d ∈ resp.data, d.record.user = caller._id ∧ d.record ∈ s.borrowRecords) ∧
      resp.total = (s.borrowRecords.filter fun r => r.user = caller._id).length) := by
  constructor
  · intro resp h
    have h1 := rethrow_ok _ _ _ h
    simp only [requireAuth] at h1
    cases hf : filter.orDefault emptyBorrowFilter with
    | none => simp [hf] at h1
    | some f =>
      simp only [hf] at h1
      have hu := borrowsQuery_user now f caller hrole
      cases hp : BorrowRecord.findPage s (borrowsQuery now f caller)
          ((toNumber (page.orDefault 1) - 1) * toNumber (limit.orDefault 10))
          (limit.orDefault 10) with
      | error e => simp [hp] at h1
      | ok found =>
        simp only [hp, Except.ok.injEq] at h1
        subst h1
        refine ⟨?_, f, rfl, ?_⟩
        · intro d hd
          simp only [List.mem_map] at hd
          obtain ⟨r, hr, rfl⟩ := hd
          obtain ⟨hmem, hsat⟩ := mem_findPage _ _ _ _ _ hp r hr
          exact ⟨satisfiedBy_user _ _ hu r hsat, hmem⟩
        · simp only [BorrowRecord.countDocuments]
          rw [filter_own _ _ hu]
  · intro resp h
    have h1 := rethrow_ok _ _ _ h
    simp only [requireAuth] at h1
    cases hp : BorrowRecord.findPage s { user := some caller._id }
        ((toNumber (page.orDefault 1) - 1) * toNumber (limit.orDefault 10))
        (limit.orDefault 10) with
    | error e => simp [hp] at h1
    | ok found =>
      simp only [hp, Except.ok.injEq] at h1
      subst h1
      refine ⟨?_, ?_⟩
      · intro d hd
        simp only [List.mem_map] at hd
        obtain ⟨r, hr, rfl⟩ := hd
        obtain ⟨hmem, hsat⟩ := mem_findPage _ _ _ _ _ hp r hr
        exact ⟨satisfiedBy_user _ _ rfl r hsat, hmem⟩
      · simp only [BorrowRecord.countDocuments]
        congr 1
        apply List.filter_congr
        intro r _
        simp [BorrowQuery.satisfiedBy]

theorem borrows_own_only_witness :
    (sampleUser 2 "Member").role ≠ "Admin" ∧
    borrows 0 .absent .absent (.value otherUserFilter) (some (sampleUser 2 "Member"))
      lendingStore = .ok memberPage ∧
    ∀ d ∈ memberPage.data, d.record.user = 2 ∧ d.record ∈ lendingStore.borrowRecords :=
  ⟨by decide, by decide!,
    ((borrows_own_only 0 .absent .absent (.value otherUserFilter)
      (sampleUser 2 "Member") lendingStore (by decide)).1 memberPage (by decide!)).1⟩

/-! ## deleteBook -/

theorem findById_book_isSome (s : Store) (id : Nat) :
    (∃ b, Book.findById s id = some b) ↔ ∃ b ∈ s.books, b._id = id := by
  unfold Book.findById
  constructor
  · rintro ⟨b, hb⟩
    have h1 := List.find?_some hb
    exact ⟨b, List.mem_of_find?_eq_some hb, by simpa using h1⟩
  · rintro ⟨b, hb, hid⟩
    cases hf : s.books.find? fun x => x._id = id with
    | some x => exact ⟨x, rfl⟩
    | none =>
      rw [List.find?_eq_none] at hf
      exact absurd (by simpa using hid) (hf b hb)

theorem activeBorrows_pos (s : Store) (id : Nat) :
    BorrowRecord.countDocuments s { book := some id, status := some "active" } > 0
      ↔ ∃ r ∈ s.borrowRecords, r.book = id ∧ r.status = Status.active := by
  unfold BorrowRecord.countDocuments
  rw [gt_iff_lt, List.length_pos_iff_exists_mem]
  constructor
  · rintro ⟨r, hr⟩
    rw [List.mem_filter] at hr
    refine ⟨r, hr.1, ?_⟩
    have h2 := hr.2
    simp only [BorrowQuery.satisfiedBy, Bool.and_eq_true, decide_eq_true_eq, Bool.true_and,
      Bool.and_true] at h2
    refine ⟨h2.1, ?_⟩
    cases hst : r.status <;> simp [hst, Status.name] at h2 ⊢
  · rintro ⟨r, hr, hb, hst⟩
    refine ⟨r, ?_⟩
    rw [List.mem_filter]
    refine ⟨hr, ?_⟩
    simp [BorrowQuery.satisfiedBy, hb, hst, Status.name]

theorem book_findById_id (s : Store) (id : Nat) (b : Book)
    (h : Book.findById s id = some b) : b._id = id := by
  have := List.find?_some h
  simpa using this

theorem deleteBook_admin (now : Int) (id : Nat) (u : User) (s : Store)
    (hu : u.role = "Admin") :
    deleteBook now id (some u) s
      = match Book.findById s id with
        | none => (.error "Failed to delete book: Book not found", s)
        | some book =>
          if BorrowRecord.countDocuments s { book := some id, status := some "active" } > 0 then
            (.error "Failed to delete book: Cannot delete book with active borrows", s)
          else
            (.ok { success := true, message := some "Book deleted successfully",
                   data := some (book.deactivated now) },
              book.softDelete now s) := by
  unfold deleteBook
  rw [requireAdmin_ok u hu]

/-- C22 (counterexample): an Admin's deleteBook of book 2 of `stockStore`,
which no active borrow references, at time `day19` does not leave the books as
they were but for isActive: the save also sets the book's updatedAt. -/
theorem deleteBook_touches_updatedAt :
    (∀ r ∈ stockStore.borrowRecords, ¬ (r.book = 2 ∧ r.status = Status.active)) ∧
    (deleteBook day19 2 (some (sampleUser 1 "Admin")) stockStore).2.books
      ≠ (stockStore.books.map fun x => if x._id = 2 then { x with isActive := false } else x) ∧
    (stockStore.books.map fun x => (x._id, x.isActive, x.updatedAt))
      = [(1, true, 0), (2, true, 0), (3, true, 0)] ∧
    ((deleteBook day19 2 (some (sampleUser 1 "Admin")) stockStore).2.books.map
        fun x => (x._id, x.isActive, x.updatedAt))
      = [(1, true, 0), (2, false, day19), (3, true, 0)] := by
  refine ⟨by decide, by decide, by decide, by decide⟩

/-- C22 (amended): for every Admin caller and book id, deleteBook fails with
'Cannot delete book with active borrows' (reported under the prefix of the
resolver) if and only if the book exists and a borrow record with status
active references it, and then the store is unchanged; when the book exists
with no active borrow, deleteBook answers with the book, deactivated, and
stores it so: the users and the borrow records are the same, every book keeps
its place, and the book of that id has isActive = false and, if it was active,
updatedAt set to the time of the call, every other field as it was. -/
theorem deleteBook_contract (now : Int) (id : Nat) (u : User) (s : Store)
    (hu : u.role = "Admin") :
    ((deleteBook now id (some u) s).1
        = .error "Failed to delete book: Cannot delete book with active borrows"
      ↔ (∃ b ∈ s.books, b._id = id) ∧
        ∃ r ∈ s.borrowRecords, r.book = id ∧ r.status = Status.active) ∧
    ((deleteBook now id (some u) s).1
        = .error "Failed to delete book: Cannot delete book with active borrows"
      → (deleteBook now id (some u) s).2 = s) ∧
    ((∃ b ∈ s.books, b._id = id) →
      (¬ ∃ r ∈ s.borrowRecords, r.book = id ∧ r.status = Status.active) →
      (∃ book, Book.findById s id = some book ∧
        (deleteBook now id (some u) s).1
          = .ok { success := true, message := some "Book deleted successfully",
                  data := some (book.deactivated now) }) ∧
      (deleteBook now id (some u) s).2.users = s.users ∧
      (deleteBook now id (some u) s).2.borrowRecords = s.borrowRecords ∧
      (deleteBook now id (some u) s).2.books
        = s.books.map fun x => if x._id = id then x.deactivated now else x) ∧
    (∀ b : Book,
      (b.deactivated now).isActive = false ∧
      (b.isActive = true → (b.deactivated now).updatedAt = now) ∧
      (b.isActive = false → b.deactivated now = b) ∧
      (b.deactivated now)._id = b._id ∧ (b.deactivated now).title = b.title ∧
      (b.deactivated now).author = b.author ∧ (b.deactivated now).isbn = b.isbn ∧
      (b.deactivated now).genre = b.genre ∧ (b.deactivated now).publisher = b.publisher ∧
      (b.deactivated now).totalCopies = b.totalCopies ∧
      (b.deactivated now).availableCopies = b.availableCopies ∧
      (b.deactivated now).createdAt = b.createdAt) := by
  have hfields : ∀ b : Book,
      (b.deactivated now).isActive = false ∧
      (b.isActive = true → (b.deactivated now).updatedAt = now) ∧
      (b.isActive = false → b.deactivated now = b) ∧
      (b.deactivated now)._id = b._id ∧ (b.deactivated now).title = b.title ∧
      (b.deactivated now).author = b.author ∧ (b.deactivated now).isbn = b.isbn ∧
      (b.deactivated now).genre = b.genre ∧ (b.deactivated now).publisher = b.publisher ∧
      (b.deactivated now).totalCopies = b.totalCopies ∧
      (b.deactivated now).availableCopies = b.availableCopies ∧
      (b.deactivated now).createdAt = b.createdAt := by
    intro b
    unfold Book.deactivated
    cases hb : b.isActive <;> simp [hb]
  suffices hmain : _ ∧ _ ∧ _ from ⟨hmain.1, hmain.2.1, hmain.2.2, hfields⟩
  rw [deleteBook_admin now id u s hu]
  have hact := activeBorrows_pos s id
  have hex := findById_book_isSome s id
  cases hf : Book.findById s id with
  | none =>
    have hno : ¬ ∃ b ∈ s.books, b._id = id := by
      rw [← hex, hf]
      simp
    refine ⟨?_, ?_, ?_⟩
    · simp [hno]
    · simp
    · intro h
      exact absurd h hno
  | some book =>
    have hyes : ∃ b ∈ s.books, b._id = id := by
      rw [← hex, hf]
      exact ⟨book, rfl⟩
    have hid := book_findById_id s id book hf
    by_cases hc : BorrowRecord.countDocuments s { book := some id, status := some "active" } > 0
    · simp only [hc, if_true]
      refine ⟨?_, ?_, ?_⟩
      · simp only [true_iff]
        exact ⟨hyes, hact.mp hc⟩
      · intro _
        trivial
      · intro _ hn
        exact absurd (hact.mp hc) hn
    · simp only [hc, if_false]
      refine ⟨?_, ?_, ?_⟩
      · constructor
        · intro h
          cases h
        · rintro ⟨-, h⟩
          exact absurd (hact.mpr h) hc
      · intro h
        cases h
      · intro _ _
        refine ⟨⟨book, rfl, rfl⟩, rfl, rfl, ?_⟩
        simp only [Book.softDelete, hid]

theorem deleteBook_contract_witness :
    (sampleUser 1 "Admin").role = "Admin" ∧
    (deleteBook day19 1 (some (sampleUser 1 "Admin")) lendingStore).1
      = .error "Failed to delete book: Cannot delete book with active borrows" ∧
    (deleteBook day19 1 (some (sampleUser 1 "Admin")) lendingStore).2 = lendingStore ∧
    (deleteBook day19 2 (some (sampleUser 1 "Admin")) stockStore).2.books
      = [sampleBook 1 "Fiction" 10 1,
         { sampleBook 2 "Fiction" 4 4 with isActive := false, updatedAt := day19 },
         sampleBook 3 "Science" 5 0] :=
  ⟨rfl, by decide!,
    (deleteBook_contract day19 1 (sampleUser 1 "Admin") lendingStore rfl).2.1 (by decide!),
    by decide!⟩

/-! ## The status of a borrow record -/

theorem statusStep_refl (r : BorrowRecord) : StatusStep r r := ⟨rfl, Or.inl rfl⟩

theorem statusStep_trans (a b c : BorrowRecord) (h1 : StatusStep a b) (h2 : StatusStep b c) :
    StatusStep a c := by
  obtain ⟨i1, s1⟩ := h1
  obtain ⟨i2, s2⟩ := h2
  refine ⟨i2.trans i1, ?_⟩
  rcases s1 with s1 | ⟨s1, s1b⟩ <;> rcases s2 with s2 | ⟨s2, s2b⟩
  · exact Or.inl (s2.trans s1)
  · exact Or.inr ⟨s1 ▸ s2, s2b⟩
  · exact Or.inr ⟨s1, s2.trans s1b⟩
  · rw [s1b] at s2
    cases s2

theorem forall₂_statusStep_trans (l1 l2 l3 : List BorrowRecord)
    (h1 : List.Forall₂ StatusStep l1 l2) (h2 : List.Forall₂ StatusStep l2 l3) :
    List.Forall₂ StatusStep l1 l3 := by
  induction h1 generalizing l3 with
  | nil => cases h2; exact List.Forall₂.nil
  | cons hab _ ih =>
    cases h2 with
    | cons hbc hrest => exact List.Forall₂.cons (statusStep_trans _ _ _ hab hbc) (ih _ hrest)

theorem forall₂_statusStep_ids (l1 l2 : List BorrowRecord)
    (h : List.Forall₂ StatusStep l1 l2) : l2.map (fun r => r._id) = l1.map fun r => r._id := by
  induction h with
  | nil => rfl
  | cons hab _ ih => simp [hab.1, ih]

theorem saveRecord_step (s : Store) (id : Nat) (r r2 : BorrowRecord)
    (hnd : (s.borrowRecords.map fun r => r._id).Nodup)
    (hf : BorrowRecord.findById s id = some r) (hstep : StatusStep r r2) :
    List.Forall₂ StatusStep s.borrowRecords (saveRecord r2 s).borrowRecords := by
  have hmem : r ∈ s.borrowRecords := List.mem_of_find?_eq_some hf
  simp only [saveRecord]
  rw [List.forall₂_map_right_iff, List.forall₂_same]
  intro x hx
  by_cases hid : x._id = r2._id
  · rw [if_pos hid]
    have hxr : x = r := List.inj_on_of_nodup_map hnd hx hmem (hid.trans hstep.1)
    rw [hxr]
    exact hstep
  · rw [if_neg hid]
    exact statusStep_refl x

theorem saveRecord_invariant (s : Store) (r2 : BorrowRecord) (hinv : RecordsInvariant s)
    (h2 : RecordInvariant r2) : RecordsInvariant (saveRecord r2 s) := by
  intro x hx
  simp only [saveRecord, List.mem_map] at hx
  obtain ⟨y, hy, rfl⟩ := hx
  split_ifs
  · exact h2
  · exact hinv y hy

theorem step_of_same (s s2 : Store) (hinv : RecordsInvariant s)
    (h : s2.borrowRecords = s.borrowRecords) :
    RecordsInvariant s2 ∧ List.Forall₂ StatusStep s.borrowRecords s2.borrowRecords := by
  refine ⟨?_, ?_⟩
  · intro r hr
    rw [h] at hr
    exact hinv r hr
  · rw [h, List.forall₂_same]
    exact fun x _ => statusStep_refl x

theorem step_of_save (s s2 : Store) (id : Nat) (r r2 : BorrowRecord)
    (hnd : (s.borrowRecords.map fun r => r._id).Nodup) (hinv : RecordsInvariant s)
    (hf : BorrowRecord.findById s id = some r) (hstep : StatusStep r r2)
    (hr2 : RecordInvariant r2) (h : s2.borrowRecords = (saveRecord r2 s).borrowRecords) :
    RecordsInvariant s2 ∧ List.Forall₂ StatusStep s.borrowRecords s2.borrowRecords := by
  refine ⟨?_, ?_⟩
  · intro x hx
    rw [h] at hx
    exact saveRecord_invariant s r2 hinv hr2 x hx
  · rw [h]
    exact saveRecord_step s id r r2 hnd hf hstep

theorem returnBook_step (policy : Policy) (now : Int) (id : Nat)
    (input : Arg UpdateBorrowInput) (user : Option User) (s : Store)
    (hnd : (s.borrowRecords.map fun r => r._id).Nodup) (hinv : RecordsInvariant s) :
    RecordsInvariant (returnBook policy now id input user s).2 ∧
      List.Forall₂ StatusStep s.borrowRecords
        (returnBook policy now id input user s).2.borrowRecords := by
  cases user with
  | none => exact step_of_same s _ hinv (by simp [returnBook, requireAuth])
  | some caller =>
    cases hr : BorrowRecord.findById s id with
    | none => exact step_of_same s _ hinv (by simp [returnBook, requireAuth, hr])
    | some r =>
      cases hown : checkOwnership caller (populate s r) with
      | error e => exact step_of_same s _ hinv (by simp [returnBook, requireAuth, hr, hown])
      | ok u =>
        by_cases hact : r.status = Status.active
        · have h2 := (returnBook_active policy now id input caller s r hr hown hact).1
          rw [returnBook_model policy now r s hact] at h2
          refine step_of_save s _ id r
            { r with returnDate := DateField.date now, status := Status.returned,
                     fine := fineFor policy now r.dueDate } hnd hinv hr
            ⟨rfl, Or.inr ⟨hact, rfl⟩⟩ ?_ (by rw [h2])
          simp [RecordInvariant, DateField.isUnset]
        · exact step_of_same s _ hinv (by simp [returnBook, requireAuth, hr, hown, hact])

theorem renewBook_step (policy : Policy) (now : Int) (id : Nat) (user : Option User)
    (s : Store) (hnd : (s.borrowRecords.map fun r => r._id).Nodup)
    (hinv : RecordsInvariant s) :
    RecordsInvariant (renewBook policy now id user s).2 ∧
      List.Forall₂ StatusStep s.borrowRecords
        (renewBook policy now id user s).2.borrowRecords := by
  cases user with
  | none => exact step_of_same s _ hinv (by simp [renewBook, requireAuth])
  | some caller =>
    cases hr : BorrowRecord.findById s id with
    | none => exact step_of_same s _ hinv (by simp [renewBook, requireAuth, hr])
    | some r =>
      cases hown : checkOwnership caller (populate s r) with
      | error e => exact step_of_same s _ hinv (by simp [renewBook, requireAuth, hr, hown])
      | ok u =>
        by_cases hact : r.status = Status.active
        · by_cases hlate : daysLate now r.dueDate = 0
          · refine step_of_save s _ id r
              { r with dueDate := r.dueDate + policy.loanPeriod,
                       renewalCount := r.renewalCount + 1 } hnd hinv hr
              ⟨rfl, Or.inl rfl⟩ ?_
              (by simp [renewBook, requireAuth, hr, hown, BorrowRecord.renewBook, hact, hlate])
            have := hinv r (List.mem_of_find?_eq_some hr)
            exact this
          · exact step_of_same s _ hinv
              (by simp [renewBook, requireAuth, hr, hown, BorrowRecord.renewBook, hact, hlate])
        · exact step_of_same s _ hinv
            (by simp [renewBook, requireAuth, hr, hown, BorrowRecord.renewBook, hact])

theorem updateBorrow_step (cast : DateCast) (id : Nat) (input : UpdateBorrowInput)
    (user : Option User) (s : Store) (hst : input.status = none)
    (hrd : input.returnDate = none)
    (hnd : (s.borrowRecords.map fun r => r._id).Nodup) (hinv : RecordsInvariant s) :
    RecordsInvariant (updateBorrow cast id input user s).2 ∧
      List.Forall₂ StatusStep s.borrowRecords
        (updateBorrow cast id input user s).2.borrowRecords := by
  unfold updateBorrow
  cases requireAdmin user with
  | error e => exact step_of_same s _ hinv rfl
  | ok u =>
    simp only [BorrowRecord.findByIdAndUpdate, hst, hrd, Option.map_none']
    cases hr : BorrowRecord.findById s id with
    | none => exact step_of_same s _ hinv rfl
    | some r =>
      refine step_of_save s _ id r (applyBorrowUpdate none none input.fine r) hnd hinv hr
        ⟨rfl, Or.inl rfl⟩ ?_ rfl
      exact hinv r (List.mem_of_find?_eq_some hr)

theorem borrowMutation_step (policy : Policy) (cast : DateCast) (m : BorrowMutation)
    (s : Store) (hm : m.LeavesStatus)
    (hnd : (s.borrowRecords.map fun r => r._id).Nodup) (hinv : RecordsInvariant s) :
    RecordsInvariant (m.apply policy cast s) ∧
      List.Forall₂ StatusStep s.borrowRecords (m.apply policy cast s).borrowRecords := by
  cases m with
  | borrowBook now input user =>
    exact step_of_same s _ hinv (by
      simp only [BorrowMutation.apply]
      rw [borrowBook_store])
  | returnBook now id input user => exact returnBook_step policy now id input user s hnd hinv
  | renewBook now id user => exact renewBook_step policy now id user s hnd hinv
  | updateBorrow id input user => exact updateBorrow_step cast id input user s hm.1 hm.2 hnd hinv

/-- C21 (counterexample): in `lendingStore`, where every record satisfies the
invariant, an Admin's `updateBorrow` with `{ status: "returned" }` leaves
record 1 returned with no returnDate, and a second `updateBorrow` with
`{ status: "active" }` moves it from returned back to active. -/
theorem updateBorrow_breaks_status :
    RecordsInvariant lendingStore ∧
    ¬ RecordsInvariant
      (applyBorrowMutations samplePolicy noDate
        [BorrowMutation.updateBorrow 1 markReturned (some (sampleUser 1 "Admin"))]
        lendingStore) ∧
    ¬ List.Forall₂ StatusStep
      (applyBorrowMutations samplePolicy noDate
        [BorrowMutation.updateBorrow 1 markReturned (some (sampleUser 1 "Admin"))]
        lendingStore).borrowRecords
      (applyBorrowMutations samplePolicy noDate
        [BorrowMutation.updateBorrow 1 markReturned (some (sampleUser 1 "Admin")),
         BorrowMutation.updateBorrow 1 markActive (some (sampleUser 1 "Admin"))]
        lendingStore).borrowRecords := by
  refine ⟨by decide, by decide, ?_⟩
  intro h
  have h2 : (applyBorrowMutations samplePolicy noDate
      [BorrowMutation.updateBorrow 1 markReturned (some (sampleUser 1 "Admin")),
       BorrowMutation.updateBorrow 1 markActive (some (sampleUser 1 "Admin"))]
      lendingStore).borrowRecords
        = [sampleRecord 1 2 1 Status.active DateField.missing,
           sampleRecord 2 3 2 Status.active DateField.missing] := by decide!
  have h1 : (applyBorrowMutations samplePolicy noDate
      [BorrowMutation.updateBorrow 1 markReturned (some (sampleUser 1 "Admin"))]
      lendingStore).borrowRecords
        = [sampleRecord 1 2 1 Status.returned DateField.missing,
           sampleRecord 2 3 2 Status.active DateField.missing] := by decide!
  rw [h1, h2] at h
  cases h with
  | cons hab _ =>
    rcases hab.2 with h3 | ⟨h3, -⟩
    · exact absurd h3 (by decide)
    · exact absurd h3 (by decide)

/-- C21 (amended): starting from a store whose borrow records have distinct
ids and satisfy the invariant, any sequence of borrowBook, returnBook,
renewBook and of updateBorrow calls whose input gives neither status nor
returnDate leaves a store in which every borrow record has status active iff
its returnDate is unset, and in which every record is the record of the same
id with its status unchanged or moved from active to returned. -/
theorem status_invariant_kept (policy : Policy) (cast : DateCast) (ms : List BorrowMutation)
    (s : Store) (hnd : (s.borrowRecords.map fun r => r._id).Nodup)
    (hinv : RecordsInvariant s) (hms : ∀ m ∈ ms, m.LeavesStatus) :
    RecordsInvariant (applyBorrowMutations policy cast ms s) ∧
      List.Forall₂ StatusStep s.borrowRecords
        (applyBorrowMutations policy cast ms s).borrowRecords := by
  induction ms generalizing s with
  | nil => exact step_of_same s s hinv rfl
  | cons m ms ih =>
    obtain ⟨h1, h2⟩ := borrowMutation_step policy cast m s
      (hms m (List.mem_cons_self _ _)) hnd hinv
    have hnd2 : ((m.apply policy cast s).borrowRecords.map fun r => r._id).Nodup := by
      rw [forall₂_statusStep_ids _ _ h2]
      exact hnd
    obtain ⟨h3, h4⟩ := ih (m.apply policy cast s) hnd2 h1
      (fun x hx => hms x (List.mem_cons_of_mem _ hx))
    exact ⟨h3, forall₂_statusStep_trans _ _ _ h2 h4⟩

theorem status_invariant_kept_witness :
    (lendingStore.borrowRecords.map fun r => r._id).Nodup ∧ RecordsInvariant lendingStore ∧
    (∀ m ∈ [BorrowMutation.returnBook day19 1 Arg.absent (some (sampleUser 2 "Member")),
            BorrowMutation.updateBorrow 2 setFine (some (sampleUser 1 "Admin")),
            BorrowMutation.renewBook 0 2 (some (sampleUser 3 "Member"))],
      m.LeavesStatus) ∧
    RecordsInvariant
      (applyBorrowMutations samplePolicy noDate
        [BorrowMutation.returnBook day19 1 Arg.absent (some (sampleUser 2 "Member")),
         BorrowMutation.updateBorrow 2 setFine (some (sampleUser 1 "Admin")),
         BorrowMutation.renewBook 0 2 (some (sampleUser 3 "Member"))]
        lendingStore) ∧
    ((applyBorrowMutations samplePolicy noDate
        [BorrowMutation.returnBook day19 1 Arg.absent (some (sampleUser 2 "Member")),
         BorrowMutation.updateBorrow 2 setFine (some (sampleUser 1 "Admin")),
         BorrowMutation.renewBook 0 2 (some (sampleUser 3 "Member"))]
        lendingStore).borrowRecords.map fun r => (r.status, r.fine, r.renewalCount))
      = [(Status.returned, 5, 0), (Status.active, 5, 1)] :=
  ⟨by decide, by decide, by decide,
    (status_invariant_kept samplePolicy noDate
      [BorrowMutation.returnBook day19 1 Arg.absent (some (sampleUser 2 "Member")),
       BorrowMutation.updateBorrow 2 setFine (some (sampleUser 1 "Admin")),
       BorrowMutation.renewBook 0 2 (some (sampleUser 3 "Member"))]
      lendingStore (by decide) (by decide) (by decide)).1,
    by decide!⟩

/-! ## validateUser -/

theorem truthy_eq_some (o : Option String) (s : String) :
    truthy o = some s ↔ o = some s ∧ s ≠ "" := by
  cases o with
  | none => simp [truthy]
  | some x =>
    by_cases hx : x = ""
    · subst hx
      simp only [truthy, if_true, Option.some.injEq]
      constructor
      · intro h
        cases h
      · rintro ⟨h1, h2⟩
        exact absurd h1.symm h2
    · simp only [truthy, hx, if_false, Option.some.injEq]
      constructor
      · intro h
        exact ⟨h, h ▸ hx⟩
      · exact fun h => h.1

theorem truthy_eq_none (o : Option String) : truthy o = none ↔ o = none ∨ o = some "" := by
  cases o with
  | none => simp [truthy]
  | some x =>
    by_cases hx : x = ""
    · simp [truthy, hx]
    · simp [truthy, hx]

theorem length_eq_zero_iff (s : String) : s.length = 0 ↔ s = "" := by
  cases s with
  | mk l =>
    simp only [String.length, List.length_eq_zero]
    constructor
    · intro h
      rw [h]
    · intro h
      exact congrArg String.data h

theorem trim_empty : trim "" = "" := rfl

theorem mem_dropWhile_of_not {α : Type} (p : α → Bool) (a : α) (ha : p a = false)
    (l : List α) (h : a ∈ l) : a ∈ l.dropWhile p := by
  induction l with
  | nil => cases h
  | cons x xs ih =>
    by_cases hx : p x = true
    · rw [List.dropWhile_cons_of_pos hx]
      rcases List.mem_cons.mp h with rfl | h2
      · rw [ha] at hx
        cases hx
      · exact ih h2
    · rw [List.dropWhile_cons_of_neg hx]
      exact h

theorem mem_rdropWhile_of_not {α : Type} (p : α → Bool) (a : α) (ha : p a = false)
    (l : List α) (h : a ∈ l) : a ∈ l.rdropWhile p := by
  unfold List.rdropWhile
  rw [List.mem_reverse]
  exact mem_dropWhile_of_not p a ha _ (List.mem_reverse.mpr h)

theorem dropWhile_rdropWhile_dropWhile {α : Type} (p : α → Bool) (l : List α) :
    ((l.dropWhile p).rdropWhile p).dropWhile p = (l.dropWhile p).rdropWhile p := by
  rw [List.dropWhile_eq_self_iff]
  intro hl
  have hne : (l.dropWhile p).rdropWhile p ≠ [] := List.length_pos.mp hl
  obtain ⟨t, ht⟩ := List.rdropWhile_prefix p (l.dropWhile p)
  have hne2 : l.dropWhile p ≠ [] := by
    intro h0
    rw [h0] at hne
    exact hne rfl
  have hhead := List.head_dropWhile_not p l hne2
  have heq : ((l.dropWhile p).rdropWhile p).get ⟨0, hl⟩ = (l.dropWhile p).head hne2 := by
    have h3 : (l.dropWhile p).head hne2
        = ((l.dropWhile p).rdropWhile p ++ t).head (by simp [hne]) := by
      congr 1
      exact ht.symm
    rw [h3, List.head_append_of_ne_nil hne, List.get_eq_getElem, ← List.head_eq_getElem]
  rw [heq, hhead]
  simp

theorem trim_trim (s : String) : trim (trim s) = trim s := by
  unfold trim
  simp only [String.toList]
  rw [dropWhile_rdropWhile_dropWhile, List.rdropWhile_idempotent]

theorem at_not_whiteSpace : isStrWhiteSpace '@' = false := by decide

theorem includes_trim (s : String) (h : includes s '@' = true) :
    includes (trim s) '@' = true := by
  unfold includes at *
  rw [List.contains_iff_exists_mem_beq] at *
  obtain ⟨c, hc, hb⟩ := h
  have hcc : c = '@' := (beq_iff_eq.mp hb).symm
  subst hcc
  refine ⟨'@', ?_, hb⟩
  exact mem_rdropWhile_of_not _ _ at_not_whiteSpace _
    (mem_dropWhile_of_not _ _ at_not_whiteSpace _ hc)

theorem ne_empty_of_includes (s : String) (c : Char) (h : includes s c = true) : s ≠ "" := by
  intro h0
  subst h0
  simp [includes] at h

theorem validateUser_name {ρ : Type} (body : UserBody ρ) :
    NameMissing body ↔
      (truthy body.name = none ∨ ∃ n, truthy body.name = some n ∧ (trim n).length = 0) := by
  unfold NameMissing
  constructor
  · rintro (h | ⟨n, hn, ht⟩)
    · exact Or.inl (by rw [h]; rfl)
    · by_cases h0 : n = ""
      · exact Or.inl ((truthy_eq_none _).mpr (Or.inr (h0 ▸ hn)))
      · exact Or.inr ⟨n, (truthy_eq_some _ _).mpr ⟨hn, h0⟩, (length_eq_zero_iff _).mpr ht⟩
  · rintro (h | ⟨n, hn, ht⟩)
    · rcases (truthy_eq_none _).mp h with h | h
      · exact Or.inl h
      · exact Or.inr ⟨"", h, trim_empty⟩
    · exact Or.inr ⟨n, ((truthy_eq_some _ _).mp hn).1, (length_eq_zero_iff _).mp ht⟩

theorem validateUser_email {ρ : Type} (body : UserBody ρ) :
    EmailMissing body ↔
      (truthy body.email = none ∨ ∃ e, truthy body.email = some e ∧ includes e '@' = false) := by
  unfold EmailMissing
  constructor
  · rintro (h | ⟨e, he, ht⟩)
    · exact Or.inl (by rw [h]; rfl)
    · by_cases h0 : e = ""
      · exact Or.inl ((truthy_eq_none _).mpr (Or.inr (h0 ▸ he)))
      · exact Or.inr ⟨e, (truthy_eq_some _ _).mpr ⟨he, h0⟩, ht⟩
  · rintro (h | ⟨e, he, ht⟩)
    · rcases (truthy_eq_none _).mp h with h | h
      · exact Or.inl h
      · exact Or.inr ⟨"", h, rfl⟩
    · exact Or.inr ⟨e, ((truthy_eq_some _ _).mp he).1, ht⟩

theorem validateUser_cases {ρ : Type} (toLowerCase : CaseMap) (body : UserBody ρ) :
    (NameMissing body ∧
      validateUser toLowerCase body
        = .error { message := "Name is required", statusCode := 400 }) ∨
    (¬ NameMissing body ∧ EmailMissing body ∧
      validateUser toLowerCase body
        = .error { message := "Valid email is required", statusCode := 400 }) ∨
    (¬ NameMissing body ∧ ¬ EmailMissing body ∧
      ∃ n e, body.name = some n ∧ body.email = some e ∧ trim n ≠ "" ∧
        includes e '@' = true ∧
        validateUser toLowerCase body
          = .ok { name := some (trim n), email := some (trim (toLowerCase e)),
                  rest := body.rest }) := by
  rw [validateUser_name body, validateUser_email body]
  unfold validateUser
  cases hn : truthy body.name with
  | none => exact Or.inl ⟨Or.inl rfl, rfl⟩
  | some n =>
    by_cases hl : (trim n).length = 0
    · exact Or.inl ⟨Or.inr ⟨n, rfl, hl⟩, by simp [hl]⟩
    · have hnm : ¬ (some n = none ∨ ∃ m, some n = some m ∧ (trim m).length = 0) := by
        rintro (h | ⟨m, hm, hml⟩)
        · cases h
        · cases hm
          exact hl hml
      refine Or.inr ?_
      cases he : truthy body.email with
      | none => exact Or.inl ⟨hnm, Or.inl rfl, by simp [hl]⟩
      | some e =>
        by_cases hi : includes e '@' = true
        · have hem : ¬ (some e = none ∨ ∃ m, some e = some m ∧ includes m '@' = false) := by
            rintro (h | ⟨m, hm, hmi⟩)
            · cases h
            · cases hm
              rw [hi] at hmi
              cases hmi
          refine Or.inr ⟨hnm, hem, n, e, ((truthy_eq_some _ _).mp hn).1,
            ((truthy_eq_some _ _).mp he).1, fun h => hl ((length_eq_zero_iff _).mpr h), hi, ?_⟩
          simp [hl, hi]
        · have hi2 : includes e '@' = false := by
            cases h : includes e '@'
            · rfl
            · exact absurd h hi
          exact Or.inl ⟨hnm, Or.inr ⟨e, rfl, hi2⟩, by simp [hl, hi2]⟩

/-- C30: for every request body with string-or-absent name and email,
validateUser rejects with status 400 and 'Name is required' iff the name is
absent or blank after trimming, and with 'Valid email is required' iff the
name is present and the email is absent or contains no '@'; otherwise it calls
next with no error, the body holding the trimmed name and the lower-cased,
trimmed email and every other field as it was.  When the engine's toLowerCase
is idempotent, commutes with trim and keeps an '@', applying validateUser
again to the body it accepted accepts and changes nothing. -/
theorem validateUser_contract {ρ : Type} (toLowerCase : CaseMap) (body : UserBody ρ) :
    (validateUser toLowerCase body
        = .error { message := "Name is required", statusCode := 400 } ↔ NameMissing body) ∧
    (validateUser toLowerCase body
        = .error { message := "Valid email is required", statusCode := 400 }
      ↔ ¬ NameMissing body ∧ EmailMissing body) ∧
    (¬ NameMissing body → ¬ EmailMissing body →
      ∃ n e, body.name = some n ∧ body.email = some e ∧
        validateUser toLowerCase body
          = .ok { name := some (trim n), email := some (trim (toLowerCase e)),
                  rest := body.rest }) ∧
    ((∀ x, toLowerCase (toLowerCase x) = toLowerCase x) →
      (∀ x, toLowerCase (trim x) = trim (toLowerCase x)) →
      (∀ x, includes x '@' = true → includes (toLowerCase x) '@' = true) →
      ∀ accepted, validateUser toLowerCase body = .ok accepted →
        validateUser toLowerCase accepted = .ok accepted) := by
  rcases validateUser_cases toLowerCase body with ⟨hn, hv⟩ | ⟨hn, he, hv⟩ | ⟨hn, he, n, e, hbn, hbe, htn, hie, hv⟩
  · rw [hv]
    refine ⟨by simp [hn], by simp [hn], fun h => absurd hn h, ?_⟩
    intro _ _ _ accepted h
    cases h
  · rw [hv]
    refine ⟨by simp [hn], by simp [hn, he], fun _ h => absurd he h, ?_⟩
    intro _ _ _ accepted h
    cases h
  · rw [hv]
    refine ⟨by simp [hn], by simp [hn, he], fun _ _ => ⟨n, e, hbn, hbe, rfl⟩, ?_⟩
    intro h1 h2 h3 accepted h
    simp only [Except.ok.injEq] at h
    subst h
    have hname : truthy (some (trim n)) = some (trim n) :=
      (truthy_eq_some _ _).mpr ⟨rfl, htn⟩
    have hinc : includes (trim (toLowerCase e)) '@' = true := includes_trim _ (h3 e hie)
    have hmail : truthy (some (trim (toLowerCase e))) = some (trim (toLowerCase e)) :=
      (truthy_eq_some _ _).mpr ⟨rfl, ne_empty_of_includes _ _ hinc⟩
    have hlen : ¬ (trim n).length = 0 := by
      rw [length_eq_zero_iff]
      exact htn
    simp only [validateUser, hname, hmail, hlen, hinc, if_false, Bool.not_true,
      Bool.false_eq_true, trim_trim, h2, h1]

theorem toLower_toLower (c : Char) : c.toLower.toLower = c.toLower := by
  by_cases h : c.toNat ≥ 65 ∧ c.toNat ≤ 90
  · have : c.toLower = Char.ofNat (c.toNat + 32) := by simp [Char.toLower, h]
    rw [this]
    generalize c.toNat = n at *
    obtain ⟨h1, h2⟩ := h
    interval_cases n <;> decide
  · have : c.toLower = c := by
      unfold Char.toLower
      simp only []
      rw [if_neg h]
    rw [this, this]

theorem whiteSpace_toLower (c : Char) : isStrWhiteSpace c.toLower = isStrWhiteSpace c := by
  by_cases h : c.toNat ≥ 65 ∧ c.toNat ≤ 90
  · have h1 : c.toLower = Char.ofNat (c.toNat + 32) := by simp [Char.toLower, h]
    have h2 : c = Char.ofNat c.toNat := (Char.ofNat_toNat c).symm
    rw [h1]
    conv_rhs => rw [h2]
    generalize c.toNat = n at *
    obtain ⟨h3, h4⟩ := h
    interval_cases n <;> decide
  · have : c.toLower = c := by
      unfold Char.toLower
      simp only []
      rw [if_neg h]
    rw [this]

theorem asciiLower_facts :
    (∀ x, asciiLower (asciiLower x) = asciiLower x) ∧
    (∀ x, asciiLower (trim x) = trim (asciiLower x)) ∧
    (∀ x, includes x '@' = true → includes (asciiLower x) '@' = true) := by
  have hcomp : (isStrWhiteSpace ∘ Char.toLower) = isStrWhiteSpace := by
    funext c
    exact whiteSpace_toLower c
  refine ⟨?_, ?_, ?_⟩
  · intro x
    simp only [asciiLower, String.toList, List.map_map]
    congr 1
    apply List.map_congr_left
    intro c _
    exact toLower_toLower c
  · intro x
    simp only [asciiLower, trim, String.toList, List.rdropWhile, List.dropWhile_map,
      ← List.map_reverse, hcomp]
  · intro x h
    unfold includes at *
    rw [List.contains_iff_exists_mem_beq] at *
    obtain ⟨c, hc, hb⟩ := h
    have hcc : c = '@' := (beq_iff_eq.mp hb).symm
    subst hcc
    exact ⟨'@', List.mem_map.mpr ⟨'@', hc, by decide⟩, hb⟩

theorem validateUser_contract_witness :
    ¬ NameMissing sampleBody ∧ ¬ EmailMissing sampleBody ∧
    validateUser asciiLower sampleBody
      = .ok { name := some "Ada Lovelace", email := some "ada@example.com",
              rest := "secret12" } ∧
    validateUser asciiLower
        { name := some "Ada Lovelace", email := some "ada@example.com", rest := "secret12" }
      = .ok { name := some "Ada Lovelace", email := some "ada@example.com",
              rest := "secret12" } :=
  have hn : ¬ NameMissing sampleBody := by
    rintro (h | ⟨n, hn, ht⟩)
    · cases h
    · cases hn
      revert ht
      decide
  have he : ¬ EmailMissing sampleBody := by
    rintro (h | ⟨e, he, ht⟩)
    · cases h
    · cases he
      revert ht
      decide
  ⟨hn, he, by decide,
    (validateUser_contract asciiLower sampleBody).2.2.2 asciiLower_facts.1 asciiLower_facts.2.1
      asciiLower_facts.2.2 _ (by decide)⟩

/-! ## Guards of the administrative mutations -/

theorem admin_mutations_guarded (env : UserEnv) (cast : DateCast) (schema : BookSchema)
    (now : Int) (user : Option User) (s : Store)
    (h : user = none ∨ ∃ u, user = some u ∧ u.role ≠ "Admin") :
    (∀ input, ∃ msg, createUser env now input user s = (.error msg, s)) ∧
    (∀ id, ∃ msg, deleteUser id user s = (.error msg, s)) ∧
    (∀ input, ∃ msg, createBook schema now input user s = (.error msg, s)) ∧
    (∀ id input, ∃ msg, updateBook schema now id input user s = (.error msg, s)) ∧
    (∀ id, ∃ msg, deleteBook now id user s = (.error msg, s)) ∧
    (∀ id input, ∃ msg, updateBorrow cast id input user s = (.error msg, s)) := by
  obtain ⟨msg, hmsg⟩ := requireAdmin_error user h
  refine ⟨?_, ?_, ?_, ?_, ?_, ?_⟩
  · intro input
    exact ⟨"Failed to create user: " ++ msg, by simp [createUser, hmsg]⟩
  · intro id
    exact ⟨"Failed to delete user: " ++ msg, by simp [deleteUser, hmsg]⟩
  · intro input
    exact ⟨"Failed to create book: " ++ msg, by simp [createBook, hmsg]⟩
  · intro id input
    exact ⟨"Failed to update book: " ++ msg, by simp [updateBook, hmsg]⟩
  · intro id
    exact ⟨"Failed to delete book: " ++ msg, by simp [deleteBook, hmsg]⟩
  · intro id input
    exact ⟨"Failed to update borrow: " ++ msg, by simp [updateBorrow, hmsg]⟩

/-- C24 (divergence): the router of the REST user handlers reads no
credentials: whatever `Authorization` header a request carries, it is served
as the request without one, and on `lendingStore` a request without
credentials soft-deletes user 2 (DELETE), makes user 2 an Admin (PUT) and
creates a new Admin (POST), each answered as a success. -/
theorem userRoutes_unguarded :
    (∀ (env : UserEnv) (now : Int) (authorization : Option String) (req : UserRequest)
        (s : Store),
      userRoutes env now authorization req s = userRoutes env now none req s) ∧
    ((userRoutes sampleEnv 0 none (.deleteUser 2) lendingStore).1.map
        (fun r => match r with
          | .one b => (b.status, b.success)
          | .page _ => (0, false)) = .ok (200, true) ∧
      (userRoutes sampleEnv 0 none (.deleteUser 2) lendingStore).2.users.map
        (fun u => (u._id, u.isActive)) = [(1, true), (2, false), (3, true)]) ∧
    ((userRoutes sampleEnv 0 none (.updateUser 2 malloryBody) lendingStore).1.map
        (fun r => match r with
          | .one b => (b.status, b.success)
          | .page _ => (0, false)) = .ok (200, true) ∧
      (userRoutes sampleEnv 0 none (.updateUser 2 malloryBody) lendingStore).2.users.map
        (fun u => (u._id, u.role)) = [(1, "Admin"), (2, "Admin"), (3, "Member")]) ∧
    ((userRoutes sampleEnv 0 none (.createUser malloryBody) lendingStore).1.map
        (fun r => match r with
          | .one b => (b.status, b.success)
          | .page _ => (0, false)) = .ok (201, true) ∧
      (userRoutes sampleEnv 0 none (.createUser malloryBody) lendingStore).2.users.map
        (fun u => (u._id, u.role))
        = [(1, "Admin"), (2, "Member"), (3, "Member"), (4, "Admin")]) := by
  refine ⟨fun _ _ _ _ _ => rfl, ⟨by decide, by decide⟩, ⟨by decide, by decide⟩,
    ⟨by decide, by decide⟩⟩

/-! ## The password on the read paths -/

theorem users_no_password (page limit : Arg Int) (user : Option User) (s : Store)
    (resp : PageResponse UserDoc) (h : users page limit user s = .ok resp) :
    ∀ d ∈ resp.data, d.password = none := by
  have h1 := rethrow_ok _ _ _ h
  cases ha : requireAdmin user with
  | error e => simp [ha] at h1
  | ok u =>
    simp only [ha] at h1
    cases hp : User.findPage s ((toNumber (page.orDefault 1) - 1) * toNumber (limit.orDefault 10))
        (limit.orDefault 10) with
    | error e => simp [hp] at h1
    | ok found =>
      simp only [hp, Except.ok.injEq] at h1
      subst h1
      intro d hd
      simp only [List.mem_map] at hd
      obtain ⟨x, -, rfl⟩ := hd
      rfl

theorem user_no_password (id : Nat) (currentUser : Option User) (s : Store)
    (resp : UserResponse) (h : user id currentUser s = .ok resp) :
    ∀ d, resp.data = some d → d.password = none := by
  have h1 := rethrow_ok _ _ _ h
  cases currentUser with
  | none => simp [requireAuth] at h1
  | some caller =>
    simp only [requireAuth] at h1
    split_ifs at h1
    cases hf : User.findById s id with
    | none => simp [hf] at h1
    | some u =>
      simp only [hf] at h1
      split_ifs at h1
      simp only [Except.ok.injEq] at h1
      subst h1
      intro d hd
      simp only [Option.some.injEq] at hd
      subst hd
      rfl

theorem me_no_password (currentUser : Option User) (s : Store)
    (resp : UserResponse) (h : me currentUser s = .ok resp) :
    ∀ d, resp.data = some d → d.password = none := by
  have h1 := rethrow_ok _ _ _ h
  cases currentUser with
  | none => simp [requireAuth] at h1
  | some caller =>
    simp only [requireAuth] at h1
    cases hf : User.findById s caller._id with
    | none => simp [hf] at h1
    | some u =>
      simp only [hf, Except.ok.injEq] at h1
      subst h1
      intro d hd
      simp only [Option.some.injEq] at hd
      subst hd
      rfl

theorem login_no_password (env : UserEnv) (email password : String) (s : Store)
    (resp : AuthResponse) (h : login env email password s = .ok resp) :
    ∀ d, resp.data = some d → d.password = none := by
  have h1 := rethrow_ok _ _ _ h
  cases hf : s.users.find? fun u => u.email = castEmail env (env.toLowerCase email) with
  | none => simp [hf] at h1
  | some u =>
    simp only [hf] at h1
    split_ifs at h1
    simp only [Except.ok.injEq] at h1
    subst h1
    intro d hd
    simp only [Option.some.injEq] at hd
    subst hd
    rfl

theorem register_no_password (env : UserEnv) (now : Int) (input : UserFields) (s : Store)
    (resp : AuthResponse) (h : (register env now input s).1 = .ok resp) :
    ∀ d, resp.data = some d → d.password = none := by
  unfold register at h
  generalize User.create env now input s = r at h
  rcases r with ⟨res, s1⟩
  cases res with
  | error e =>
    cases e <;> simp at h
  | ok u =>
    simp only [Except.ok.injEq] at h
    subst h
    intro d hd
    simp only [Option.some.injEq] at hd
    subst hd
    rfl

theorem createUser_no_password (env : UserEnv) (now : Int) (input : UserFields)
    (user : Option User) (s : Store) (resp : UserResponse)
    (h : (createUser env now input user s).1 = .ok resp) :
    ∀ d, resp.data = some d → d.password = none := by
  unfold createUser at h
  cases ha : requireAdmin user with
  | error e => simp [ha] at h
  | ok x =>
    simp only [ha] at h
    generalize User.create env now input s = r at h
    rcases r with ⟨res, s1⟩
    cases res with
    | error e =>
      cases e <;> simp at h
    | ok u =>
      simp only [Except.ok.injEq] at h
      subst h
      intro d hd
      simp only [Option.some.injEq] at hd
      subst hd
      rfl

theorem getUsers_no_password (page limit : Option String) (s : Store)
    (resp : PageResponse UserDoc) (h : UserController.getUsers page limit s = .ok resp) :
    ∀ d ∈ resp.data, d.password = none := by
  unfold UserController.getUsers at h
  simp only [] at h
  cases hp : User.findPage s ((queryPage page - 1) * queryLimit limit)
      (some (queryLimit limit)) with
  | error e => simp [hp] at h
  | ok found =>
    simp only [hp, Except.ok.injEq] at h
    subst h
    intro d hd
    simp only [List.mem_map] at hd
    obtain ⟨x, -, rfl⟩ := hd
    rfl

theorem userRoutes_no_password (env : UserEnv) (now : Int) (authorization : Option String)
    (req : UserRequest) (s : Store) (reply : UserReply)
    (h : (userRoutes env now authorization req s).1 = .ok reply) :
    ∀ d ∈ reply.docs, d.password = none := by
  cases req with
  | getUsers page limit =>
    simp only [userRoutes] at h
    cases hg : UserController.getUsers page limit s with
    | error e => simp [hg, Except.map] at h
    | ok resp =>
      simp only [hg, Except.map, Except.ok.injEq] at h
      subst h
      exact getUsers_no_password page limit s resp hg
  | createUser body =>
    simp only [userRoutes] at h
    cases hv : validateUser env.toLowerCase body with
    | error e => simp [hv] at h
    | ok body1 =>
      simp only [hv, UserController.createUser] at h
      generalize User.create env now body1.fields s = r at h
      rcases r with ⟨res, s1⟩
      cases res with
      | error e => simp [Except.map] at h
      | ok u =>
        simp only [Except.map, Except.ok.injEq] at h
        subst h
        intro d hd
        simp only [UserReply.docs, Option.toList, List.mem_singleton] at hd
        subst hd
        rfl
  | getUser id =>
    simp only [userRoutes, UserController.getUser] at h
    cases hf : User.findById s id with
    | none => simp [hf, Except.map] at h
    | some u =>
      simp only [hf, Except.map, Except.ok.injEq] at h
      subst h
      intro d hd
      simp only [UserReply.docs, Option.toList, List.mem_singleton] at hd
      subst hd
      rfl
  | updateUser id body =>
    simp only [userRoutes] at h
    cases hv : validateUser env.toLowerCase body with
    | error e => simp [hv] at h
    | ok body1 =>
      simp only [hv, UserController.updateUser] at h
      generalize User.findByIdAndUpdate env id body1.fields s = r at h
      rcases r with ⟨res, s1⟩
      cases res with
      | error e => simp [Except.map] at h
      | ok o =>
        cases o with
        | none => simp [Except.map] at h
        | some u =>
          simp only [Except.map, Except.ok.injEq] at h
          subst h
          intro d hd
          simp only [UserReply.docs, Option.toList, List.mem_singleton] at hd
          subst hd
          rfl
  | deleteUser id =>
    simp only [userRoutes, UserController.deleteUser] at h
    cases hf : User.findById s id with
    | none => simp [hf, Except.map] at h
    | some u =>
      simp only [hf, Except.map, Except.ok.injEq] at h
      subst h
      intro d hd
      simp [UserReply.docs] at hd

theorem lookupUserDetails_map (upd : User → User) (hid : ∀ u, (upd u)._id = u._id)
    (users : List User) (gs : List UserGroup) :
    lookupUserDetails (users.map upd) gs
      = (lookupUserDetails users gs).map fun d => (d.1, upd d.2) := by
  unfold lookupUserDetails
  rw [List.map_flatMap]
  congr 1
  funext g
  rw [List.filter_map, List.map_map, List.map_map]
  have hf : ((fun u : User => decide (u._id = g._id)) ∘ upd)
      = fun u : User => decide (u._id = g._id) := by
    funext u
    simp [hid u]
  rw [hf]
  rfl

theorem mostActivePipeline_withPasswords {β : Type} (proj : User → β) (g : User → String)
    (now : Int) (limit : Option Int) (s : Store) :
    mostActivePipeline proj now limit (withPasswords g s)
      = mostActivePipeline (fun u => proj { u with password := g u }) now limit s := by
  unfold mostActivePipeline withPasswords
  simp only []
  rw [lookupUserDetails_map (fun u => { u with password := g u }) (fun _ => rfl),
    List.filter_map, List.map_map]
  rfl

theorem getMostActiveMembers_withPasswords (g : User → String) (now : Int)
    (q : Option String) (s : Store) :
    getMostActiveMembers now q (withPasswords g s) = getMostActiveMembers now q s := by
  unfold getMostActiveMembers
  simp only [mostActivePipeline_withPasswords]
  rfl

/-- C23 (counterexample): the answer of the GraphQL resolver
`mostActiveMembers` on `memberStore` carries, in the user of each entry, the
stored password hash. -/
theorem mostActiveMembers_carries_password :
    (mostActiveMembers 2000000000 Arg.absent (some (sampleUser 1 "Admin")) memberStore).map
        (fun r => r.data.map fun e => (e.user._id, e.user.password))
      = .ok [(1, "$2a$12$hash"), (2, "$2a$12$hash")] := by
  decide!

/-- C23 (amended): `toPublicJSON` returns the document with `password` and
`__v` removed and every other field unchanged; for every store and caller no
user document in an answer of the GraphQL operations users, user, me, login,
register and createUser or of the REST user router holds a password; and the
answer of the REST handler of mostActiveMembers does not depend on the stored
passwords. -/
theorem password_not_returned (env : UserEnv) (now : Int) (s : Store) :
    (∀ d : UserDoc, d.toPublicJSON.password = none ∧ d.toPublicJSON.__v = none ∧
      d.toPublicJSON._id = d._id ∧ d.toPublicJSON.name = d.name ∧
      d.toPublicJSON.email = d.email ∧ d.toPublicJSON.role = d.role ∧
      d.toPublicJSON.isActive = d.isActive ∧
      d.toPublicJSON.membershipDate = d.membershipDate ∧
      d.toPublicJSON.createdAt = d.createdAt ∧
      d.toPublicJSON.activeBorrowCount = d.activeBorrowCount) ∧
    (∀ page limit caller resp, users page limit caller s = .ok resp →
      ∀ d ∈ resp.data, d.password = none) ∧
    (∀ id caller resp, user id caller s = .ok resp →
      ∀ d, resp.data = some d → d.password = none) ∧
    (∀ caller resp, me caller s = .ok resp → ∀ d, resp.data = some d → d.password = none) ∧
    (∀ email password resp, login env email password s = .ok resp →
      ∀ d, resp.data = some d → d.password = none) ∧
    (∀ input resp, (register env now input s).1 = .ok resp →
      ∀ d, resp.data = some d → d.password = none) ∧
    (∀ input caller resp, (createUser env now input caller s).1 = .ok resp →
      ∀ d, resp.data = some d → d.password = none) ∧
    (∀ authorization req reply, (userRoutes env now authorization req s).1 = .ok reply →
      ∀ d ∈ reply.docs, d.password = none) ∧
    (∀ g q, getMostActiveMembers now q (withPasswords g s) = getMostActiveMembers now q s) :=
  ⟨fun _ => ⟨rfl, rfl, rfl, rfl, rfl, rfl, rfl, rfl, rfl, rfl⟩,
    fun page limit caller resp h => users_no_password page limit caller s resp h,
    fun id caller resp h => user_no_password id caller s resp h,
    fun caller resp h => me_no_password caller s resp h,
    fun email password resp h => login_no_password env email password s resp h,
    fun input resp h => register_no_password env now input s resp h,
    fun input caller resp h => createUser_no_password env now input caller s resp h,
    fun authorization req reply h => userRoutes_no_password env now authorization req s reply h,
    fun g q => getMostActiveMembers_withPasswords g now q s⟩

theorem password_not_returned_witness :
    (register sampleEnv 0 adaInput lendingStore).1 = .ok adaRegistered ∧
    ((register sampleEnv 0 adaInput lendingStore).2.users.map fun u => (u._id, u.password))
      = [(1, "$2a$12$hash"), (2, "$2a$12$hash"), (3, "$2a$12$hash"),
         (4, "$2a$12$analytical")] ∧
    ∀ d, adaRegistered.data = some d → d.password = none :=
  ⟨by decide!, by decide!,
    (password_not_returned sampleEnv 0 lendingStore).2.2.2.2.2.1 adaInput adaRegistered
      (by decide!)⟩

end Huemn
